import Mathlib

/-!
# aws-eks-asg-rolling-update-handler: the drift classifier and the reconciliation engine

A shallow embedding of `main.go`.  Go pointers are `Option`s, a Go `error` is its message,
the interfaces the engine consumes (`k8s.KubernetesClientApi`, `ec2iface.EC2API`,
`autoscalingiface.AutoScalingAPI`, reached through the helpers of the packages `k8s` and
`cloud`) are a record of state-passing functions over an arbitrary world state, and a run
records every adapter call together with what the call returned.  A nil dereference or an
index out of range is an explicit `panic` outcome.
-/

namespace aws

/-- The SDK helper `aws.StringValue`: the pointed-to string, or the empty string for nil. -/
def StringValue : Option String → String
  | some s => s
  | none => ""

/-- The SDK helper `aws.Int64Value`: the pointed-to integer, or zero for nil. -/
def Int64Value : Option Int → Int
  | some n => n
  | none => 0

end aws

namespace autoscaling

/-- The SDK type `autoscaling.LaunchTemplateSpecification`; every field is a `*string`. -/
structure LaunchTemplateSpecification where
  LaunchTemplateId : Option String
  LaunchTemplateName : Option String
  Version : Option String
deriving DecidableEq, Repr

/-- The SDK type `autoscaling.Instance`, with the fields the handler reads. -/
structure Instance where
  InstanceId : Option String
  LaunchConfigurationName : Option String
  LaunchTemplate : Option LaunchTemplateSpecification
  LifecycleState : Option String
deriving DecidableEq, Repr

/-- The SDK type `autoscaling.LaunchTemplate` (the template of a mixed instances policy). -/
structure LaunchTemplate where
  LaunchTemplateSpecification : Option LaunchTemplateSpecification
deriving DecidableEq, Repr

/-- The SDK type `autoscaling.MixedInstancesPolicy`. -/
structure MixedInstancesPolicy where
  LaunchTemplate : Option LaunchTemplate
deriving DecidableEq, Repr

/-- The SDK type `autoscaling.Group`, with the fields the handler reads.  The integers are
`*int64`; the elements of `Instances` are non-nil, as the SDK delivers them. -/
structure Group where
  AutoScalingGroupName : Option String
  LaunchConfigurationName : Option String
  LaunchTemplate : Option LaunchTemplateSpecification
  MixedInstancesPolicy : Option MixedInstancesPolicy
  Instances : List Instance
  DesiredCapacity : Option Int
  MaxSize : Option Int
deriving DecidableEq, Repr

end autoscaling

namespace ec2

/-- The SDK type `ec2.LaunchTemplate`; the version numbers are `*int64`. -/
structure LaunchTemplate where
  LaunchTemplateId : Option String
  LaunchTemplateName : Option String
  DefaultVersionNumber : Option Int
  LatestVersionNumber : Option Int
deriving DecidableEq, Repr

end ec2

namespace v1

/-- The API type `v1.Taint`; `TimeAdded` is a `*metav1.Time`, an instant as an integer. -/
structure Taint where
  Key : String
  Effect : String
  TimeAdded : Option Int
deriving DecidableEq, Repr

/-- The API type `v1.NodeCondition` (its fields `Type` and `Status`). -/
structure NodeCondition where
  Type_ : String
  Status : String
deriving DecidableEq, Repr

/-- The API type `v1.NodeSpec`. -/
structure NodeSpec where
  Taints : List Taint
deriving DecidableEq, Repr

/-- The API type `v1.NodeStatus`. -/
structure NodeStatus where
  Conditions : List NodeCondition
deriving DecidableEq, Repr

/-- The API type `v1.Node`.  `Annotations` is the `map[string]string` of the object
metadata, kept as an association list that is read at the first entry of a key. -/
structure Node where
  Name : String
  Annotations : List (String × String)
  Spec : NodeSpec
  Status : NodeStatus
deriving DecidableEq, Repr

/-- The API constant `v1.NodeReady`. -/
def NodeReady : String := "Ready"

/-- The API constant `v1.ConditionTrue`. -/
def ConditionTrue : String := "True"

/-- The API constant `v1.TaintEffectNoSchedule`. -/
def TaintEffectNoSchedule : String := "NoSchedule"

end v1

namespace k8s

/-- Modelled from the spec: the constant `k8s.RollingUpdateStartedTimestampAnnotationKey`
is declared in package `k8s`, outside `main.go`; the spec names the key
`…/rolling-update-started-at`. -/
def RollingUpdateStartedTimestampAnnotationKey : String :=
  "aws-eks-asg-rolling-update-handler/rolling-update-started-at"

/-- Modelled from the spec: the constant `k8s.RollingUpdateDrainedTimestampAnnotationKey`
is declared in package `k8s`, outside `main.go`; the spec names the key
`…/rolling-update-drained-at`. -/
def RollingUpdateDrainedTimestampAnnotationKey : String :=
  "aws-eks-asg-rolling-update-handler/rolling-update-drained-at"

/-- Modelled from the spec: the constant `k8s.RollingUpdateTerminatedTimestampAnnotationKey`
is declared in package `k8s`, outside `main.go`; the spec names the key
`…/rolling-update-terminated-at`. -/
def RollingUpdateTerminatedTimestampAnnotationKey : String :=
  "aws-eks-asg-rolling-update-handler/rolling-update-terminated-at"

end k8s

namespace main

/-- What a Go call yields: a value, a returned `error`, or a run-time panic. -/
inductive Result (α : Type) where
  | ok (val : α)
  | error (msg : String)
  | panic
deriving DecidableEq, Repr

/-- What an adapter call yields: a value or a returned `error`. -/
inductive Reply (α : Type) where
  | ok (val : α)
  | error (msg : String)
deriving DecidableEq, Repr

/-- The decimal digits `fmt.Sprintf("%d", n)` prints for an `int64`. -/
def formatInt64 (n : Int) : String :=
  match n with
  | Int.ofNat m => Nat.repr m
  | Int.negSucc m => "-" ++ Nat.repr (m + 1)

/-- One of the two `switch *lt.Version` blocks of `compareLaunchTemplateVersions` (main.go
352-359 and 360-367): the version string after the tokens are replaced.  `none` is the nil
dereference of `targetTemplate` or of its version number. -/
def resolveVersion (targetTemplate : Option ec2.LaunchTemplate) (version : String) :
    Option String :=
  if version = "$Default" then
    match targetTemplate with
    | none => none
    | some t =>
      match t.DefaultVersionNumber with
      | none => none
      | some d => some (formatInt64 d)
  else if version = "$Latest" then
    match targetTemplate with
    | none => none
    | some t =>
      match t.LatestVersionNumber with
      | none => none
      | some l => some (formatInt64 l)
  else some version

/-- The function `compareLaunchTemplateVersions` of main.go (336-369); `none` is a panic. -/
def compareLaunchTemplateVersions (targetTemplate : Option ec2.LaunchTemplate)
    (lt1 lt2 : Option autoscaling.LaunchTemplateSpecification) : Option Bool :=
  match lt1, lt2 with
  | none, none => some true
  | none, some _ => some false
  | some _, none => some false
  | some a, some b =>
    match a.Version, b.Version with
    | none, none => some true
    | none, some _ => some false
    | some _, none => some false
    | some v1, some v2 =>
      match resolveVersion targetTemplate v1 with
      | none => none
      | some lt1version =>
        match resolveVersion targetTemplate v2 with
        | none => none
        | some lt2version => some (decide (lt1version = lt2version))

/-- The version substitution as the specification words it: `$Latest` becomes the decimal
rendering of the template's latest version number, `$Default` that of its default version
number, any other string stays; there is no rendering of a number that is not set. -/
def specResolve (template : ec2.LaunchTemplate) (version : String) : Option String :=
  if version = "$Latest" then template.LatestVersionNumber.map formatInt64
  else if version = "$Default" then template.DefaultVersionNumber.map formatInt64
  else some version

/-- The loop of `SeparateOutdatedFromUpdatedInstancesUsingLaunchConfiguration` (main.go
324-330) with its two accumulators; `none` is the dereference of a nil target name. -/
def launchConfigurationLoop (targetLaunchConfigurationName : Option String) :
    List autoscaling.Instance → List autoscaling.Instance → List autoscaling.Instance →
    Option (List autoscaling.Instance × List autoscaling.Instance)
  | [], oldInstances, newInstances => some (oldInstances, newInstances)
  | i :: rest, oldInstances, newInstances =>
    match i.LaunchConfigurationName with
    | none => launchConfigurationLoop targetLaunchConfigurationName rest
        (oldInstances ++ [i]) newInstances
    | some name =>
      match targetLaunchConfigurationName with
      | none => none
      | some target =>
        if name = target then
          launchConfigurationLoop targetLaunchConfigurationName rest
            oldInstances (newInstances ++ [i])
        else
          launchConfigurationLoop targetLaunchConfigurationName rest
            (oldInstances ++ [i]) newInstances

/-- The function `SeparateOutdatedFromUpdatedInstancesUsingLaunchConfiguration` of main.go
(319-332): the outdated list, then the updated list. -/
def SeparateOutdatedFromUpdatedInstancesUsingLaunchConfiguration
    (targetLaunchConfigurationName : Option String) (instances : List autoscaling.Instance) :
    Result (List autoscaling.Instance × List autoscaling.Instance) :=
  match launchConfigurationLoop targetLaunchConfigurationName instances [] [] with
  | none => Result.panic
  | some r => Result.ok r

/-- The loop of `SeparateOutdatedFromUpdatedInstancesUsingLaunchTemplate` (main.go 302-315):
the `switch` falls through to the outdated branch at the first case that holds, so a later
case is evaluated only when the earlier ones are false. -/
def launchTemplateLoop (targetTemplate : ec2.LaunchTemplate)
    (targetLaunchTemplate : autoscaling.LaunchTemplateSpecification) :
    List autoscaling.Instance → List autoscaling.Instance → List autoscaling.Instance →
    Option (List autoscaling.Instance × List autoscaling.Instance)
  | [], oldInstances, newInstances => some (oldInstances, newInstances)
  | i :: rest, oldInstances, newInstances =>
    match i.LaunchTemplate with
    | none => launchTemplateLoop targetTemplate targetLaunchTemplate rest
        (oldInstances ++ [i]) newInstances
    | some lt =>
      if aws.StringValue lt.LaunchTemplateName
          ≠ aws.StringValue targetLaunchTemplate.LaunchTemplateName then
        launchTemplateLoop targetTemplate targetLaunchTemplate rest
          (oldInstances ++ [i]) newInstances
      else if aws.StringValue lt.LaunchTemplateId
          ≠ aws.StringValue targetLaunchTemplate.LaunchTemplateId then
        launchTemplateLoop targetTemplate targetLaunchTemplate rest
          (oldInstances ++ [i]) newInstances
      else
        match compareLaunchTemplateVersions (some targetTemplate)
            (some targetLaunchTemplate) (some lt) with
        | none => none
        | some false => launchTemplateLoop targetTemplate targetLaunchTemplate rest
            (oldInstances ++ [i]) newInstances
        | some true => launchTemplateLoop targetTemplate targetLaunchTemplate rest
            oldInstances (newInstances ++ [i])

/-- The Go map read `m[key]` with its `ok` flag. -/
def mapLookup (m : List (String × String)) (key : String) : Option String :=
  match m with
  | [] => none
  | (k, v) :: rest => if k = key then some v else mapLookup rest key

/-- The Go builtin `delete(m, key)`. -/
def mapDelete (m : List (String × String)) (key : String) : List (String × String) :=
  m.filter (fun kv => decide (kv.1 ≠ key))

/-- The Go map write `m[key] = value`. -/
def mapInsert (m : List (String × String)) (key value : String) : List (String × String) :=
  (key, value) :: mapDelete m key

/-- The fields of the process configuration (`config.Get()`) that the handler reads. -/
structure config where
  Debug : Bool
  IgnoreDaemonSets : Bool
  DeleteLocalData : Bool
  CanIncreaseAutoScalingGroupMax : Bool
deriving DecidableEq, Repr

/-- An adapter call of the handler with its arguments and with what it returned. -/
inductive Call where
  | DescribeLaunchTemplateByID (id : String) (res : Reply (Option ec2.LaunchTemplate))
  | DescribeLaunchTemplateByName (name : String) (res : Reply (Option ec2.LaunchTemplate))
  | GetNodeByHostName (hostName : String) (res : Reply v1.Node)
  | UpdateNode (node : v1.Node) (err : Option String)
  | Drain (nodeName : String) (ignoreDaemonSets deleteLocalData : Bool) (err : Option String)
  | AnnotateNodeByHostName (hostName key value : String) (err : Option String)
  | CheckIfNodeHasEnoughResourcesToTransferAllPodsInNodes (node : v1.Node)
      (targetNodes : List v1.Node) (res : Bool)
  | TerminateEc2Instance (i : autoscaling.Instance) (err : Option String)
  | SetAutoScalingGroupDesiredCount (asg : autoscaling.Group) (count : Int)
      (err : Option String)
deriving DecidableEq, Repr

/-- A call, tagged with the instance of the loop iteration that issued it (the instance the
log lines of that iteration name); classification calls carry no instance. -/
structure Event where
  inst : Option autoscaling.Instance
  call : Call
deriving DecidableEq, Repr

/-- The collaborators of the handler over a world state `σ`: the methods of the interface
`k8s.KubernetesClientApi`, the helpers of the packages `k8s` and `cloud` (whose source
lies outside `main.go`, so they are parameters), and the clock of package `time`.
A successful `GetNodeByHostName` delivers a fresh non-nil node.  `Now` is
`time.Now().Format(time.RFC3339)`, `Parse` is `time.Parse(time.RFC3339, ·)` (`none` when it
returns an error) and `MinutesSince t` is `int(time.Since(t).Minutes())`. -/
structure Services (σ : Type) where
  GetNodeByHostName : String → σ → Reply v1.Node × σ
  UpdateNode : v1.Node → σ → Option String × σ
  Drain : String → Bool → Bool → σ → Option String × σ
  AnnotateNodeByHostName : String → String → String → σ → Option String × σ
  CheckIfNodeHasEnoughResourcesToTransferAllPodsInNodes :
    v1.Node → List v1.Node → σ → Bool × σ
  TerminateEc2Instance : autoscaling.Instance → σ → Option String × σ
  SetAutoScalingGroupDesiredCount : autoscaling.Group → Int → σ → Option String × σ
  DescribeLaunchTemplateByID : String → σ → Reply (Option ec2.LaunchTemplate) × σ
  DescribeLaunchTemplateByName : String → σ → Reply (Option ec2.LaunchTemplate) × σ
  Now : σ → String × σ
  Parse : String → Option Int
  MinutesSince : Int → σ → Int × σ

/-- A returned value with the world state after the call and the adapter calls issued. -/
structure Step (σ α : Type) where
  val : α
  st : σ
  calls : List Event
deriving DecidableEq

/-- The classification result: outdated list first, updated list second. -/
abbrev Classification := Result (List autoscaling.Instance × List autoscaling.Instance)

/-- The `switch` of `SeparateOutdatedFromUpdatedInstancesUsingLaunchTemplate` (main.go
285-296) that fetches the target template: by id when the id is set and non-empty, else by
name when the name is set and non-empty, else the error of the default case. -/
def describeTargetTemplate {σ : Type} (svc : Services σ)
    (target : autoscaling.LaunchTemplateSpecification) (s : σ) :
    Step σ (Result (Option ec2.LaunchTemplate)) :=
  if target.LaunchTemplateId ≠ none ∧ target.LaunchTemplateId ≠ some "" then
    let r := svc.DescribeLaunchTemplateByID (aws.StringValue target.LaunchTemplateId) s
    let ev : Event :=
      ⟨none, Call.DescribeLaunchTemplateByID (aws.StringValue target.LaunchTemplateId) r.1⟩
    match r.1 with
    | Reply.error e =>
      ⟨Result.error ("error retrieving information about launch template "
        ++ aws.StringValue target.LaunchTemplateId ++ ": " ++ e), r.2, [ev]⟩
    | Reply.ok t => ⟨Result.ok t, r.2, [ev]⟩
  else if target.LaunchTemplateName ≠ none ∧ target.LaunchTemplateName ≠ some "" then
    let r := svc.DescribeLaunchTemplateByName (aws.StringValue target.LaunchTemplateName) s
    let ev : Event :=
      ⟨none, Call.DescribeLaunchTemplateByName (aws.StringValue target.LaunchTemplateName) r.1⟩
    match r.1 with
    | Reply.error e =>
      ⟨Result.error ("error retrieving information about launch template name "
        ++ aws.StringValue target.LaunchTemplateName ++ ": " ++ e), r.2, [ev]⟩
    | Reply.ok t => ⟨Result.ok t, r.2, [ev]⟩
  else ⟨Result.error "invalid launch template name", s, []⟩

/-- The function `SeparateOutdatedFromUpdatedInstancesUsingLaunchTemplate` of main.go
(278-317).  A nil `targetLaunchTemplate` panics at its first use; a lookup that returns no
template and no error is the error of the extra safety check. -/
def SeparateOutdatedFromUpdatedInstancesUsingLaunchTemplate {σ : Type} (svc : Services σ)
    (targetLaunchTemplate : Option autoscaling.LaunchTemplateSpecification)
    (instances : List autoscaling.Instance) (s : σ) : Step σ Classification :=
  match targetLaunchTemplate with
  | none => ⟨Result.panic, s, []⟩
  | some target =>
    let found := describeTargetTemplate svc target s
    match found.val with
    | Result.panic => ⟨Result.panic, found.st, found.calls⟩
    | Result.error e => ⟨Result.error e, found.st, found.calls⟩
    | Result.ok none => ⟨Result.error "no template found", found.st, found.calls⟩
    | Result.ok (some targetTemplate) =>
      match launchTemplateLoop targetTemplate target instances [] [] with
      | none => ⟨Result.panic, found.st, found.calls⟩
      | some r => ⟨Result.ok r, found.st, found.calls⟩

/-- The classification rule as the specification words it: an instance is updated when its
launch-template reference is non-null, its id and its name match those of the target (as
`aws.StringValue` reads them, an unset field reading as the empty string) and the version
comparison against the target holds. -/
def specUpdatedByLaunchTemplate (template : ec2.LaunchTemplate)
    (target : autoscaling.LaunchTemplateSpecification) (i : autoscaling.Instance) : Bool :=
  match i.LaunchTemplate with
  | none => false
  | some lt =>
    decide (aws.StringValue lt.LaunchTemplateId = aws.StringValue target.LaunchTemplateId)
    && decide (aws.StringValue lt.LaunchTemplateName
        = aws.StringValue target.LaunchTemplateName)
    && decide (compareLaunchTemplateVersions (some template) (some target) (some lt)
        = some true)

/-- The function `SeparateOutdatedFromUpdatedInstances` of main.go (260-276).  A nil `asg`
is outside the type; the launch template of a mixed instances policy is taken only when the
group has none of its own. -/
def SeparateOutdatedFromUpdatedInstances {σ : Type} (svc : Services σ)
    (asg : autoscaling.Group) (s : σ) : Step σ Classification :=
  let targetLaunchConfiguration := asg.LaunchConfigurationName
  let targetLaunchTemplate : Option autoscaling.LaunchTemplateSpecification :=
    match asg.LaunchTemplate with
    | some t => some t
    | none =>
      match asg.MixedInstancesPolicy with
      | none => none
      | some policy =>
        match policy.LaunchTemplate with
        | none => none
        | some lt => lt.LaunchTemplateSpecification
  match targetLaunchTemplate with
  | some t => SeparateOutdatedFromUpdatedInstancesUsingLaunchTemplate svc (some t)
      asg.Instances s
  | none =>
    match targetLaunchConfiguration with
    | some name =>
      ⟨SeparateOutdatedFromUpdatedInstancesUsingLaunchConfiguration (some name) asg.Instances,
        s, []⟩
    | none =>
      ⟨Result.error "AutoScalingGroup has neither launch template nor launch configuration",
        s, []⟩

/-- One of the three blocks of `getRollingUpdateTimestampsFromNode` (main.go 230-238,
239-247, 248-256): `-1` when the key is absent, the zero value of the named result when the
value does not parse, the minutes since the parsed instant otherwise. -/
def minutesSinceKey {σ : Type} (svc : Services σ) (node : v1.Node) (key : String) (s : σ) :
    Int × σ :=
  match mapLookup node.Annotations key with
  | none => (-1, s)
  | some value =>
    match svc.Parse value with
    | none => (0, s)
    | some at_ => svc.MinutesSince at_ s

/-- The function `getRollingUpdateTimestampsFromNode` of main.go (229-258): the triple
(minutesSinceStarted, minutesSinceDrained, minutesSinceTerminated) and the state after the
clock was read. -/
def getRollingUpdateTimestampsFromNode {σ : Type} (svc : Services σ) (node : v1.Node)
    (s : σ) : (Int × Int × Int) × σ :=
  let started := minutesSinceKey svc node k8s.RollingUpdateStartedTimestampAnnotationKey s
  let drained := minutesSinceKey svc node k8s.RollingUpdateDrainedTimestampAnnotationKey
    started.2
  let terminated := minutesSinceKey svc node
    k8s.RollingUpdateTerminatedTimestampAnnotationKey drained.2
  ((started.1, drained.1, terminated.1), terminated.2)

/-- What the scan of the taints finds in the cleanup of main.go (203-223). -/
inductive TaintScan where
  | notFound
  | found (index : Nat)
  | panic
deriving DecidableEq, Repr

/-- The `for i, taint := range updatedNode.Spec.Taints` scan of main.go (203-223) up to its
`break`: the index of the first `NoSchedule` taint for which the started-at value does not
parse or whose `TimeAdded` is after the parsed instant.  When the value parses and
`taint.TimeAdded` is nil, `taint.TimeAdded.Time` is a nil dereference. -/
def scanTaints (parse : String → Option Int) (startedAtValue : String) :
    List v1.Taint → Nat → TaintScan
  | [], _ => TaintScan.notFound
  | taint :: rest, i =>
    if taint.Effect = v1.TaintEffectNoSchedule then
      match parse startedAtValue with
      | none => TaintScan.found i
      | some startedAt =>
        match taint.TimeAdded with
        | none => TaintScan.panic
        | some timeAdded =>
          if timeAdded > startedAt then TaintScan.found i
          else scanTaints parse startedAtValue rest (i + 1)
    else scanTaints parse startedAtValue rest (i + 1)

/-- What the cleanup writes into the node object before `UpdateNode` (main.go 212-214):
the taint at the index is cut out and the started-at key is deleted. -/
def cleanedNode (updatedNode : v1.Node) (index : Nat) : v1.Node :=
  { updatedNode with
    Spec := { updatedNode.Spec with Taints := updatedNode.Spec.Taints.eraseIdx index }
    Annotations := mapDelete updatedNode.Annotations
      k8s.RollingUpdateStartedTimestampAnnotationKey }

/-- The cleanup block of `getReadyNodesAndNumberOfNonReadyNodesOrInstances` (main.go
199-224) for one updated node: the node object as the block leaves it (`none` for a panic).
The error of `UpdateNode` is logged and dropped. -/
def cleanUpdatedNode {σ : Type} (svc : Services σ) (updatedInstance : autoscaling.Instance)
    (updatedNode : v1.Node) (s : σ) : Step σ (Option v1.Node) :=
  match mapLookup updatedNode.Annotations k8s.RollingUpdateStartedTimestampAnnotationKey with
  | none => ⟨some updatedNode, s, []⟩
  | some startedAtValue =>
    match scanTaints svc.Parse startedAtValue updatedNode.Spec.Taints 0 with
    | TaintScan.notFound => ⟨some updatedNode, s, []⟩
    | TaintScan.panic => ⟨none, s, []⟩
    | TaintScan.found i =>
      let node := cleanedNode updatedNode i
      let r := svc.UpdateNode node s
      ⟨some node, r.2, [⟨some updatedInstance, Call.UpdateNode node r.1⟩]⟩

/-- Whether the last entry of `status.conditions` is `Ready` with status `True` (main.go
187); `none` is the index `len(conditions)-1` out of range on an empty list. -/
def lastConditionReady (node : v1.Node) : Option Bool :=
  match node.Status.Conditions.getLast? with
  | none => none
  | some kubeletCondition =>
    some (decide (kubeletCondition.Type_ = v1.NodeReady
      ∧ kubeletCondition.Status = v1.ConditionTrue))

/-- The loop of `getReadyNodesAndNumberOfNonReadyNodesOrInstances` (main.go 173-225) with
its two accumulators.  The ready list holds pointers, so a node appended at line 188 shows
the cleanup that follows.  The counter is a Go `int`, which a list length cannot overflow.
`none` is a panic: a nil `LifecycleState`, an empty condition list, or the cleanup. -/
def readyLoop {σ : Type} (svc : Services σ) :
    List autoscaling.Instance → List v1.Node → Nat → σ → Step σ (Option (List v1.Node × Nat))
  | [], updatedReadyNodes, n, s => ⟨some (updatedReadyNodes, n), s, []⟩
  | updatedInstance :: rest, updatedReadyNodes, n, s =>
    match updatedInstance.LifecycleState with
    | none => ⟨none, s, []⟩
    | some state =>
      if state ≠ "InService" then readyLoop svc rest updatedReadyNodes (n + 1) s
      else
        let r := svc.GetNodeByHostName (aws.StringValue updatedInstance.InstanceId) s
        let ev : Event := ⟨some updatedInstance,
          Call.GetNodeByHostName (aws.StringValue updatedInstance.InstanceId) r.1⟩
        match r.1 with
        | Reply.error _ =>
          let t := readyLoop svc rest updatedReadyNodes n r.2
          ⟨t.val, t.st, ev :: t.calls⟩
        | Reply.ok updatedNode =>
          match lastConditionReady updatedNode with
          | none => ⟨none, r.2, [ev]⟩
          | some ready =>
            let c := cleanUpdatedNode svc updatedInstance updatedNode r.2
            match c.val with
            | none => ⟨none, c.st, ev :: c.calls⟩
            | some node =>
              let t :=
                if ready then readyLoop svc rest (updatedReadyNodes ++ [node]) n c.st
                else readyLoop svc rest updatedReadyNodes (n + 1) c.st
              ⟨t.val, t.st, ev :: (c.calls ++ t.calls)⟩

/-- The function `getReadyNodesAndNumberOfNonReadyNodesOrInstances` of main.go (170-227). -/
def getReadyNodesAndNumberOfNonReadyNodesOrInstances {σ : Type} (svc : Services σ)
    (updatedInstances : List autoscaling.Instance) (s : σ) :
    Step σ (Option (List v1.Node × Nat)) :=
  readyLoop svc updatedInstances [] 0 s

/-- How the body of a loop of `HandleRollingUpgrade` ends: `continue` (or the end of the
body), `return` out of the function, or a panic. -/
inductive Flow where
  | next
  | ret
  | crash
deriving DecidableEq, Repr

/-- The 64-bit two's complement value of an integer: Go's `int64` arithmetic wraps. -/
def wrapInt64 (n : Int) : Int :=
  (n + 2 ^ 63) % 2 ^ 64 - 2 ^ 63

/-- The termination step of main.go (137-152) for one outdated instance, entered after the
drain step: nothing when terminated-at is read, else the termination request, whose
success is followed by the terminated-at annotation write (its error dropped, `_ =`) and
by the `return` of line 152. -/
def terminateStep {σ : Type} (svc : Services σ) (outdatedInstance : autoscaling.Instance)
    (minutesSinceTerminated : Int) (s : σ) : Step σ Flow :=
  if minutesSinceTerminated = -1 then
    let t := svc.TerminateEc2Instance outdatedInstance s
    let evT : Event := ⟨some outdatedInstance, Call.TerminateEc2Instance outdatedInstance t.1⟩
    match t.1 with
    | some _ => ⟨Flow.next, t.2, [evT]⟩
    | none =>
      let now := svc.Now t.2
      let a := svc.AnnotateNodeByHostName (aws.StringValue outdatedInstance.InstanceId)
        k8s.RollingUpdateTerminatedTimestampAnnotationKey now.1 now.2
      ⟨Flow.ret, a.2, [evT, ⟨some outdatedInstance, Call.AnnotateNodeByHostName
        (aws.StringValue outdatedInstance.InstanceId)
        k8s.RollingUpdateTerminatedTimestampAnnotationKey now.1 a.1⟩]⟩
  else ⟨Flow.next, s, []⟩

/-- The branch of main.go (107-117) for a node without started-at: the started-at
annotation is written, and the loop goes on with the next instance whether or not the write
returned an error. -/
def startRollout {σ : Type} (svc : Services σ) (outdatedInstance : autoscaling.Instance)
    (s : σ) : Step σ Flow :=
  let now := svc.Now s
  let a := svc.AnnotateNodeByHostName (aws.StringValue outdatedInstance.InstanceId)
    k8s.RollingUpdateStartedTimestampAnnotationKey now.1 now.2
  ⟨Flow.next, a.2, [⟨some outdatedInstance, Call.AnnotateNodeByHostName
    (aws.StringValue outdatedInstance.InstanceId)
    k8s.RollingUpdateStartedTimestampAnnotationKey now.1 a.1⟩]⟩

/-- The branch of main.go (123-152) taken when the updated nodes have enough resources: the
drain step, then the termination step.  The error of the drained-at annotation write is
dropped (`_ =`). -/
def drainAndTerminate {σ : Type} (svc : Services σ) (cfg : config)
    (outdatedInstance : autoscaling.Instance) (node : v1.Node)
    (minutesSinceDrained minutesSinceTerminated : Int) (s : σ) : Step σ Flow :=
  if minutesSinceDrained = -1 then
    let d := svc.Drain node.Name cfg.IgnoreDaemonSets cfg.DeleteLocalData s
    let evD : Event := ⟨some outdatedInstance,
      Call.Drain node.Name cfg.IgnoreDaemonSets cfg.DeleteLocalData d.1⟩
    match d.1 with
    | some _ => ⟨Flow.next, d.2, [evD]⟩
    | none =>
      let now := svc.Now d.2
      let a := svc.AnnotateNodeByHostName (aws.StringValue outdatedInstance.InstanceId)
        k8s.RollingUpdateDrainedTimestampAnnotationKey now.1 now.2
      let evA : Event := ⟨some outdatedInstance, Call.AnnotateNodeByHostName
        (aws.StringValue outdatedInstance.InstanceId)
        k8s.RollingUpdateDrainedTimestampAnnotationKey now.1 a.1⟩
      let t := terminateStep svc outdatedInstance minutesSinceTerminated a.2
      ⟨t.val, t.st, evD :: evA :: t.calls⟩
  else terminateStep svc outdatedInstance minutesSinceTerminated s

/-- The branch of main.go (154-162) taken when the updated nodes lack resources: the desired
count of the group plus one is requested, in `int64` arithmetic; a nil `DesiredCapacity` is
a nil dereference. -/
def increaseDesiredCount {σ : Type} (svc : Services σ)
    (autoScalingGroup : autoscaling.Group) (outdatedInstance : autoscaling.Instance)
    (s : σ) : Step σ Flow :=
  match autoScalingGroup.DesiredCapacity with
  | none => ⟨Flow.crash, s, []⟩
  | some desired =>
    let r := svc.SetAutoScalingGroupDesiredCount autoScalingGroup (wrapInt64 (desired + 1)) s
    let evS : Event := ⟨some outdatedInstance,
      Call.SetAutoScalingGroupDesiredCount autoScalingGroup (wrapInt64 (desired + 1)) r.1⟩
    match r.1 with
    | some _ => ⟨Flow.next, r.2, [evS]⟩
    | none => ⟨Flow.ret, r.2, [evS]⟩

/-- The body of the loop over the outdated instances (main.go 103-164) once the node of
the instance is at hand. -/
def handleOutdatedNode {σ : Type} (svc : Services σ) (cfg : config)
    (autoScalingGroup : autoscaling.Group) (updatedReadyNodes : List v1.Node)
    (outdatedInstance : autoscaling.Instance) (node : v1.Node) (s : σ) : Step σ Flow :=
  let ts := getRollingUpdateTimestampsFromNode svc node s
  let minutesSinceStarted := ts.1.1
  let minutesSinceDrained := ts.1.2.1
  let minutesSinceTerminated := ts.1.2.2
  if minutesSinceStarted = -1 then startRollout svc outdatedInstance ts.2
  else
    let c := svc.CheckIfNodeHasEnoughResourcesToTransferAllPodsInNodes node
      updatedReadyNodes ts.2
    let evC : Event := ⟨some outdatedInstance,
      Call.CheckIfNodeHasEnoughResourcesToTransferAllPodsInNodes node updatedReadyNodes c.1⟩
    let t :=
      if c.1 then
        drainAndTerminate svc cfg outdatedInstance node minutesSinceDrained
          minutesSinceTerminated c.2
      else increaseDesiredCount svc autoScalingGroup outdatedInstance c.2
    ⟨t.val, t.st, evC :: t.calls⟩

/-- The body of the loop over the outdated instances in `HandleRollingUpgrade` (main.go
96-164) for one instance: the node lookup, then the handling of the node. -/
def handleOutdatedInstance {σ : Type} (svc : Services σ) (cfg : config)
    (autoScalingGroup : autoscaling.Group) (updatedReadyNodes : List v1.Node)
    (outdatedInstance : autoscaling.Instance) (s : σ) : Step σ Flow :=
  let g := svc.GetNodeByHostName (aws.StringValue outdatedInstance.InstanceId) s
  let evG : Event := ⟨some outdatedInstance,
    Call.GetNodeByHostName (aws.StringValue outdatedInstance.InstanceId) g.1⟩
  match g.1 with
  | Reply.error _ => ⟨Flow.next, g.2, [evG]⟩
  | Reply.ok node =>
    let t := handleOutdatedNode svc cfg autoScalingGroup updatedReadyNodes outdatedInstance
      node g.2
    ⟨t.val, t.st, evG :: t.calls⟩

/-- The loop `for _, outdatedInstance := range outdatedInstances` of main.go (95-165). -/
def outdatedLoop {σ : Type} (svc : Services σ) (cfg : config)
    (autoScalingGroup : autoscaling.Group) (updatedReadyNodes : List v1.Node) :
    List autoscaling.Instance → σ → Step σ Flow
  | [], s => ⟨Flow.next, s, []⟩
  | outdatedInstance :: rest, s =>
    let r := handleOutdatedInstance svc cfg autoScalingGroup updatedReadyNodes
      outdatedInstance s
    match r.val with
    | Flow.next =>
      let t := outdatedLoop svc cfg autoScalingGroup updatedReadyNodes rest r.st
      ⟨t.val, t.st, r.calls ++ t.calls⟩
    | Flow.ret => r
    | Flow.crash => r

/-- What one pass of the loop over the groups did for its group: the classification that
`SeparateOutdatedFromUpdatedInstances` returned, the adapter calls in order, the world
state left, and how the pass ended. -/
structure GroupRun (σ : Type) where
  group : autoscaling.Group
  classified : Classification
  calls : List Event
  st : σ
  flow : Flow
deriving DecidableEq

/-- The body of the loop over the groups in `HandleRollingUpgrade` (main.go 64-167). -/
def handleAutoScalingGroup {σ : Type} (svc : Services σ) (cfg : config)
    (autoScalingGroup : autoscaling.Group) (s : σ) : GroupRun σ :=
  let c := SeparateOutdatedFromUpdatedInstances svc autoScalingGroup s
  match c.val with
  | Result.panic => ⟨autoScalingGroup, c.val, c.calls, c.st, Flow.crash⟩
  | Result.error _ => ⟨autoScalingGroup, c.val, c.calls, c.st, Flow.next⟩
  | Result.ok (outdatedInstances, updatedInstances) =>
    let r := getReadyNodesAndNumberOfNonReadyNodesOrInstances svc updatedInstances c.st
    match r.val with
    | none => ⟨autoScalingGroup, c.val, c.calls ++ r.calls, r.st, Flow.crash⟩
    | some (updatedReadyNodes, numberOfNonReadyNodesOrInstances) =>
      if outdatedInstances.length = 0 then
        ⟨autoScalingGroup, c.val, c.calls ++ r.calls, r.st, Flow.next⟩
      else if numberOfNonReadyNodesOrInstances ≠ 0 then
        ⟨autoScalingGroup, c.val, c.calls ++ r.calls, r.st, Flow.next⟩
      else
        let l := outdatedLoop svc cfg autoScalingGroup updatedReadyNodes outdatedInstances r.st
        ⟨autoScalingGroup, c.val, c.calls ++ r.calls ++ l.calls, l.st, l.val⟩

/-- What one call of `HandleRollingUpgrade` did: one record per group it reached, in
order, the world state left, and whether it ended in a panic. -/
structure Tick (σ : Type) where
  runs : List (GroupRun σ)
  st : σ
  crashed : Bool
deriving DecidableEq

/-- The function `HandleRollingUpgrade` of main.go (63-168), one tick.  The `return`
statements of lines 152 and 162 leave the function, so the groups after the current one are
not reached in that tick. -/
def HandleRollingUpgrade {σ : Type} (svc : Services σ) (cfg : config) :
    List autoscaling.Group → σ → Tick σ
  | [], s => ⟨[], s, false⟩
  | autoScalingGroup :: rest, s =>
    let r := handleAutoScalingGroup svc cfg autoScalingGroup s
    match r.flow with
    | Flow.next =>
      let t := HandleRollingUpgrade svc cfg rest r.st
      ⟨r :: t.runs, t.st, t.crashed⟩
    | Flow.ret => ⟨[r], r.st, false⟩
    | Flow.crash => ⟨[r], r.st, true⟩

/-! ## An in-memory cluster and cloud

The implementations of the adapters lie outside `main.go`.  The world below is the
in-memory double the specification describes for tests: it holds the node objects, hands
out scripted failures, and records the cloud requests. -/

/-- Modelled from the spec: the in-memory double of the cluster and the cloud (section 9,
adapter seams).  `failures` scripts the adapter calls, one entry per call, `true` making the
call return an error; `enough` scripts the answers of the capacity check. -/
structure World where
  nodes : List v1.Node
  templates : List ec2.LaunchTemplate
  failures : List Bool
  enough : List Bool
  clock : Int
  desired : List (String × Int)
  terminated : List String
deriving DecidableEq, Repr

/-- Modelled from the spec: the next scripted failure flag; an exhausted script lets every
call succeed. -/
def World.nextFailure (w : World) : Bool × World :=
  match w.failures with
  | [] => (false, w)
  | b :: rest => (b, { w with failures := rest })

/-- Modelled from the spec: `GetNodeByHostName(instanceId)`, the node whose name is the
host name (section 3: a node is matched to an instance by hostname == instance-id). -/
def World.GetNodeByHostName (hostName : String) (w : World) : Reply v1.Node × World :=
  let f := w.nextFailure
  if f.1 then (Reply.error "scripted failure", f.2)
  else
    match f.2.nodes.find? (fun n => decide (n.Name = hostName)) with
    | none => (Reply.error "node not found", f.2)
    | some n => (Reply.ok n, f.2)

/-- Modelled from the spec: the node list after the object of that name is replaced. -/
def replaceNode (nodes : List v1.Node) (node : v1.Node) : List v1.Node :=
  nodes.map (fun n => if n.Name = node.Name then node else n)

/-- Modelled from the spec: `UpdateNode(node)`, which persists the node object. -/
def World.UpdateNode (node : v1.Node) (w : World) : Option String × World :=
  let f := w.nextFailure
  if f.1 then (some "scripted failure", f.2)
  else if f.2.nodes.any (fun n => decide (n.Name = node.Name)) then
    (none, { f.2 with nodes := replaceNode f.2.nodes node })
  else (some "node not found", f.2)

/-- Modelled from the spec: `AnnotateNodeByHostName(instanceId, key, value)` of package
`k8s`, whose source lies outside `main.go`: it looks the node up by host name, sets
the annotation and persists the node through `UpdateNode`. -/
def World.AnnotateNodeByHostName (hostName key value : String) (w : World) :
    Option String × World :=
  let g := w.GetNodeByHostName hostName
  match g.1 with
  | Reply.error e => (some e, g.2)
  | Reply.ok node =>
    World.UpdateNode { node with Annotations := mapInsert node.Annotations key value } g.2

/-- Modelled from the spec: `Drain(name, ignoreDaemonSets, deleteLocalData)`, which cordons
the node; the cordon shows as a `NoSchedule` taint added at the current instant. -/
def World.Drain (nodeName : String) (_ignoreDaemonSets _deleteLocalData : Bool) (w : World) :
    Option String × World :=
  let f := w.nextFailure
  if f.1 then (some "scripted failure", f.2)
  else
    (none, { f.2 with nodes := f.2.nodes.map (fun n =>
      if n.Name = nodeName then
        { n with Spec := { n.Spec with Taints := n.Spec.Taints ++
            [⟨"node.kubernetes.io/unschedulable", v1.TaintEffectNoSchedule, some f.2.clock⟩] } }
      else n) })

/-- Modelled from the spec: `CheckIfNodeHasEnoughResourcesToTransferAllPodsInNodes`, whose
answer is scripted; an exhausted script answers that the resources do not suffice. -/
def World.CheckIfNodeHasEnoughResourcesToTransferAllPodsInNodes (_node : v1.Node)
    (_targetNodes : List v1.Node) (w : World) : Bool × World :=
  match w.enough with
  | [] => (false, w)
  | b :: rest => (b, { w with enough := rest })

/-- Modelled from the spec: `TerminateEc2Instance(instance)`, which records the request. -/
def World.TerminateEc2Instance (i : autoscaling.Instance) (w : World) :
    Option String × World :=
  let f := w.nextFailure
  if f.1 then (some "scripted failure", f.2)
  else (none, { f.2 with terminated := f.2.terminated ++ [aws.StringValue i.InstanceId] })

/-- Modelled from the spec: `SetAutoScalingGroupDesiredCount(asg, n)`, which records the
requested capacity under the name of the group. -/
def World.SetAutoScalingGroupDesiredCount (asg : autoscaling.Group) (count : Int)
    (w : World) : Option String × World :=
  let f := w.nextFailure
  if f.1 then (some "scripted failure", f.2)
  else (none, { f.2 with
    desired := f.2.desired ++ [(aws.StringValue asg.AutoScalingGroupName, count)] })

/-- Modelled from the spec: `DescribeLaunchTemplateByID`, a lookup among the templates. -/
def World.DescribeLaunchTemplateByID (id : String) (w : World) :
    Reply (Option ec2.LaunchTemplate) × World :=
  let f := w.nextFailure
  if f.1 then (Reply.error "scripted failure", f.2)
  else
    match f.2.templates.find? (fun t => decide (t.LaunchTemplateId = some id)) with
    | none => (Reply.error "launch template not found", f.2)
    | some t => (Reply.ok (some t), f.2)

/-- Modelled from the spec: `DescribeLaunchTemplateByName`, a lookup among the templates. -/
def World.DescribeLaunchTemplateByName (name : String) (w : World) :
    Reply (Option ec2.LaunchTemplate) × World :=
  let f := w.nextFailure
  if f.1 then (Reply.error "scripted failure", f.2)
  else
    match f.2.templates.find? (fun t => decide (t.LaunchTemplateName = some name)) with
    | none => (Reply.error "launch template not found", f.2)
    | some t => (Reply.ok (some t), f.2)

/-- The value of a string of decimal digits, most significant first. -/
def digitsValue : List Char → Nat → Option Nat
  | [], acc => some acc
  | c :: rest, acc =>
    if c.isDigit then digitsValue rest (acc * 10 + (c.toNat - 48)) else none

/-- Modelled from the spec: the timestamps of the in-memory world are instants written as
decimal digits, which stand in for the RFC 3339 text; anything else does not parse. -/
def World.Parse (value : String) : Option Int :=
  match value.data with
  | [] => none
  | cs => (digitsValue cs 0).map Int.ofNat

/-- Modelled from the spec: the services of the in-memory world.  The clock counts
minutes and does not move during a tick. -/
def World.services : Services World where
  GetNodeByHostName := World.GetNodeByHostName
  UpdateNode := World.UpdateNode
  Drain := World.Drain
  AnnotateNodeByHostName := World.AnnotateNodeByHostName
  CheckIfNodeHasEnoughResourcesToTransferAllPodsInNodes :=
    World.CheckIfNodeHasEnoughResourcesToTransferAllPodsInNodes
  TerminateEc2Instance := World.TerminateEc2Instance
  SetAutoScalingGroupDesiredCount := World.SetAutoScalingGroupDesiredCount
  DescribeLaunchTemplateByID := World.DescribeLaunchTemplateByID
  DescribeLaunchTemplateByName := World.DescribeLaunchTemplateByName
  Now := fun w => (formatInt64 w.clock, w)
  Parse := World.Parse
  MinutesSince := fun t w => (w.clock - t, w)

/-- The configuration the tests run under (`config.Get()` on an unset configuration). -/
def testConfig : config := ⟨false, false, false, false⟩

/-- The helper `CreateTestAutoScalingInstance(id, launchConfigurationName, launchTemplate,
lifecycleState)` as the tests of main_test.go call it (an empty name is left unset). -/
def testInstance (id launchConfigurationName : String)
    (launchTemplate : Option autoscaling.LaunchTemplateSpecification)
    (lifeCycleState : String) : autoscaling.Instance :=
  ⟨some id, if launchConfigurationName = "" then none else some launchConfigurationName,
    launchTemplate, some lifeCycleState⟩

/-- The helper `CreateTestAutoScalingGroup(name, launchConfigurationName, launchTemplate,
instances, ...)` as the tests call it, with desired capacity and maximum size explicit. -/
def testGroup (name launchConfigurationName : String)
    (instances : List autoscaling.Instance) (desired max : Int) : autoscaling.Group :=
  ⟨some name, some launchConfigurationName, none, none, instances, some desired, some max⟩

/-- A node object with a name, annotations, taints and one `Ready` condition. -/
def testNode (name : String) (annotations : List (String × String))
    (taints : List v1.Taint) (ready : String) : v1.Node :=
  ⟨name, annotations, ⟨taints⟩, ⟨[⟨v1.NodeReady, ready⟩]⟩⟩

/-- The group of the classification test of main_test.go (101-118): two instances on
launch configuration `v1`, one on `v2`, the group targeting `v2`. -/
def classificationMixGroup : autoscaling.Group :=
  testGroup "asg" "v2"
    [testInstance "old-1" "v1" none "InService", testInstance "old-2" "v1" none "InService",
     testInstance "new" "v2" none "InService"] 0 999

/-- A world without nodes, templates or scripted failures. -/
def emptyWorld : World := ⟨[], [], [], [], 0, [], []⟩

/-- The target of the launch-template tests of main_test.go (52-99), with a version. -/
def testTarget (version : String) : autoscaling.LaunchTemplateSpecification :=
  ⟨some "id", some "name", some version⟩

/-- The template of the launch-template tests of main_test.go: default version 1, latest
version 10. -/
def testTemplate : ec2.LaunchTemplate := ⟨some "id", some "name", some 1, some 10⟩

/-- A world that holds the template of the launch-template tests. -/
def templateWorld : World := ⟨[], [testTemplate], [], [], 0, [], []⟩

/-! ## Predicates on calls and on nodes -/

/-- Whether the call is `SetAutoScalingGroupDesiredCount`. -/
def Call.isSetDesiredCount : Call → Bool
  | Call.SetAutoScalingGroupDesiredCount _ _ _ => true
  | _ => false

/-- Whether the call is `TerminateEc2Instance`. -/
def Call.isTerminate : Call → Bool
  | Call.TerminateEc2Instance _ _ => true
  | _ => false

/-- Whether the call is `Drain`. -/
def Call.isDrain : Call → Bool
  | Call.Drain _ _ _ _ => true
  | _ => false

/-- Whether the call is `AnnotateNodeByHostName`. -/
def Call.isAnnotate : Call → Bool
  | Call.AnnotateNodeByHostName _ _ _ _ => true
  | _ => false

/-- Whether the call changes what the cloud shows: a capacity request or a termination. -/
def Call.isCapacityOrTermination (c : Call) : Bool :=
  c.isSetDesiredCount || c.isTerminate

/-- Whether the call returned without an error. -/
def Call.succeeded : Call → Bool
  | Call.DescribeLaunchTemplateByID _ (Reply.ok _) => true
  | Call.DescribeLaunchTemplateByName _ (Reply.ok _) => true
  | Call.GetNodeByHostName _ (Reply.ok _) => true
  | Call.UpdateNode _ none => true
  | Call.Drain _ _ _ none => true
  | Call.AnnotateNodeByHostName _ _ _ none => true
  | Call.CheckIfNodeHasEnoughResourcesToTransferAllPodsInNodes _ _ _ => true
  | Call.TerminateEc2Instance _ none => true
  | Call.SetAutoScalingGroupDesiredCount _ _ none => true
  | _ => false

/-- Whether the annotation map holds the key. -/
def carries (annotations : List (String × String)) (key : String) : Bool :=
  (mapLookup annotations key).isSome

/-- The invariant I1 on one annotation map: drained-at only with started-at, and
terminated-at only with started-at and drained-at. -/
def markersConsistent (annotations : List (String × String)) : Bool :=
  (!carries annotations k8s.RollingUpdateDrainedTimestampAnnotationKey
    || carries annotations k8s.RollingUpdateStartedTimestampAnnotationKey)
  && (!carries annotations k8s.RollingUpdateTerminatedTimestampAnnotationKey
    || (carries annotations k8s.RollingUpdateStartedTimestampAnnotationKey
      && carries annotations k8s.RollingUpdateDrainedTimestampAnnotationKey))

/-- The invariant I1 on every node of a list. -/
def allConsistent (nodes : List v1.Node) : Bool :=
  nodes.all (fun n => markersConsistent n.Annotations)

/-! ## Concrete groups and worlds -/

/-- A group targeting launch configuration `v2` with two instances on `v1`. -/
def twoOutdatedGroup : autoscaling.Group :=
  testGroup "asg" "v2"
    [testInstance "old-1" "v1" none "InService", testInstance "old-2" "v1" none "InService"]
    2 999

/-- A world in which both nodes of `twoOutdatedGroup` carry started-at, the capacity check
answers that the resources do not suffice, and the second and the fourth adapter call (the
two capacity requests) return an error. -/
def capacityErrorWorld : World :=
  ⟨[testNode "old-1" [(k8s.RollingUpdateStartedTimestampAnnotationKey, "5")] [] "True",
    testNode "old-2" [(k8s.RollingUpdateStartedTimestampAnnotationKey, "5")] [] "True"],
   [], [false, true, false, true], [], 100, [], []⟩

/-- The group of `TestHandleRollingUpgrade`: one instance on `v1`, target `v2`. -/
def oneOutdatedGroup : autoscaling.Group :=
  testGroup "asg" "v2" [testInstance "old-1" "v1" none "InService"] 1 999

/-- A world in which the node of the outdated instance carries started-at, the resources
suffice, and the third scripted call, the node lookup inside the drained-at annotation
write, returns an error. -/
def droppedErrorWorld : World :=
  ⟨[testNode "old-1" [(k8s.RollingUpdateStartedTimestampAnnotationKey, "5")] [] "True"],
   [], [false, false, true], [true], 100, [], []⟩

/-- A group targeting `v2` whose only instance is on `v2`. -/
def oneUpdatedGroup : autoscaling.Group :=
  testGroup "asg" "v2" [testInstance "new-1" "v2" none "InService"] 1 999

/-- A world in which the node of the updated instance carries started-at and drained-at
and a `NoSchedule` taint added after started-at; no call fails. -/
def staleMarkersWorld : World :=
  ⟨[testNode "new-1" [(k8s.RollingUpdateStartedTimestampAnnotationKey, "5"),
      (k8s.RollingUpdateDrainedTimestampAnnotationKey, "6")]
      [⟨"node.kubernetes.io/unschedulable", v1.TaintEffectNoSchedule, some 6⟩] "True"],
   [], [], [], 100, [], []⟩

/-- Whether the event is a capacity request or a termination that returned no error. -/
def Event.isSuccessfulChange (e : Event) : Bool :=
  e.call.isCapacityOrTermination && e.call.succeeded

/-- Whether the call is one of the engine's actions on an outdated instance or on the
group: a capacity request, a drain, a termination or an annotation write. -/
def Call.isReconcileAction (c : Call) : Bool :=
  c.isSetDesiredCount || c.isDrain || c.isTerminate || c.isAnnotate

/-- Whether the event belongs to the handling of instance `i` with node name `nodeName`:
it is tagged with `i`, a termination is requested for `i` itself, and a drain is requested
for `nodeName`. -/
def Event.actsOn (i : autoscaling.Instance) (nodeName : String) (e : Event) : Bool :=
  decide (e.inst = some i) &&
  match e.call with
  | Call.TerminateEc2Instance j _ => decide (j = i)
  | Call.Drain name _ _ _ => decide (name = nodeName)
  | _ => true

/-- What precedes a termination request for instance `i`: among the earlier events `pre`
is the lookup that returned the node of `i`, and either that node carried drained-at or
a `Drain` of that node is among `pre` too and returned no error. -/
def DrainedBefore (pre : List Event) (i : autoscaling.Instance) : Prop :=
  ∃ node, (⟨some i, Call.GetNodeByHostName (aws.StringValue i.InstanceId)
      (Reply.ok node)⟩ : Event) ∈ pre
    ∧ (carries node.Annotations k8s.RollingUpdateDrainedTimestampAnnotationKey = true
      ∨ ∃ a b, (⟨some i, Call.Drain node.Name a b none⟩ : Event) ∈ pre)

/-- Every termination request in `l` is preceded as `DrainedBefore` says, the events `acc`
having been issued before `l`. -/
def TerminationsDrained (acc l : List Event) : Prop :=
  ∀ pre e post j err, l = pre ++ e :: post → e.call = Call.TerminateEc2Instance j err →
    DrainedBefore (acc ++ pre) j

/-- The outdated instance of `TestHandleRollingUpgrade`. -/
def oldInstance : autoscaling.Instance := testInstance "old-1" "v1" none "InService"

/-- The node of the outdated instance once it carries started-at. -/
def startedNode : v1.Node :=
  testNode "old-1" [(k8s.RollingUpdateStartedTimestampAnnotationKey, "5")] [] "True"

/-- The world of the second tick of `TestHandleRollingUpgrade`: the node of the outdated
instance carries started-at, the resources do not suffice, no call fails. -/
def startedWorld : World := ⟨[startedNode], [], [], [], 100, [], []⟩

/-- The world of the seventh tick of `TestHandleRollingUpgrade` as far as the outdated
instance goes: its node carries started-at, the resources suffice, no call fails. -/
def sufficientWorld : World := ⟨[startedNode], [], [], [true], 100, [], []⟩

/-- The updated instance of `TestHandleRollingUpgrade`. -/
def newInstance : autoscaling.Instance := testInstance "new-1" "v2" none "InService"

/-- The group of the sixth tick of `TestHandleRollingUpgrade`: the outdated instance and
the updated one. -/
def mixedGroup : autoscaling.Group := testGroup "asg" "v2" [oldInstance, newInstance] 2 999

/-- The node of the updated instance while its kubelet is not ready. -/
def notReadyNode : v1.Node := testNode "new-1" [] [] "False"

/-- The world of the sixth tick of `TestHandleRollingUpgrade`: the updated instance has
joined the cluster and its node is not ready. -/
def notReadyWorld : World := ⟨[startedNode, notReadyNode], [], [], [true], 100, [], []⟩

/-- The calls of the seventh tick of the test up to the termination: the lookup of the
node, the capacity check, the drain and the drained-at annotation write. -/
def callsBeforeTermination : List Event :=
  [⟨some oldInstance, Call.GetNodeByHostName "old-1" (Reply.ok startedNode)⟩,
   ⟨some oldInstance,
     Call.CheckIfNodeHasEnoughResourcesToTransferAllPodsInNodes startedNode [] true⟩,
   ⟨some oldInstance, Call.Drain "old-1" false false none⟩,
   ⟨some oldInstance, Call.AnnotateNodeByHostName "old-1"
     k8s.RollingUpdateDrainedTimestampAnnotationKey "100" none⟩]

/-- The termination request of the seventh tick of the test. -/
def terminationEvent : Event :=
  ⟨some oldInstance, Call.TerminateEc2Instance oldInstance none⟩

/-- The calls of the seventh tick of the test after the termination: the terminated-at
annotation write. -/
def callsAfterTermination : List Event :=
  [⟨some oldInstance, Call.AnnotateNodeByHostName "old-1"
     k8s.RollingUpdateTerminatedTimestampAnnotationKey "100" none⟩]

/-- The annotations of the node that a lookup by host name finds among the nodes. -/
def storeLookup (nodes : List v1.Node) (hostName : String) :
    Option (List (String × String)) :=
  (nodes.find? (fun n => decide (n.Name = hostName))).map (fun n => n.Annotations)

/-- Whether the event is a drained-at annotation write that returned an error (an error
that `HandleRollingUpgrade` drops before it goes on to the termination). -/
def Event.dropsDrainedWrite (e : Event) : Bool :=
  match e.call with
  | Call.AnnotateNodeByHostName _ key _ (some _) =>
    decide (key = k8s.RollingUpdateDrainedTimestampAnnotationKey)
  | _ => false

/-- Whether the event is a successful `UpdateNode` of a node object that carries drained-at
or terminated-at (the cleanup of an updated node, which deletes started-at alone). -/
def Event.strandsLaterMarker (e : Event) : Bool :=
  match e.call with
  | Call.UpdateNode node none =>
    carries node.Annotations k8s.RollingUpdateDrainedTimestampAnnotationKey
      || carries node.Annotations k8s.RollingUpdateTerminatedTimestampAnnotationKey
  | _ => false

/-! ## Definitions for the claims on errors, ordering and capacity requests -/

/-- The target launch template that `SeparateOutdatedFromUpdatedInstances` settles on
(main.go 265-269): the one of the group, else the one of its mixed instances policy. -/
def selectedLaunchTemplate (asg : autoscaling.Group) :
    Option autoscaling.LaunchTemplateSpecification :=
  match asg.LaunchTemplate with
  | some t => some t
  | none =>
    match asg.MixedInstancesPolicy with
    | none => none
    | some policy =>
      match policy.LaunchTemplate with
      | none => none
      | some lt => lt.LaunchTemplateSpecification

/-- The world of the fifth tick of `TestHandleRollingUpgrade`: the updated instance is
`InService`, its node has not joined the cluster, the node of the outdated instance carries
started-at, no call is scripted to fail. -/
def nodeAbsentWorld : World := ⟨[startedNode], [], [], [], 100, [], []⟩

/-- A second group with one outdated instance, next to `oneOutdatedGroup`. -/
def secondGroup : autoscaling.Group :=
  testGroup "asg-2" "v2" [testInstance "old-2" "v1" none "InService"] 1 999

/-- A world with the nodes of `oneOutdatedGroup` and of `secondGroup`, both carrying
started-at; the resources do not suffice and no call fails. -/
def twoGroupsWorld : World :=
  ⟨[startedNode,
    testNode "old-2" [(k8s.RollingUpdateStartedTimestampAnnotationKey, "5")] [] "True"],
   [], [], [], 100, [], []⟩

/-- The group of the third tick of `TestHandleRollingUpgrade`: as `oneOutdatedGroup`, now
reporting the desired capacity 2 that the second tick requested. -/
def afterRequestGroup : autoscaling.Group := testGroup "asg" "v2" [oldInstance] 2 999

/-- The node of the first tick of `TestHandleRollingUpgrade`: no annotation yet. -/
def freshNode : v1.Node := testNode "old-1" [] [] "True"

/-- The world of the first tick of `TestHandleRollingUpgrade`. -/
def freshWorld : World := ⟨[freshNode], [], [], [], 100, [], []⟩

/-- The group of `TestHandleRollingUpgrade_whenDesiredCapacityIsMaxCapacityBeforeRollingUpgrade`:
one outdated instance, desired capacity 1, maximum size 1. -/
def atMaxGroup : autoscaling.Group := testGroup "asg" "v2" [oldInstance] 1 1

/-- A group all of whose instances are on the target launch configuration. -/
def allUpdatedGroup : autoscaling.Group :=
  testGroup "asg" "v2"
    [testInstance "new-1" "v2" none "InService", testInstance "new-2" "v2" none "InService",
     testInstance "new-3" "v2" none "InService"] 3 999

/-- A world with the three ready nodes of `allUpdatedGroup`. -/
def allUpdatedWorld : World :=
  ⟨[testNode "new-1" [] [] "True", testNode "new-2" [] [] "True",
    testNode "new-3" [] [] "True"], [], [], [], 100, [], []⟩

/-- The node of an updated instance that carries started-at (written at instant 5) and two
`NoSchedule` taints: one set by hand, which has no `timeAdded`, and the cordon taint, added
at instant 6. -/
def handTaintedNode : v1.Node :=
  testNode "new-1" [(k8s.RollingUpdateStartedTimestampAnnotationKey, "5")]
    [⟨"dedicated", v1.TaintEffectNoSchedule, none⟩,
     ⟨"node.kubernetes.io/unschedulable", v1.TaintEffectNoSchedule, some 6⟩] "True"

/-- A world that holds `handTaintedNode`; no call fails. -/
def handTaintedWorld : World := ⟨[handTaintedNode], [], [], [], 100, [], []⟩

/-- A group without launch template, mixed instances policy or launch configuration. -/
def bareGroup : autoscaling.Group := ⟨some "asg", none, none, none, [oldInstance], some 1, some 1⟩

/-- A group whose launch template is the test target; the world `emptyWorld` holds no
template, so the lookup returns an error. -/
def templateGroup : autoscaling.Group :=
  ⟨some "asg", none, some (testTarget "v2"), none, [oldInstance], some 1, some 1⟩

/-- The place of a capacity request in the calls of a pass over a group, as main.go
(96-162) issues it.  The event `e`, found after the calls `pre` and before the calls
`post`, is the request of the desired capacity plus one (in `int64` arithmetic) for the
group itself, issued for an instance `i` of the outdated list right after the lookup of its
node, which carries started-at, and after the capacity check of that node against
`targets` returned false; when the request returns no error it is the last call and the
pass ends with `return`. -/
def CapacityRequestAt (asg : autoscaling.Group) (targets : List v1.Node)
    (outdated : List autoscaling.Instance) (pre : List Event) (e : Event)
    (post : List Event) (flow : Flow) : Prop :=
  ∃ (pre0 : List Event) (i : autoscaling.Instance) (node : v1.Node) (d : Int)
    (err : Option String),
    i ∈ outdated ∧ asg.DesiredCapacity = some d
    ∧ e = ⟨some i, Call.SetAutoScalingGroupDesiredCount asg (wrapInt64 (d + 1)) err⟩
    ∧ carries node.Annotations k8s.RollingUpdateStartedTimestampAnnotationKey = true
    ∧ pre = pre0 ++
        [⟨some i, Call.GetNodeByHostName (aws.StringValue i.InstanceId) (Reply.ok node)⟩,
         ⟨some i, Call.CheckIfNodeHasEnoughResourcesToTransferAllPodsInNodes node targets
           false⟩]
    ∧ (err = none → post = [] ∧ flow = Flow.ret)

/-- The answers of the adapters under which the handling of one outdated instance runs
through the drain and the termination (main.go 96-152), with the world states in between:
the lookup returns `node`; its started-at is read as set (the minutes are not `-1`) and it
has neither drained-at nor terminated-at; the capacity check returns true; `Drain` and
`TerminateEc2Instance` return no error; the two annotation writes, issued with the times
`now1` and `now2`, return `err1` and `err2` and leave the state `final`. -/
def DrainAndTerminateAnswers {σ : Type} (svc : Services σ) (cfg : config)
    (targets : List v1.Node) (i : autoscaling.Instance) (node : v1.Node) (s : σ)
    (now1 : String) (err1 : Option String) (now2 : String) (err2 : Option String)
    (final : σ) : Prop :=
  ∃ (ms : Int) (s1 s2 s3 s4 s5 s6 s7 s8 : σ),
    svc.GetNodeByHostName (aws.StringValue i.InstanceId) s = (Reply.ok node, s1)
    ∧ minutesSinceKey svc node k8s.RollingUpdateStartedTimestampAnnotationKey s1 = (ms, s2)
    ∧ ms ≠ -1
    ∧ mapLookup node.Annotations k8s.RollingUpdateDrainedTimestampAnnotationKey = none
    ∧ mapLookup node.Annotations k8s.RollingUpdateTerminatedTimestampAnnotationKey = none
    ∧ svc.CheckIfNodeHasEnoughResourcesToTransferAllPodsInNodes node targets s2 = (true, s3)
    ∧ svc.Drain node.Name cfg.IgnoreDaemonSets cfg.DeleteLocalData s3 = (none, s4)
    ∧ svc.Now s4 = (now1, s5)
    ∧ svc.AnnotateNodeByHostName (aws.StringValue i.InstanceId)
        k8s.RollingUpdateDrainedTimestampAnnotationKey now1 s5 = (err1, s6)
    ∧ svc.TerminateEc2Instance i s6 = (none, s7)
    ∧ svc.Now s7 = (now2, s8)
    ∧ svc.AnnotateNodeByHostName (aws.StringValue i.InstanceId)
        k8s.RollingUpdateTerminatedTimestampAnnotationKey now2 s8 = (err2, final)

/-- The calls of the handling of one outdated instance that runs through the drain and the
termination, in order: lookup, capacity check, drain, drained-at write, termination,
terminated-at write. -/
def drainAndTerminateCalls (cfg : config) (targets : List v1.Node)
    (i : autoscaling.Instance) (node : v1.Node) (now1 : String) (err1 : Option String)
    (now2 : String) (err2 : Option String) : List Event :=
  [⟨some i, Call.GetNodeByHostName (aws.StringValue i.InstanceId) (Reply.ok node)⟩,
   ⟨some i, Call.CheckIfNodeHasEnoughResourcesToTransferAllPodsInNodes node targets true⟩,
   ⟨some i, Call.Drain node.Name cfg.IgnoreDaemonSets cfg.DeleteLocalData none⟩,
   ⟨some i, Call.AnnotateNodeByHostName (aws.StringValue i.InstanceId)
     k8s.RollingUpdateDrainedTimestampAnnotationKey now1 err1⟩,
   ⟨some i, Call.TerminateEc2Instance i none⟩,
   ⟨some i, Call.AnnotateNodeByHostName (aws.StringValue i.InstanceId)
     k8s.RollingUpdateTerminatedTimestampAnnotationKey now2 err2⟩]

/-- The group with its `MaxSize` left unset. -/
def eraseMaxSize (g : autoscaling.Group) : autoscaling.Group :=
  { g with MaxSize := none }

/-- The call with `MaxSize` left unset in the group it passes. -/
def Call.eraseMaxSize : Call → Call
  | Call.SetAutoScalingGroupDesiredCount asg count err =>
    Call.SetAutoScalingGroupDesiredCount (main.eraseMaxSize asg) count err
  | c => c

/-- The event with `MaxSize` left unset in the group its call passes. -/
def Event.eraseMaxSize (e : Event) : Event :=
  ⟨e.inst, e.call.eraseMaxSize⟩

/-- The record of a pass with `MaxSize` left unset in its group and in its calls. -/
def GroupRun.eraseMaxSize {σ : Type} (r : GroupRun σ) : GroupRun σ :=
  ⟨main.eraseMaxSize r.group, r.classified, r.calls.map Event.eraseMaxSize, r.st, r.flow⟩

/-- Two step results agree up to the `MaxSize` of the groups their calls pass. -/
def Step.agree {σ α : Type} (x y : Step σ α) : Prop :=
  x.val = y.val ∧ x.st = y.st
    ∧ x.calls.map Event.eraseMaxSize = y.calls.map Event.eraseMaxSize

/-- The world that the seventh tick of `TestHandleRollingUpgrade` leaves: the node of the
outdated instance is cordoned and carries the three markers, and the termination of the
instance is recorded. -/
def drainedWorld : World :=
  ⟨[testNode "old-1"
      [(k8s.RollingUpdateTerminatedTimestampAnnotationKey, "100"),
       (k8s.RollingUpdateDrainedTimestampAnnotationKey, "100"),
       (k8s.RollingUpdateStartedTimestampAnnotationKey, "5")]
      [⟨"node.kubernetes.io/unschedulable", v1.TaintEffectNoSchedule, some 100⟩] "True"],
   [], [], [], 100, [], ["old-1"]⟩

/-! ## Definitions for the claims on skips, readings and readiness -/

/-- Whether the call is `GetNodeByHostName`. -/
def Call.isLookup : Call → Bool
  | Call.GetNodeByHostName _ _ => true
  | _ => false

/-- A node of the outdated instance whose started-at value is not a timestamp. -/
def garbledNode : v1.Node :=
  testNode "old-1" [(k8s.RollingUpdateStartedTimestampAnnotationKey, "yesterday")] [] "True"

/-- A world that holds `garbledNode`; the resources do not suffice and no call fails. -/
def garbledWorld : World := ⟨[garbledNode], [], [], [], 100, [], []⟩

/-- A node of the outdated instance that carries the three markers, written at the
instants 5, 6 and 7. -/
def markedNode : v1.Node :=
  testNode "old-1"
    [(k8s.RollingUpdateStartedTimestampAnnotationKey, "5"),
     (k8s.RollingUpdateDrainedTimestampAnnotationKey, "6"),
     (k8s.RollingUpdateTerminatedTimestampAnnotationKey, "7")] [] "True"

/-- A world at the instant 100 that holds `markedNode`; the resources do not suffice and no
call fails. -/
def markedWorld : World := ⟨[markedNode], [], [], [], 100, [], []⟩

/-- The same world with resources that suffice. -/
def markedSufficientWorld : World := ⟨[markedNode], [], [], [true], 100, [], []⟩

/-- A node of the outdated instance with started-at written at the instant 1 and drained-at
at the instant 5. -/
def aheadNode : v1.Node :=
  testNode "old-1"
    [(k8s.RollingUpdateStartedTimestampAnnotationKey, "1"),
     (k8s.RollingUpdateDrainedTimestampAnnotationKey, "5")] [] "True"

/-- A world whose clock stands at the instant 4, one minute before the drained-at of
`aheadNode` (the marker was written by a clock that runs ahead); the resources suffice and
no call fails. -/
def aheadWorld : World := ⟨[aheadNode], [], [], [true], 4, [], []⟩

/-- The nodes that the lookups of a call list returned, in the order of the calls. -/
def foundNodes (calls : List Event) : List v1.Node :=
  calls.filterMap (fun e =>
    match e.call with
    | Call.GetNodeByHostName _ (Reply.ok node) => some node
    | _ => none)

/-- The lookups of a call list, in order: the instance whose iteration issued the lookup
and the host name looked up. -/
def lookupsOf (calls : List Event) : List (Option autoscaling.Instance × String) :=
  calls.filterMap (fun e =>
    match e.call with
    | Call.GetNodeByHostName host _ => some (e.inst, host)
    | _ => none)

/-- The readiness rule as the specification words it: a node is ready iff its last
`status.conditions` entry is of type `Ready` and status `True`; otherwise not. -/
def specReady (node : v1.Node) : Bool :=
  match node.Status.Conditions.getLast? with
  | none => false
  | some condition => decide (condition.Type_ = "Ready" ∧ condition.Status = "True")

/-- Whether the instance counts as not `InService` (main.go 174). -/
def notInService (u : autoscaling.Instance) : Bool :=
  decide (u.LifecycleState ≠ some "InService")

/-- Whether the cleanup of main.go (199-224) panics on the node: the node carries
started-at and the scan of its taints dereferences a nil `TimeAdded`. -/
def cleanupPanics (parse : String → Option Int) (node : v1.Node) : Bool :=
  match mapLookup node.Annotations k8s.RollingUpdateStartedTimestampAnnotationKey with
  | none => false
  | some startedAtValue =>
    decide (scanTaints parse startedAtValue node.Spec.Taints 0 = TaintScan.panic)

/-- The node object as the cleanup of main.go (199-224) leaves it: cleaned when the scan
finds a taint to remove, as it was otherwise. -/
def afterCleanup (parse : String → Option Int) (node : v1.Node) : v1.Node :=
  match mapLookup node.Annotations k8s.RollingUpdateStartedTimestampAnnotationKey with
  | none => node
  | some startedAtValue =>
    match scanTaints parse startedAtValue node.Spec.Taints 0 with
    | TaintScan.found i => cleanedNode node i
    | _ => node

/-- A node of the updated instance that has joined the cluster and reports no condition
yet. -/
def silentNode : v1.Node := ⟨"new-1", [], ⟨[]⟩, ⟨[]⟩⟩

/-- A world that holds the started node of the outdated instance and `silentNode`. -/
def silentWorld : World := ⟨[startedNode, silentNode], [], [], [true], 100, [], []⟩

/-- The node stored under the host name, if there was one in `before`, is still stored in
`after` and carries every annotation key it carried. -/
def keepsMarkers (hostName : String) (before after : List v1.Node) : Prop :=
  ∀ a, storeLookup before hostName = some a →
    ∃ a2, storeLookup after hostName = some a2
      ∧ ∀ key, carries a key = true → carries a2 key = true

/-- A node of the outdated instance that carries started-at and drained-at, written at the
instants 5 and 6. -/
def halfwayNode : v1.Node :=
  testNode "old-1"
    [(k8s.RollingUpdateStartedTimestampAnnotationKey, "5"),
     (k8s.RollingUpdateDrainedTimestampAnnotationKey, "6")] [] "True"

/-- A world at the instant 100 that holds `halfwayNode`; the resources suffice and no call
fails. -/
def halfwayWorld : World := ⟨[halfwayNode], [], [], [true], 100, [], []⟩

/-- A world in which the node of the outdated instance carries started-at, the resources
suffice, the lookup succeeds and the drain returns an error. -/
def drainFailsWorld : World := ⟨[startedNode], [], [false, true], [true], 100, [], []⟩
/-! ## The configuration (config/config.go)

The functions of the Go standard library that `config.Initialize` calls are modelled on
strings of Unicode characters.  The case tables behind `unicode.ToLower` come with the Go
toolchain and follow its Unicode version; they are not part of the repository, so the
mapping of a rune to its lower case is a parameter `lower` of what depends on it. -/

namespace unicode

/-- The library function `unicode.IsSpace`: the runes with the Unicode White Space
property. -/
def IsSpace (r : Char) : Bool :=
  (decide (9 ≤ r.toNat) && decide (r.toNat ≤ 13)) || r.toNat == 32 || r.toNat == 133
    || r.toNat == 160 || r.toNat == 5760
    || (decide (8192 ≤ r.toNat) && decide (r.toNat ≤ 8202))
    || r.toNat == 8232 || r.toNat == 8233 || r.toNat == 8239 || r.toNat == 8287
    || r.toNat == 12288

/-- A lower-case mapping for the examples, given on the Latin-1 range, where it is what
`unicode.ToLower` returns: `A` to `Z`, `U+00C0` to `U+00D6` and `U+00D8` to `U+00DE` move
up by 32, every other rune up to `U+00FF` stays.  Above `U+00FF` it leaves every rune as it
is, which the library does not; the examples hold no such rune. -/
def latin1Lower (r : Char) : Char :=
  if (65 ≤ r.toNat ∧ r.toNat ≤ 90) ∨ (192 ≤ r.toNat ∧ r.toNat ≤ 214)
      ∨ (216 ≤ r.toNat ∧ r.toNat ≤ 222) then Char.ofNat (r.toNat + 32)
  else r

end unicode

namespace strings

/-- The library function `strings.ToLower`: every rune mapped to lower case by
`unicode.ToLower`, here the parameter `lower`. -/
def ToLower (lower : Char → Char) (s : String) : String :=
  ⟨s.data.map lower⟩

/-- The library function `strings.TrimSpace`: the string without its leading and trailing
white space. -/
def TrimSpace (s : String) : String :=
  ⟨((s.data.dropWhile unicode.IsSpace).reverse.dropWhile unicode.IsSpace).reverse⟩

/-- The pieces of a rune list between the occurrences of the separator; there is always
at least one piece. -/
def splitRunes (sep : Char) : List Char → List (List Char)
  | [] => [[]]
  | c :: cs =>
    if c = sep then [] :: splitRunes sep cs
    else
      match splitRunes sep cs with
      | [] => [[c]]
      | piece :: pieces => (c :: piece) :: pieces

/-- The library function `strings.Split` for a separator of one rune, as config.go calls
it: the substrings between the separators, one more than there are separators. -/
def Split (s : String) (sep : Char) : List String :=
  (splitRunes sep s.data).map String.mk

end strings

namespace os

/-- The library function `os.Getenv` over an environment: the value of the variable, the
empty string when the variable is not set. -/
def Getenv (env : String → Option String) (key : String) : String :=
  (env key).getD ""

end os

/-- The struct `config` of config.go with all its fields; `engine` holds the four fields
that the handler reads through `config.Get()`. -/
structure Configuration where
  Environment : String
  AutoScalingGroupNames : List String
  AwsRegion : String
  engine : config
deriving DecidableEq, Repr

namespace config

/-- The constant `EnvEnvironment`. -/
def EnvEnvironment : String := "ENVIRONMENT"

/-- The constant `EnvDebug`. -/
def EnvDebug : String := "DEBUG"

/-- The constant `EnvIgnoreDaemonSets`. -/
def EnvIgnoreDaemonSets : String := "IGNORE_DAEMON_SETS"

/-- The constant `EnvDeleteLocalData`. -/
def EnvDeleteLocalData : String := "DELETE_LOCAL_DATA"

/-- The constant `EnvAutoScalingGroupNames`. -/
def EnvAutoScalingGroupNames : String := "AUTO_SCALING_GROUP_NAMES"

/-- The constant `EnvCanIncreaseAutoScalingGroupMax`. -/
def EnvCanIncreaseAutoScalingGroupMax : String := "CAN_INCREASE_AUTO_SCALING_GROUP_MAX"

/-- The constant `EnvAwsRegion`. -/
def EnvAwsRegion : String := "AWS_REGION"

/-- The function `Initialize` of config.go (46-70) over an environment: the configuration
it stores in `cfg`, or the error it returns.  A boolean field that no branch sets keeps
the zero value `false`.  The parameter `lower` is the library mapping `unicode.ToLower`. -/
def Initialize (lower : Char → Char) (env : String → Option String) :
    Reply Configuration :=
  let environment := strings.ToLower lower (os.Getenv env EnvEnvironment)
  let debug := decide (strings.ToLower lower (os.Getenv env EnvDebug) = "true")
  let canIncreaseAutoScalingGroupMax :=
    decide (strings.ToLower lower (os.Getenv env EnvCanIncreaseAutoScalingGroupMax)
      = "true")
  let autoScalingGroupNames := os.Getenv env EnvAutoScalingGroupNames
  if autoScalingGroupNames.length = 0 then
    Reply.error "environment variable 'AUTO_SCALING_GROUP_NAMES' is not set"
  else
    let names := strings.Split (strings.TrimSpace autoScalingGroupNames) ','
    let ignoreDaemonSets := strings.ToLower lower (os.Getenv env EnvIgnoreDaemonSets)
    let deleteLocalData := strings.ToLower lower (os.Getenv env EnvDeleteLocalData)
    let awsRegion := strings.ToLower lower (os.Getenv env EnvAwsRegion)
    Reply.ok
      ⟨environment, names,
        if awsRegion.length = 0 then "us-west-2" else awsRegion,
        ⟨debug,
          decide (ignoreDaemonSets.length = 0 ∨ ignoreDaemonSets = "true"),
          decide (deleteLocalData.length = 0 ∨ deleteLocalData = "true"),
          canIncreaseAutoScalingGroupMax⟩⟩

end config

/-- Whether the string is `true` up to the case of its four letters. -/
def isTrueIgnoringCase (s : String) : Bool :=
  match s.data with
  | [a, b, c, d] =>
    (a == 't' || a == 'T') && (b == 'r' || b == 'R') && (c == 'u' || c == 'U')
      && (d == 'e' || d == 'E')
  | _ => false

/-- An environment given by a list of variables with their values. -/
def envOf (vars : List (String × String)) : String → Option String :=
  fun key => mapLookup vars key

/-! ## Definitions for the claims on version classes, target selection and the cleanup -/

/-- What `compareLaunchTemplateVersions` distinguishes in a reference: a null reference, a
reference without `Version`, or the version it resolves to. -/
inductive VersionClass where
  | null
  | unversioned
  | version (resolved : String)
deriving DecidableEq, Repr

/-- The class of a reference under a template: its version with `$Default` and `$Latest`
replaced (the empty string standing in when a number to render is not set). -/
def versionClass (template : ec2.LaunchTemplate) :
    Option autoscaling.LaunchTemplateSpecification → VersionClass
  | none => VersionClass.null
  | some lt =>
    match lt.Version with
    | none => VersionClass.unversioned
    | some v => VersionClass.version ((resolveVersion (some template) v).getD "")

/-- A group with a launch template of its own, a mixed instances policy with another
launch template, and a launch configuration name. -/
def crowdedGroup : autoscaling.Group :=
  ⟨some "asg", some "v2", some (testTarget "1"),
    some ⟨some ⟨some ⟨some "other-id", some "other-name", some "2"⟩⟩⟩,
    [testInstance "i-1" "v2" (some (testTarget "1")) "InService"], some 1, some 1⟩

/-- A node of the updated instance that carries started-at, written at the instant 5, and
a `NoSchedule` taint added at the instant 3, before it. -/
def earlyTaintNode : v1.Node :=
  testNode "new-1" [(k8s.RollingUpdateStartedTimestampAnnotationKey, "5")]
    [⟨"dedicated", v1.TaintEffectNoSchedule, some 3⟩] "True"

/-- A world that holds `earlyTaintNode`; no call fails. -/
def earlyTaintWorld : World := ⟨[earlyTaintNode], [], [], [], 100, [], []⟩

/-- A ready node of the updated instance that carries started-at, written at the instant 5,
and one `NoSchedule` taint set by hand, which has no `timeAdded`. -/
def dedicatedNode : v1.Node :=
  testNode "new-1" [(k8s.RollingUpdateStartedTimestampAnnotationKey, "5")]
    [⟨"dedicated", v1.TaintEffectNoSchedule, none⟩] "True"

/-- A world that holds `dedicatedNode`; no call fails. -/
def dedicatedWorld : World := ⟨[dedicatedNode], [], [], [], 100, [], []⟩

/-! # Theorems -/

/-! ## The drift classifier -/

theorem digitChar_ne_dollar (k : Nat) (h : k < 10) : Nat.digitChar k ≠ '$' := by
  interval_cases k <;> decide

theorem toDigitsCore_no_dollar (f : Nat) : ∀ (n : Nat) (ds : List Char),
    '$' ∉ ds → '$' ∉ Nat.toDigitsCore 10 f n ds := by
  induction f with
  | zero => intro n ds h; simpa [Nat.toDigitsCore] using h
  | succ f ih =>
    intro n ds h
    have hd : '$' ∉ Nat.digitChar (n % 10) :: ds := by
      simp only [List.mem_cons, not_or]
      exact ⟨fun e => digitChar_ne_dollar _ (Nat.mod_lt _ (by decide)) e.symm, h⟩
    simp only [Nat.toDigitsCore]
    split
    · exact hd
    · exact ih _ _ hd

theorem repr_no_dollar (n : Nat) : '$' ∉ (Nat.repr n).data := by
  simp only [Nat.repr, Nat.toDigits, List.asString]
  exact toDigitsCore_no_dollar _ _ _ (by simp)

theorem formatInt64_no_dollar (n : Int) : (formatInt64 n).data.head? ≠ some '$' := by
  cases n with
  | ofNat m =>
    simp only [formatInt64]
    intro h
    have := repr_no_dollar m
    cases hd : (Nat.repr m).data with
    | nil => rw [hd] at h; simp at h
    | cons c cs =>
      rw [hd] at h this
      simp at h this
      exact this.1 h.symm
  | negSucc m =>
    simp [formatInt64, String.data_append]

/-- A decimal rendering is never the token `$Latest`. -/
theorem formatInt64_ne_latest (n : Int) : formatInt64 n ≠ "$Latest" := by
  intro h
  have := formatInt64_no_dollar n
  rw [h] at this
  exact this (by decide)

/-- A decimal rendering is never the token `$Default`. -/
theorem formatInt64_ne_default (n : Int) : formatInt64 n ≠ "$Default" := by
  intro h
  have := formatInt64_no_dollar n
  rw [h] at this
  exact this (by decide)

/-- The switch block of the code and the substitution of the specification agree. -/
theorem resolveVersion_eq_specResolve (t : ec2.LaunchTemplate) (v : String) :
    resolveVersion (some t) v = specResolve t v := by
  unfold resolveVersion specResolve
  by_cases hd : v = "$Default"
  · subst hd
    have : ¬ ("$Default" : String) = "$Latest" := by decide
    simp only [this, if_false, if_true]
    cases t.DefaultVersionNumber <;> rfl
  · by_cases hl : v = "$Latest"
    · subst hl
      simp only [hd, if_false, if_true]
      cases t.LatestVersionNumber <;> rfl
    · simp only [hd, hl, if_false]

theorem launchConfigurationLoop_eq (target : String) :
    ∀ (instances oldInstances newInstances : List autoscaling.Instance),
      launchConfigurationLoop (some target) instances oldInstances newInstances
        = some (oldInstances ++ instances.filter
                  (fun i => !decide (i.LaunchConfigurationName = some target)),
                newInstances ++ instances.filter
                  (fun i => decide (i.LaunchConfigurationName = some target))) := by
  intro instances
  induction instances with
  | nil => intro o n; simp [launchConfigurationLoop]
  | cons i rest ih =>
    intro o n
    unfold launchConfigurationLoop
    cases h : i.LaunchConfigurationName with
    | none => simp [ih, h]
    | some name =>
      by_cases e : name = target
      · simp [ih, h, e]
      · simp [ih, h, e]

theorem launchTemplateLoop_eq (t : ec2.LaunchTemplate)
    (target : autoscaling.LaunchTemplateSpecification) :
    ∀ (instances oldInstances newInstances : List autoscaling.Instance)
      (r : List autoscaling.Instance × List autoscaling.Instance),
      launchTemplateLoop t target instances oldInstances newInstances = some r →
      r = (oldInstances ++ instances.filter (fun i => !specUpdatedByLaunchTemplate t target i),
           newInstances ++ instances.filter (fun i => specUpdatedByLaunchTemplate t target i)) := by
  intro instances
  induction instances with
  | nil => intro o n r h; simp [launchTemplateLoop] at h; simp [← h]
  | cons i rest ih =>
    intro o n r h
    unfold launchTemplateLoop at h
    cases hlt : i.LaunchTemplate with
    | none =>
      rw [hlt] at h
      have := ih _ _ _ h
      simp [this, specUpdatedByLaunchTemplate, hlt]
    | some lt =>
      rw [hlt] at h
      simp only [] at h
      by_cases hn : aws.StringValue lt.LaunchTemplateName
          = aws.StringValue target.LaunchTemplateName
      · by_cases hi : aws.StringValue lt.LaunchTemplateId
            = aws.StringValue target.LaunchTemplateId
        · simp only [hn, hi, ne_eq, not_true_eq_false, if_false] at h
          cases hc : compareLaunchTemplateVersions (some t) (some target) (some lt) with
          | none => rw [hc] at h; simp at h
          | some b =>
            rw [hc] at h
            cases b with
            | false =>
              have := ih _ _ _ h
              simp [this, specUpdatedByLaunchTemplate, hlt, hc]
            | true =>
              have := ih _ _ _ h
              simp [this, specUpdatedByLaunchTemplate, hlt, hc, hn, hi]
        · simp only [hn, hi, ne_eq, not_true_eq_false, not_false_eq_true, if_false,
            if_true] at h
          have := ih _ _ _ h
          simp [this, specUpdatedByLaunchTemplate, hlt, hi]
      · simp only [hn, ne_eq, not_false_eq_true, if_true] at h
        have := ih _ _ _ h
        simp [this, specUpdatedByLaunchTemplate, hlt, hn]

theorem resolveVersion_isSome (t : ec2.LaunchTemplate) (v : String)
    (hd : t.DefaultVersionNumber ≠ none) (hl : t.LatestVersionNumber ≠ none) :
    ∃ r, resolveVersion (some t) v = some r := by
  unfold resolveVersion
  cases h1 : t.DefaultVersionNumber with
  | none => exact absurd h1 hd
  | some d =>
    cases h2 : t.LatestVersionNumber with
    | none => exact absurd h2 hl
    | some l =>
      by_cases e1 : v = "$Default"
      · exact ⟨formatInt64 d, by simp [e1, h1]⟩
      · by_cases e2 : v = "$Latest"
        · exact ⟨formatInt64 l, by simp [e1, e2, h2]⟩
        · exact ⟨v, by simp [e1, e2]⟩

theorem compareLaunchTemplateVersions_isSome (t : ec2.LaunchTemplate)
    (a b : Option autoscaling.LaunchTemplateSpecification)
    (hd : t.DefaultVersionNumber ≠ none) (hl : t.LatestVersionNumber ≠ none) :
    ∃ r, compareLaunchTemplateVersions (some t) a b = some r := by
  cases a with
  | none => cases b <;> exact ⟨_, rfl⟩
  | some a =>
    cases b with
    | none => exact ⟨_, rfl⟩
    | some b =>
      cases ha : a.Version with
      | none =>
        cases hb : b.Version with
        | none => exact ⟨true, by simp [compareLaunchTemplateVersions, ha, hb]⟩
        | some v2 => exact ⟨false, by simp [compareLaunchTemplateVersions, ha, hb]⟩
      | some v1 =>
        cases hb : b.Version with
        | none => exact ⟨false, by simp [compareLaunchTemplateVersions, ha, hb]⟩
        | some v2 =>
          obtain ⟨r1, h1⟩ := resolveVersion_isSome t v1 hd hl
          obtain ⟨r2, h2⟩ := resolveVersion_isSome t v2 hd hl
          exact ⟨decide (r1 = r2), by simp [compareLaunchTemplateVersions, ha, hb, h1, h2]⟩

theorem launchTemplateLoop_isSome (t : ec2.LaunchTemplate)
    (target : autoscaling.LaunchTemplateSpecification)
    (hd : t.DefaultVersionNumber ≠ none) (hl : t.LatestVersionNumber ≠ none) :
    ∀ (instances oldInstances newInstances : List autoscaling.Instance),
      ∃ r, launchTemplateLoop t target instances oldInstances newInstances = some r := by
  intro instances
  induction instances with
  | nil => intro o n; exact ⟨_, rfl⟩
  | cons i rest ih =>
    intro o n
    unfold launchTemplateLoop
    cases hlt : i.LaunchTemplate with
    | none => exact ih _ _
    | some lt =>
      simp only []
      split
      · exact ih _ _
      · split
        · exact ih _ _
        · obtain ⟨b, hb⟩ := compareLaunchTemplateVersions_isSome t (some target) (some lt) hd hl
          rw [hb]
          cases b
          · exact ih _ _
          · exact ih _ _

theorem launchTemplateLoop_no_reference (t : ec2.LaunchTemplate)
    (target : autoscaling.LaunchTemplateSpecification) :
    ∀ (instances oldInstances newInstances : List autoscaling.Instance),
      (∀ i ∈ instances, i.LaunchTemplate = none) →
      launchTemplateLoop t target instances oldInstances newInstances
        = some (oldInstances ++ instances, newInstances) := by
  intro instances
  induction instances with
  | nil => intro o n _; simp [launchTemplateLoop]
  | cons i rest ih =>
    intro o n h
    unfold launchTemplateLoop
    have hi : i.LaunchTemplate = none := h i (List.mem_cons_self _ _)
    rw [hi]
    simp only []
    rw [ih _ _ (fun j hj => h j (List.mem_cons_of_mem _ hj))]
    simp

theorem describeTargetTemplate_version {σ : Type} (svc : Services σ)
    (id name v1 v2 : Option String) (s : σ) :
    describeTargetTemplate svc ⟨id, name, v1⟩ s = describeTargetTemplate svc ⟨id, name, v2⟩ s := by
  rfl

theorem separateUsingLaunchTemplate_of_template {σ : Type} (svc : Services σ)
    (target : autoscaling.LaunchTemplateSpecification)
    (instances : List autoscaling.Instance) (s : σ) (t : ec2.LaunchTemplate)
    (hlookup : (describeTargetTemplate svc target s).val = Result.ok (some t)) :
    (SeparateOutdatedFromUpdatedInstancesUsingLaunchTemplate svc (some target) instances s).val
      = match launchTemplateLoop t target instances [] [] with
        | none => Result.panic
        | some r => Result.ok r := by
  simp only [SeparateOutdatedFromUpdatedInstancesUsingLaunchTemplate, hlookup]
  cases launchTemplateLoop t target instances [] [] <;> rfl

/-- C6: when the lookup of the target template succeeds with template `t`, whatever
`SeparateOutdatedFromUpdatedInstancesUsingLaunchTemplate` returns has as updated list
exactly the instances whose launch-template reference is non-null, whose id and name match
the target (as `aws.StringValue` reads them) and for which `compareLaunchTemplateVersions`
holds, in their order, and as outdated list all the others; it returns such lists whenever
the template carries both version numbers, it never returns an error, and instances
without a launch-template reference are put in the outdated list without a panic. -/
theorem C6_launch_template_classification {σ : Type} (svc : Services σ)
    (target : autoscaling.LaunchTemplateSpecification)
    (instances : List autoscaling.Instance) (s : σ) (t : ec2.LaunchTemplate)
    (hlookup : (describeTargetTemplate svc target s).val = Result.ok (some t)) :
    (∀ old new,
      (SeparateOutdatedFromUpdatedInstancesUsingLaunchTemplate svc (some target)
        instances s).val = Result.ok (old, new) →
      new = instances.filter (fun i => specUpdatedByLaunchTemplate t target i)
      ∧ old = instances.filter (fun i => !specUpdatedByLaunchTemplate t target i))
    ∧ (t.DefaultVersionNumber ≠ none → t.LatestVersionNumber ≠ none →
      (SeparateOutdatedFromUpdatedInstancesUsingLaunchTemplate svc (some target)
        instances s).val
        = Result.ok (instances.filter (fun i => !specUpdatedByLaunchTemplate t target i),
            instances.filter (fun i => specUpdatedByLaunchTemplate t target i)))
    ∧ (∀ e, (SeparateOutdatedFromUpdatedInstancesUsingLaunchTemplate svc (some target)
        instances s).val ≠ Result.error e)
    ∧ ((∀ i ∈ instances, i.LaunchTemplate = none) →
      (SeparateOutdatedFromUpdatedInstancesUsingLaunchTemplate svc (some target)
        instances s).val = Result.ok (instances, [])) := by
  rw [separateUsingLaunchTemplate_of_template svc target instances s t hlookup]
  refine ⟨?_, ?_, ?_, ?_⟩
  · intro old new h
    cases hl : launchTemplateLoop t target instances [] [] with
    | none => rw [hl] at h; simp at h
    | some r =>
      rw [hl] at h
      have e := launchTemplateLoop_eq t target instances [] [] r hl
      simp only [Result.ok.injEq] at h
      rw [h] at e
      simp only [List.nil_append, Prod.mk.injEq] at e
      exact ⟨e.2, e.1⟩
  · intro hd hl
    obtain ⟨r, hr⟩ := launchTemplateLoop_isSome t target hd hl instances [] []
    have e := launchTemplateLoop_eq t target instances [] [] r hr
    rw [hr, e]
    simp
  · intro e
    cases launchTemplateLoop t target instances [] [] <;> simp
  · intro h
    rw [launchTemplateLoop_no_reference t target instances [] [] h]
    simp

/-- C7: for every target name and every instance list,
`SeparateOutdatedFromUpdatedInstancesUsingLaunchConfiguration` returns no error (and does
not panic); the updated list is, in order, the instances whose `LaunchConfigurationName`
is set and equals the target name, the outdated list is all the others. -/
theorem C7_launch_configuration_classification (target : String)
    (instances : List autoscaling.Instance) :
    SeparateOutdatedFromUpdatedInstancesUsingLaunchConfiguration (some target) instances
      = Result.ok
          (instances.filter (fun i => !decide (i.LaunchConfigurationName = some target)),
           instances.filter (fun i => decide (i.LaunchConfigurationName = some target))) := by
  simp [SeparateOutdatedFromUpdatedInstancesUsingLaunchConfiguration,
    launchConfigurationLoop_eq]

/-- C8: `compareLaunchTemplateVersions` returns true for two null references and false
when exactly one is null; for two references whose `Version` is set it returns the string
equality of the two resolved versions, where `$Latest` resolves to the decimal rendering
of the template's latest version number, `$Default` to that of its default version number
and any other string to itself (and it panics exactly when a number to render is not
set); with both numbers set every version resolves. -/
theorem C8_compareLaunchTemplateVersions_policy :
    (∀ tt, compareLaunchTemplateVersions tt none none = some true)
    ∧ (∀ tt a, compareLaunchTemplateVersions tt none (some a) = some false
        ∧ compareLaunchTemplateVersions tt (some a) none = some false)
    ∧ (∀ t id1 name1 v1 id2 name2 v2,
        compareLaunchTemplateVersions (some t) (some ⟨id1, name1, some v1⟩)
          (some ⟨id2, name2, some v2⟩)
        = (specResolve t v1).bind (fun x => (specResolve t v2).map (fun y => decide (x = y))))
    ∧ (∀ id name d l v, specResolve ⟨id, name, some d, some l⟩ v
        = some (if v = "$Latest" then formatInt64 l
                else if v = "$Default" then formatInt64 d else v)) := by
  refine ⟨fun _ => rfl, fun _ _ => ⟨rfl, rfl⟩, ?_, ?_⟩
  · intro t id1 name1 v1 id2 name2 v2
    simp only [compareLaunchTemplateVersions, resolveVersion_eq_specResolve]
    cases specResolve t v1 with
    | none => rfl
    | some x =>
      cases specResolve t v2 with
      | none => rfl
      | some y => rfl
  · intro id name d l v
    unfold specResolve
    split
    · rfl
    · split <;> rfl

theorem compare_latest_token (t : ec2.LaunchTemplate) (n : Int)
    (hn : t.LatestVersionNumber = some n) (id name : Option String)
    (lt : Option autoscaling.LaunchTemplateSpecification) :
    compareLaunchTemplateVersions (some t) (some ⟨id, name, some "$Latest"⟩) lt
      = compareLaunchTemplateVersions (some t) (some ⟨id, name, some (formatInt64 n)⟩) lt := by
  have h1 : resolveVersion (some t) "$Latest" = some (formatInt64 n) := by
    simp [resolveVersion, hn]
  have h2 : resolveVersion (some t) (formatInt64 n) = some (formatInt64 n) := by
    simp [resolveVersion, formatInt64_ne_latest, formatInt64_ne_default]
  cases lt with
  | none => rfl
  | some b =>
    cases hb : b.Version with
    | none => simp [compareLaunchTemplateVersions, hb]
    | some v => simp [compareLaunchTemplateVersions, hb, h1, h2]

theorem compare_default_token (t : ec2.LaunchTemplate) (d : Int)
    (hd : t.DefaultVersionNumber = some d) (id name : Option String)
    (lt : Option autoscaling.LaunchTemplateSpecification) :
    compareLaunchTemplateVersions (some t) (some ⟨id, name, some "$Default"⟩) lt
      = compareLaunchTemplateVersions (some t) (some ⟨id, name, some (formatInt64 d)⟩) lt := by
  have h1 : resolveVersion (some t) "$Default" = some (formatInt64 d) := by
    simp [resolveVersion, hd]
  have h2 : resolveVersion (some t) (formatInt64 d) = some (formatInt64 d) := by
    simp [resolveVersion, formatInt64_ne_latest, formatInt64_ne_default]
  cases lt with
  | none => rfl
  | some b =>
    cases hb : b.Version with
    | none => simp [compareLaunchTemplateVersions, hb]
    | some v => simp [compareLaunchTemplateVersions, hb, h1, h2]

theorem launchTemplateLoop_congr (t : ec2.LaunchTemplate) (id name v1 v2 : Option String)
    (h : ∀ lt, compareLaunchTemplateVersions (some t) (some ⟨id, name, v1⟩) lt
      = compareLaunchTemplateVersions (some t) (some ⟨id, name, v2⟩) lt) :
    ∀ (instances oldInstances newInstances : List autoscaling.Instance),
      launchTemplateLoop t ⟨id, name, v1⟩ instances oldInstances newInstances
        = launchTemplateLoop t ⟨id, name, v2⟩ instances oldInstances newInstances := by
  intro instances
  induction instances with
  | nil => intro o n; rfl
  | cons i rest ih =>
    intro o n
    unfold launchTemplateLoop
    cases i.LaunchTemplate with
    | none => exact ih _ _
    | some lt =>
      simp only [h (some lt), ih]

theorem separateUsingLaunchTemplate_congr {σ : Type} (svc : Services σ)
    (id name v1 v2 : Option String) (instances : List autoscaling.Instance) (s : σ)
    (h : ∀ t, (describeTargetTemplate svc ⟨id, name, v1⟩ s).val = Result.ok (some t) →
      ∀ lt, compareLaunchTemplateVersions (some t) (some ⟨id, name, v1⟩) lt
        = compareLaunchTemplateVersions (some t) (some ⟨id, name, v2⟩) lt) :
    SeparateOutdatedFromUpdatedInstancesUsingLaunchTemplate svc (some ⟨id, name, v1⟩)
        instances s
      = SeparateOutdatedFromUpdatedInstancesUsingLaunchTemplate svc (some ⟨id, name, v2⟩)
        instances s := by
  simp only [SeparateOutdatedFromUpdatedInstancesUsingLaunchTemplate]
  rw [describeTargetTemplate_version svc id name v2 v1 s]
  cases hv : (describeTargetTemplate svc ⟨id, name, v1⟩ s).val with
  | panic => rfl
  | error e => rfl
  | ok o =>
    cases o with
    | none => rfl
    | some t =>
      simp only []
      rw [launchTemplateLoop_congr t id name v1 v2 (h t hv)]

/-- C9: when the lookup of the target template succeeds with template `t`, a target whose
`Version` is `$Latest` and the target that differs only in having the decimal string of the
template's latest version number as `Version` yield the same result of
`SeparateOutdatedFromUpdatedInstancesUsingLaunchTemplate` (same outdated list, same updated
list, same calls and state); likewise for `$Default` and the default version number. -/
theorem C9_version_token_invariance {σ : Type} (svc : Services σ)
    (id name : Option String) (instances : List autoscaling.Instance) (s : σ)
    (t : ec2.LaunchTemplate)
    (hlookup : (describeTargetTemplate svc ⟨id, name, some "$Latest"⟩ s).val
      = Result.ok (some t)) :
    (∀ n, t.LatestVersionNumber = some n →
      SeparateOutdatedFromUpdatedInstancesUsingLaunchTemplate svc
          (some ⟨id, name, some "$Latest"⟩) instances s
        = SeparateOutdatedFromUpdatedInstancesUsingLaunchTemplate svc
          (some ⟨id, name, some (formatInt64 n)⟩) instances s)
    ∧ (∀ d, t.DefaultVersionNumber = some d →
      SeparateOutdatedFromUpdatedInstancesUsingLaunchTemplate svc
          (some ⟨id, name, some "$Default"⟩) instances s
        = SeparateOutdatedFromUpdatedInstancesUsingLaunchTemplate svc
          (some ⟨id, name, some (formatInt64 d)⟩) instances s) := by
  constructor
  · intro n hn
    apply separateUsingLaunchTemplate_congr
    intro t2 h2 lt
    rw [hlookup] at h2
    simp only [Result.ok.injEq, Option.some.injEq] at h2
    subst h2
    exact compare_latest_token t n hn id name lt
  · intro d hd
    apply separateUsingLaunchTemplate_congr
    intro t2 h2 lt
    rw [describeTargetTemplate_version svc id name (some "$Default") (some "$Latest") s,
      hlookup] at h2
    simp only [Result.ok.injEq, Option.some.injEq] at h2
    subst h2
    exact compare_default_token t d hd id name lt

theorem classification_is_filter {σ : Type} (svc : Services σ) (asg : autoscaling.Group)
    (s : σ) (old new : List autoscaling.Instance)
    (h : (SeparateOutdatedFromUpdatedInstances svc asg s).val = Result.ok (old, new)) :
    ∃ p : autoscaling.Instance → Bool,
      old = asg.Instances.filter (fun i => !p i) ∧ new = asg.Instances.filter p := by
  unfold SeparateOutdatedFromUpdatedInstances at h
  simp only [] at h
  split at h
  · rename_i target _
    unfold SeparateOutdatedFromUpdatedInstancesUsingLaunchTemplate at h
    simp only [] at h
    split at h
    · simp at h
    · simp at h
    · simp at h
    · rename_i t _
      split at h
      · simp at h
      · rename_i r hr
        have e := launchTemplateLoop_eq t target asg.Instances [] [] r hr
        simp only [Result.ok.injEq] at h
        rw [h] at e
        simp only [List.nil_append, Prod.mk.injEq] at e
        exact ⟨_, e.1, e.2⟩
  · split at h
    · rename_i name
      simp only [SeparateOutdatedFromUpdatedInstancesUsingLaunchConfiguration,
        launchConfigurationLoop_eq, List.nil_append, Result.ok.injEq, Prod.mk.injEq] at h
      exact ⟨_, h.1.symm, h.2.symm⟩
    · simp at h

/-- C10: whenever `SeparateOutdatedFromUpdatedInstances` returns without error, the
outdated and the updated list partition the instance list of the group: each is an
order-preserving sublist, every instance of the group is in exactly one of them, together
they are a rearrangement of the instance list, and their lengths add up to its length; on
the group of the classification test (two `v1` instances, one `v2`, target `v2`) the
result is the two `v1` instances as outdated and the `v2` instance as updated. -/
theorem C10_classification_partition {σ : Type} (svc : Services σ) (asg : autoscaling.Group)
    (s : σ) (old new : List autoscaling.Instance)
    (h : (SeparateOutdatedFromUpdatedInstances svc asg s).val = Result.ok (old, new)) :
    old.Sublist asg.Instances ∧ new.Sublist asg.Instances
    ∧ (∀ i ∈ asg.Instances, (i ∈ old ∧ i ∉ new) ∨ (i ∈ new ∧ i ∉ old))
    ∧ (new ++ old).Perm asg.Instances
    ∧ old.length + new.length = asg.Instances.length
    ∧ (SeparateOutdatedFromUpdatedInstances svc classificationMixGroup s).val
        = Result.ok ([testInstance "old-1" "v1" none "InService",
                      testInstance "old-2" "v1" none "InService"],
                     [testInstance "new" "v2" none "InService"]) := by
  obtain ⟨p, ho, hn⟩ := classification_is_filter svc asg s old new h
  subst ho hn
  have hperm := List.filter_append_perm p asg.Instances
  refine ⟨List.filter_sublist _, List.filter_sublist _, ?_, hperm, ?_, ?_⟩
  · intro i hi
    cases hp : p i with
    | false =>
      left
      simp [List.mem_filter, hi, hp]
    | true =>
      right
      simp [List.mem_filter, hi, hp]
  · have := hperm.length_eq
    simp only [List.length_append] at this
    omega
  · simp only [SeparateOutdatedFromUpdatedInstances, classificationMixGroup, testGroup,
      SeparateOutdatedFromUpdatedInstancesUsingLaunchConfiguration,
      launchConfigurationLoop_eq]
    decide

/-- C10 at the group of the classification test, in the in-memory world. -/
theorem C10_classification_partition_witness :
    (SeparateOutdatedFromUpdatedInstances World.services classificationMixGroup
        emptyWorld).val
      = Result.ok ([testInstance "old-1" "v1" none "InService",
                    testInstance "old-2" "v1" none "InService"],
                   [testInstance "new" "v2" none "InService"])
    ∧ [testInstance "old-1" "v1" none "InService",
        testInstance "old-2" "v1" none "InService"].length
      + [testInstance "new" "v2" none "InService"].length
      = classificationMixGroup.Instances.length :=
  ⟨by decide,
    (C10_classification_partition World.services classificationMixGroup emptyWorld
      [testInstance "old-1" "v1" none "InService", testInstance "old-2" "v1" none "InService"]
      [testInstance "new" "v2" none "InService"] (by decide)).2.2.2.2.1⟩

/-- C6 at the test target with version `v2`, in the world that holds the test template:
an instance on version `v1`, one without a reference and one on `v2`. -/
theorem C6_launch_template_classification_witness :
    (describeTargetTemplate World.services (testTarget "v2") templateWorld).val
      = Result.ok (some testTemplate)
    ∧ (SeparateOutdatedFromUpdatedInstancesUsingLaunchTemplate World.services
        (some (testTarget "v2"))
        [testInstance "a" "" (some (testTarget "v1")) "InService",
         testInstance "b" "" none "InService",
         testInstance "c" "" (some (testTarget "v2")) "InService"] templateWorld).val
      = Result.ok ([testInstance "a" "" (some (testTarget "v1")) "InService",
                    testInstance "b" "" none "InService"],
                   [testInstance "c" "" (some (testTarget "v2")) "InService"]) :=
  ⟨by decide,
    ((C6_launch_template_classification World.services (testTarget "v2")
      [testInstance "a" "" (some (testTarget "v1")) "InService",
       testInstance "b" "" none "InService",
       testInstance "c" "" (some (testTarget "v2")) "InService"] templateWorld testTemplate
      (by decide)).2.1 (by decide) (by decide)).trans (by decide)⟩

/-- C9 at the test template (latest version 10, default version 1): the targets `$Latest`
and `10` classify alike, and so do `$Default` and `1`. -/
theorem C9_version_token_invariance_witness :
    (describeTargetTemplate World.services (testTarget "$Latest") templateWorld).val
      = Result.ok (some testTemplate)
    ∧ (SeparateOutdatedFromUpdatedInstancesUsingLaunchTemplate World.services
          (some (testTarget "$Latest"))
          [testInstance "a" "" (some (testTarget "10")) "InService",
           testInstance "b" "" (some (testTarget "1")) "InService"] templateWorld
        = SeparateOutdatedFromUpdatedInstancesUsingLaunchTemplate World.services
          (some (testTarget (formatInt64 10)))
          [testInstance "a" "" (some (testTarget "10")) "InService",
           testInstance "b" "" (some (testTarget "1")) "InService"] templateWorld)
    ∧ (SeparateOutdatedFromUpdatedInstancesUsingLaunchTemplate World.services
          (some (testTarget "$Default"))
          [testInstance "a" "" (some (testTarget "10")) "InService",
           testInstance "b" "" (some (testTarget "1")) "InService"] templateWorld
        = SeparateOutdatedFromUpdatedInstancesUsingLaunchTemplate World.services
          (some (testTarget (formatInt64 1)))
          [testInstance "a" "" (some (testTarget "10")) "InService",
           testInstance "b" "" (some (testTarget "1")) "InService"] templateWorld) :=
  ⟨by decide,
    (C9_version_token_invariance World.services (some "id") (some "name") _ templateWorld
      testTemplate (by decide)).1 10 (by decide),
    (C9_version_token_invariance World.services (some "id") (some "name") _ templateWorld
      testTemplate (by decide)).2 1 (by decide)⟩

/-! ## The reconciliation engine: structure of a tick -/

/-- Every record of a tick is the pass of the loop body over one group of the input, run
from some world state. -/
theorem runs_mem {σ : Type} (svc : Services σ) (cfg : config) :
    ∀ (groups : List autoscaling.Group) (s : σ) (r : GroupRun σ),
      r ∈ (HandleRollingUpgrade svc cfg groups s).runs →
      ∃ g ∈ groups, ∃ s0, r = handleAutoScalingGroup svc cfg g s0 := by
  intro groups
  induction groups with
  | nil => intro s r h; simp [HandleRollingUpgrade] at h
  | cons g rest ih =>
    intro s r h
    unfold HandleRollingUpgrade at h
    simp only [] at h
    split at h
    · simp only [List.mem_cons] at h
      rcases h with h | h
      · exact ⟨g, List.mem_cons_self _ _, s, h⟩
      · obtain ⟨g2, hg2, s0, e⟩ := ih _ r h
        exact ⟨g2, List.mem_cons_of_mem _ hg2, s0, e⟩
    · simp only [List.mem_singleton] at h
      exact ⟨g, List.mem_cons_self _ _, s, h⟩
    · simp only [List.mem_singleton] at h
      exact ⟨g, List.mem_cons_self _ _, s, h⟩

/-! ### At most one successful change per group -/

theorem terminateStep_success {σ : Type} (svc : Services σ) (i : autoscaling.Instance)
    (m : Int) (s : σ) :
    ((terminateStep svc i m s).calls.filter Event.isSuccessfulChange).length ≤ 1
    ∧ ((terminateStep svc i m s).val ≠ Flow.ret →
      (terminateStep svc i m s).calls.filter Event.isSuccessfulChange = []) := by
  unfold terminateStep
  simp only []
  split
  · split
    · rename_i h
      simp [List.filter, Event.isSuccessfulChange, Call.isCapacityOrTermination,
        Call.isTerminate, Call.succeeded, h, Call.isSetDesiredCount]
    · rename_i h
      simp [List.filter, Event.isSuccessfulChange, Call.isCapacityOrTermination,
        Call.isTerminate, Call.succeeded, h, Call.isSetDesiredCount]
  · simp

theorem drainAndTerminate_success {σ : Type} (svc : Services σ) (cfg : config)
    (i : autoscaling.Instance) (node : v1.Node) (md mt : Int) (s : σ) :
    ((drainAndTerminate svc cfg i node md mt s).calls.filter
        Event.isSuccessfulChange).length ≤ 1
    ∧ ((drainAndTerminate svc cfg i node md mt s).val ≠ Flow.ret →
      (drainAndTerminate svc cfg i node md mt s).calls.filter
        Event.isSuccessfulChange = []) := by
  unfold drainAndTerminate
  simp only []
  split
  · split
    · simp [List.filter, Event.isSuccessfulChange, Call.isCapacityOrTermination,
        Call.isTerminate, Call.isSetDesiredCount]
    · simpa [List.filter, Event.isSuccessfulChange, Call.isCapacityOrTermination,
        Call.isTerminate, Call.isSetDesiredCount] using terminateStep_success svc i mt _
  · exact terminateStep_success svc i mt s

theorem increaseDesiredCount_success {σ : Type} (svc : Services σ)
    (g : autoscaling.Group) (i : autoscaling.Instance) (s : σ) :
    ((increaseDesiredCount svc g i s).calls.filter Event.isSuccessfulChange).length ≤ 1
    ∧ ((increaseDesiredCount svc g i s).val ≠ Flow.ret →
      (increaseDesiredCount svc g i s).calls.filter Event.isSuccessfulChange = []) := by
  unfold increaseDesiredCount
  simp only []
  split
  · simp
  · split
    · rename_i h
      simp [List.filter, Event.isSuccessfulChange, Call.isCapacityOrTermination,
        Call.isTerminate, Call.succeeded, h, Call.isSetDesiredCount]
    · rename_i h
      simp [List.filter, Event.isSuccessfulChange, Call.isCapacityOrTermination,
        Call.isTerminate, Call.succeeded, h, Call.isSetDesiredCount]

theorem handleOutdatedNode_success {σ : Type} (svc : Services σ) (cfg : config)
    (g : autoscaling.Group) (ready : List v1.Node) (i : autoscaling.Instance)
    (node : v1.Node) (s : σ) :
    ((handleOutdatedNode svc cfg g ready i node s).calls.filter
        Event.isSuccessfulChange).length ≤ 1
    ∧ ((handleOutdatedNode svc cfg g ready i node s).val ≠ Flow.ret →
      (handleOutdatedNode svc cfg g ready i node s).calls.filter
        Event.isSuccessfulChange = []) := by
  unfold handleOutdatedNode
  simp only []
  split
  · simp [startRollout, List.filter, Event.isSuccessfulChange,
      Call.isCapacityOrTermination, Call.isTerminate, Call.isSetDesiredCount]
  · split
    · simpa [List.filter, Event.isSuccessfulChange, Call.isCapacityOrTermination,
        Call.isTerminate, Call.isSetDesiredCount]
        using drainAndTerminate_success svc cfg i node _ _ _
    · simpa [List.filter, Event.isSuccessfulChange, Call.isCapacityOrTermination,
        Call.isTerminate, Call.isSetDesiredCount]
        using increaseDesiredCount_success svc g i _

theorem handleOutdatedInstance_success {σ : Type} (svc : Services σ) (cfg : config)
    (g : autoscaling.Group) (ready : List v1.Node) (i : autoscaling.Instance) (s : σ) :
    ((handleOutdatedInstance svc cfg g ready i s).calls.filter
        Event.isSuccessfulChange).length ≤ 1
    ∧ ((handleOutdatedInstance svc cfg g ready i s).val ≠ Flow.ret →
      (handleOutdatedInstance svc cfg g ready i s).calls.filter
        Event.isSuccessfulChange = []) := by
  unfold handleOutdatedInstance
  simp only []
  split
  · simp [List.filter, Event.isSuccessfulChange, Call.isCapacityOrTermination,
      Call.isTerminate, Call.isSetDesiredCount]
  · simpa [List.filter, Event.isSuccessfulChange, Call.isCapacityOrTermination,
      Call.isTerminate, Call.isSetDesiredCount]
      using handleOutdatedNode_success svc cfg g ready i _ _

theorem outdatedLoop_success {σ : Type} (svc : Services σ) (cfg : config)
    (g : autoscaling.Group) (ready : List v1.Node) :
    ∀ (l : List autoscaling.Instance) (s : σ),
      ((outdatedLoop svc cfg g ready l s).calls.filter Event.isSuccessfulChange).length ≤ 1
      ∧ ((outdatedLoop svc cfg g ready l s).val ≠ Flow.ret →
        (outdatedLoop svc cfg g ready l s).calls.filter Event.isSuccessfulChange = []) := by
  intro l
  induction l with
  | nil => intro s; simp [outdatedLoop]
  | cons i rest ih =>
    intro s
    have h := handleOutdatedInstance_success svc cfg g ready i s
    unfold outdatedLoop
    simp only []
    split
    · rename_i hv
      have h0 := h.2 (by rw [hv]; decide)
      simp only [List.filter_append, h0, List.nil_append]
      exact ih _
    · exact h
    · exact h

/-! ### The calls of classification and of the readiness evaluation -/

theorem describeTargetTemplate_calls {σ : Type} (svc : Services σ)
    (target : autoscaling.LaunchTemplateSpecification) (s : σ) :
    ∀ e ∈ (describeTargetTemplate svc target s).calls,
      e.inst = none ∧ e.call.isReconcileAction = false := by
  unfold describeTargetTemplate
  simp only []
  split
  · split <;> simp [Call.isReconcileAction, Call.isSetDesiredCount, Call.isDrain,
      Call.isTerminate, Call.isAnnotate]
  · split
    · split <;> simp [Call.isReconcileAction, Call.isSetDesiredCount, Call.isDrain,
        Call.isTerminate, Call.isAnnotate]
    · simp

theorem classification_calls {σ : Type} (svc : Services σ) (g : autoscaling.Group) (s : σ) :
    ∀ e ∈ (SeparateOutdatedFromUpdatedInstances svc g s).calls,
      e.inst = none ∧ e.call.isReconcileAction = false := by
  unfold SeparateOutdatedFromUpdatedInstances
  simp only []
  split
  · rename_i t _
    unfold SeparateOutdatedFromUpdatedInstancesUsingLaunchTemplate
    simp only []
    split
    · exact describeTargetTemplate_calls svc t s
    · exact describeTargetTemplate_calls svc t s
    · exact describeTargetTemplate_calls svc t s
    · split
      · exact describeTargetTemplate_calls svc t s
      · exact describeTargetTemplate_calls svc t s
  · split <;> simp

theorem cleanUpdatedNode_calls {σ : Type} (svc : Services σ) (u : autoscaling.Instance)
    (node : v1.Node) (s : σ) :
    ∀ e ∈ (cleanUpdatedNode svc u node s).calls,
      e.inst = some u ∧ e.call.isReconcileAction = false := by
  unfold cleanUpdatedNode
  split
  · simp
  · split <;> simp [Call.isReconcileAction, Call.isSetDesiredCount, Call.isDrain,
      Call.isTerminate, Call.isAnnotate]

theorem readyLoop_calls {σ : Type} (svc : Services σ) :
    ∀ (l : List autoscaling.Instance) (acc : List v1.Node) (n : Nat) (s : σ),
      ∀ e ∈ (readyLoop svc l acc n s).calls,
        (∃ u ∈ l, e.inst = some u) ∧ e.call.isReconcileAction = false := by
  intro l
  induction l with
  | nil => intro acc n s; simp [readyLoop]
  | cons u rest ih =>
    intro acc n s e he
    have lift : (∃ v ∈ rest, e.inst = some v) ∧ e.call.isReconcileAction = false →
        (∃ v ∈ u :: rest, e.inst = some v) ∧ e.call.isReconcileAction = false := by
      rintro ⟨⟨v, hv, hi⟩, hc⟩
      exact ⟨⟨v, List.mem_cons_of_mem _ hv, hi⟩, hc⟩
    have here : ∀ host res, e = ⟨some u, Call.GetNodeByHostName host res⟩ →
        (∃ v ∈ u :: rest, e.inst = some v) ∧ e.call.isReconcileAction = false := by
      intro host res he
      subst he
      exact ⟨⟨u, List.mem_cons_self _ _, rfl⟩, rfl⟩
    unfold readyLoop at he
    split at he
    · simp at he
    · split at he
      · exact lift (ih _ _ _ e he)
      · simp only [] at he
        split at he
        · simp only [List.mem_cons] at he
          rcases he with he | he
          · exact here _ _ he
          · exact lift (ih _ _ _ e he)
        · split at he
          · simp only [List.mem_singleton] at he
            exact here _ _ he
          · split at he
            · simp only [List.mem_cons] at he
              rcases he with he | he
              · exact here _ _ he
              · obtain ⟨h1, h2⟩ := cleanUpdatedNode_calls svc u _ _ e he
                exact ⟨⟨u, List.mem_cons_self _ _, h1⟩, h2⟩
            · simp only [List.mem_cons, List.mem_append] at he
              rcases he with he | he | he
              · exact here _ _ he
              · obtain ⟨h1, h2⟩ := cleanUpdatedNode_calls svc u _ _ e he
                exact ⟨⟨u, List.mem_cons_self _ _, h1⟩, h2⟩
              · split at he
                · exact lift (ih _ _ _ e he)
                · exact lift (ih _ _ _ e he)

/-- How one pass over a group is made up: the calls of the classification `c`, then those
of the readiness evaluation `rd`, then, only when the classification has outdated instances
and the readiness evaluation counted no non-ready instance, those of the loop over the
outdated instances. -/
theorem handleAutoScalingGroup_cases {σ : Type} (svc : Services σ) (cfg : config)
    (g : autoscaling.Group) (s : σ) (r : GroupRun σ) (c : Step σ Classification)
    (hr : r = handleAutoScalingGroup svc cfg g s)
    (hc : c = SeparateOutdatedFromUpdatedInstances svc g s) :
    r.group = g ∧ r.classified = c.val
    ∧ ((r.calls = c.calls ∧ r.flow ≠ Flow.ret ∧ r.st = c.st
          ∧ ∀ old new, c.val ≠ Result.ok (old, new))
      ∨ ∃ old new rd, c.val = Result.ok (old, new)
        ∧ rd = getReadyNodesAndNumberOfNonReadyNodesOrInstances svc new c.st
        ∧ ((r.calls = c.calls ++ rd.calls ∧ r.flow ≠ Flow.ret ∧ r.st = rd.st
            ∧ (rd.val = none ∨ old = [] ∨ ∃ ready n, rd.val = some (ready, n) ∧ n ≠ 0))
          ∨ ∃ ready lp, rd.val = some (ready, 0) ∧ old ≠ []
            ∧ lp = outdatedLoop svc cfg g ready old rd.st
            ∧ r.calls = c.calls ++ rd.calls ++ lp.calls
            ∧ r.flow = lp.val ∧ r.st = lp.st)) := by
  subst hr hc
  unfold handleAutoScalingGroup
  simp only []
  split
  · rename_i h
    refine ⟨rfl, rfl, Or.inl ⟨rfl, fun x => Flow.noConfusion x, rfl, ?_⟩⟩
    intro old new; rw [h]; simp
  · rename_i e h
    refine ⟨rfl, rfl, Or.inl ⟨rfl, fun x => Flow.noConfusion x, rfl, ?_⟩⟩
    intro old new; rw [h]; simp
  · rename_i old new h
    split
    · rename_i hr
      exact ⟨rfl, rfl, Or.inr ⟨old, new, _, h, rfl,
        Or.inl ⟨rfl, fun x => Flow.noConfusion x, rfl, Or.inl hr⟩⟩⟩
    · rename_i ready n hr
      split
      · rename_i hl
        exact ⟨rfl, rfl, Or.inr ⟨old, new, _, h, rfl,
          Or.inl ⟨rfl, fun x => Flow.noConfusion x, rfl,
            Or.inr (Or.inl (List.length_eq_zero.mp hl))⟩⟩⟩
      · rename_i hl
        split
        · rename_i hn
          exact ⟨rfl, rfl, Or.inr ⟨old, new, _, h, rfl,
            Or.inl ⟨rfl, fun x => Flow.noConfusion x, rfl,
              Or.inr (Or.inr ⟨ready, n, hr, hn⟩)⟩⟩⟩
        · rename_i hn
          have hn0 : n = 0 := by
            by_contra hc
            exact hn hc
          subst hn0
          have hne : old ≠ [] := by
            intro e
            exact hl (by rw [e]; rfl)
          exact ⟨rfl, rfl, Or.inr ⟨old, new, _, h, rfl,
            Or.inr ⟨ready, _, hr, hne, rfl, rfl, rfl, rfl⟩⟩⟩

/-- C1, as amended: in one tick, for every group, at most one call among
`SetAutoScalingGroupDesiredCount` and `TerminateEc2Instance` returns without an error,
whatever the adapters return, and once one has, the function returns (no further instance
and no further group is handled in the tick).  A call that returns an error is followed by
the next outdated instance, so the number of such calls is not bounded by one. -/
theorem C1_at_most_one_successful_change {σ : Type} (svc : Services σ) (cfg : config)
    (groups : List autoscaling.Group) (s : σ) (r : GroupRun σ)
    (hr : r ∈ (HandleRollingUpgrade svc cfg groups s).runs) :
    (r.calls.filter Event.isSuccessfulChange).length ≤ 1
    ∧ ((∃ e ∈ r.calls, e.isSuccessfulChange = true) → r.flow = Flow.ret) := by
  obtain ⟨g, _, s0, e⟩ := runs_mem svc cfg groups s r hr
  have pre : ∀ l : List Event, (∀ x ∈ l, x.inst = none ∧ x.call.isReconcileAction = false) →
      l.filter Event.isSuccessfulChange = [] := by
    intro l hl
    rw [List.filter_eq_nil_iff]
    intro x hx
    have := (hl x hx).2
    simp only [Call.isReconcileAction, Bool.or_eq_false_iff] at this
    simp [Event.isSuccessfulChange, Call.isCapacityOrTermination, this.1.1.1, this.1.2]
  have pre2 : ∀ (l : List Event) (us : List autoscaling.Instance),
      (∀ x ∈ l, (∃ u ∈ us, x.inst = some u) ∧ x.call.isReconcileAction = false) →
      l.filter Event.isSuccessfulChange = [] := by
    intro l us hl
    rw [List.filter_eq_nil_iff]
    intro x hx
    have := (hl x hx).2
    simp only [Call.isReconcileAction, Bool.or_eq_false_iff] at this
    simp [Event.isSuccessfulChange, Call.isCapacityOrTermination, this.1.1.1, this.1.2]
  have hc := pre _ (classification_calls svc g s0)
  obtain ⟨_, _, h⟩ := handleAutoScalingGroup_cases svc cfg g s0 r _ e rfl
  have key : (r.calls.filter Event.isSuccessfulChange).length ≤ 1
      ∧ (r.flow ≠ Flow.ret → r.calls.filter Event.isSuccessfulChange = []) := by
    rcases h with ⟨h1, h2, _, _⟩ | ⟨old, new, rd, _, hrd, h⟩
    · rw [h1, hc]; simp
    · have hd := pre2 _ _ (readyLoop_calls svc new [] 0 (SeparateOutdatedFromUpdatedInstances svc g s0).st)
      rcases h with ⟨h1, _, _, _⟩ | ⟨ready, lp, _, _, hlp, h1, h2, _⟩
      · rw [h1, List.filter_append, hc, hrd]
        unfold getReadyNodesAndNumberOfNonReadyNodesOrInstances
        rw [hd]; simp
      · have hl := outdatedLoop_success svc cfg g ready old rd.st
        rw [h1, h2, List.filter_append, List.filter_append, hc, hrd]
        unfold getReadyNodesAndNumberOfNonReadyNodesOrInstances
        rw [hd, hlp]
        simpa [getReadyNodesAndNumberOfNonReadyNodesOrInstances, hrd] using hl
  refine ⟨key.1, ?_⟩
  rintro ⟨x, hx, hs⟩
  by_contra hne
  have := key.2 hne
  rw [List.filter_eq_nil_iff] at this
  exact this x hx hs

/-- C1 as stated fails: with two outdated instances whose nodes carry started-at, too few
resources and a capacity request that returns an error, one tick issues two
`SetAutoScalingGroupDesiredCount` calls for the group. -/
theorem C1_counterexample :
    (HandleRollingUpgrade World.services testConfig [twoOutdatedGroup]
      capacityErrorWorld).runs.map
        (fun r => (r.calls.filter (fun e => e.call.isCapacityOrTermination)).length)
      = [2] := by
  decide

/-! ### The backpressure gate -/

theorem cleanUpdatedNode_no_lookup {σ : Type} (svc : Services σ) (u : autoscaling.Instance)
    (node : v1.Node) (s : σ) :
    ∀ e ∈ (cleanUpdatedNode svc u node s).calls,
      ∀ host res, e.call ≠ Call.GetNodeByHostName host res := by
  unfold cleanUpdatedNode
  split
  · simp
  · split <;> simp

/-- The counter of the readiness evaluation only grows, and it stays where it was only when
every instance is `InService` and every node that a lookup returned is ready. -/
theorem readyLoop_count {σ : Type} (svc : Services σ) :
    ∀ (l : List autoscaling.Instance) (acc : List v1.Node) (n : Nat) (s : σ)
      (ready : List v1.Node) (m : Nat),
      (readyLoop svc l acc n s).val = some (ready, m) →
      n ≤ m ∧ (m = n →
        (∀ u ∈ l, u.LifecycleState = some "InService")
        ∧ ∀ e ∈ (readyLoop svc l acc n s).calls, ∀ host node,
            e.call = Call.GetNodeByHostName host (Reply.ok node) →
            lastConditionReady node = some true) := by
  intro l
  induction l with
  | nil =>
    intro acc n s ready m h
    simp only [readyLoop, Option.some.injEq, Prod.mk.injEq] at h
    simp [readyLoop, h.2]
  | cons u rest ih =>
    intro acc n s ready m h
    unfold readyLoop at h ⊢
    split at h
    · simp at h
    · rename_i state hstate
      split at h
      · have := ih _ _ _ _ _ h
        exact ⟨by omega, fun e => by omega⟩
      · rename_i hin
        have hin2 : state = "InService" := by
          by_contra hc
          exact hin hc
        simp only [] at h
        split at h
        · rename_i err herr
          simp only [hstate, hin, if_false, herr]
          have := ih _ _ _ _ _ h
          refine ⟨this.1, fun e => ?_⟩
          obtain ⟨a, b⟩ := this.2 e
          refine ⟨?_, ?_⟩
          · intro v hv
            simp only [List.mem_cons] at hv
            rcases hv with hv | hv
            · rw [hv, hstate, hin2]
            · exact a v hv
          · intro x hx host node hcall
            simp only [List.mem_cons] at hx
            rcases hx with hx | hx
            · subst hx
              simp only [Call.GetNodeByHostName.injEq] at hcall
              exact absurd hcall.2 (by simp)
            · exact b x hx host node hcall
        · rename_i updatedNode hok
          split at h
          · simp at h
          · rename_i isReady hready
            split at h
            · simp at h
            · rename_i node hclean
              simp only [hstate, hin, if_false, hok, hready, hclean]
              cases isReady with
              | false =>
                simp only [Bool.false_eq_true, if_false] at h ⊢
                have := ih _ _ _ _ _ h
                exact ⟨by omega, fun e => by omega⟩
              | true =>
                simp only [if_true] at h ⊢
                have := ih _ _ _ _ _ h
                refine ⟨this.1, fun e => ?_⟩
                obtain ⟨a, b⟩ := this.2 e
                refine ⟨?_, ?_⟩
                · intro v hv
                  simp only [List.mem_cons] at hv
                  rcases hv with hv | hv
                  · rw [hv, hstate, hin2]
                  · exact a v hv
                · intro x hx host nd hcall
                  simp only [List.mem_cons, List.mem_append] at hx
                  rcases hx with hx | hx | hx
                  · subst hx
                    simp only [Call.GetNodeByHostName.injEq, Reply.ok.injEq] at hcall
                    rw [← hcall.2]
                    exact hready
                  · exact absurd hcall (cleanUpdatedNode_no_lookup svc u _ _ x hx host _)
                  · exact b x hx host nd hcall

/-! ### Which instance a call acts on -/

theorem terminateStep_actsOn {σ : Type} (svc : Services σ) (i : autoscaling.Instance)
    (m : Int) (s : σ) (name : String) :
    ∀ e ∈ (terminateStep svc i m s).calls, e.actsOn i name = true := by
  unfold terminateStep
  simp only []
  split
  · split <;> simp [Event.actsOn]
  · simp

theorem drainAndTerminate_actsOn {σ : Type} (svc : Services σ) (cfg : config)
    (i : autoscaling.Instance) (node : v1.Node) (md mt : Int) (s : σ) :
    ∀ e ∈ (drainAndTerminate svc cfg i node md mt s).calls, e.actsOn i node.Name = true := by
  unfold drainAndTerminate
  simp only []
  split
  · split
    · simp [Event.actsOn]
    · intro e he
      simp only [List.mem_cons] at he
      rcases he with he | he | he
      · subst he; simp [Event.actsOn]
      · subst he; simp [Event.actsOn]
      · exact terminateStep_actsOn svc i mt _ _ e he
  · exact terminateStep_actsOn svc i mt s _

theorem increaseDesiredCount_actsOn {σ : Type} (svc : Services σ) (g : autoscaling.Group)
    (i : autoscaling.Instance) (s : σ) (name : String) :
    ∀ e ∈ (increaseDesiredCount svc g i s).calls, e.actsOn i name = true := by
  unfold increaseDesiredCount
  simp only []
  split
  · simp
  · split <;> simp [Event.actsOn]

theorem handleOutdatedNode_actsOn {σ : Type} (svc : Services σ) (cfg : config)
    (g : autoscaling.Group) (ready : List v1.Node) (i : autoscaling.Instance)
    (node : v1.Node) (s : σ) :
    ∀ e ∈ (handleOutdatedNode svc cfg g ready i node s).calls,
      e.actsOn i node.Name = true := by
  unfold handleOutdatedNode
  simp only []
  split
  · simp [startRollout, Event.actsOn]
  · intro e he
    simp only [List.mem_cons] at he
    rcases he with he | he
    · subst he; simp [Event.actsOn]
    · split at he
      · exact drainAndTerminate_actsOn svc cfg i node _ _ _ e he
      · exact increaseDesiredCount_actsOn svc g i _ _ e he

/-- Every call of the handling of one outdated instance is tagged with that instance; a
termination is requested for the instance itself, and a drain for the name of the node that
the lookup of the instance returned. -/
theorem handleOutdatedInstance_actsOn {σ : Type} (svc : Services σ) (cfg : config)
    (g : autoscaling.Group) (ready : List v1.Node) (i : autoscaling.Instance) (s : σ) :
    ∀ e ∈ (handleOutdatedInstance svc cfg g ready i s).calls,
      e.inst = some i
      ∧ (∀ j err, e.call = Call.TerminateEc2Instance j err → j = i)
      ∧ (∀ name a b err, e.call = Call.Drain name a b err →
          ∃ node, (⟨some i, Call.GetNodeByHostName (aws.StringValue i.InstanceId)
              (Reply.ok node)⟩ : Event) ∈ (handleOutdatedInstance svc cfg g ready i s).calls
            ∧ name = node.Name) := by
  unfold handleOutdatedInstance
  simp only []
  split
  · simp
  · rename_i node hok
    intro e he
    simp only [List.mem_cons] at he
    rcases he with he | he
    · subst he; simp
    · have := handleOutdatedNode_actsOn svc cfg g ready i node _ e he
      simp only [Event.actsOn, Bool.and_eq_true, decide_eq_true_eq] at this
      refine ⟨this.1, ?_, ?_⟩
      · intro j err hc
        have h2 := this.2
        rw [hc] at h2
        simpa using h2
      · intro name a b err hc
        have h2 := this.2
        rw [hc] at h2
        refine ⟨node, ?_, by simpa using h2⟩
        rw [hok]
        exact List.mem_cons_self _ _

theorem outdatedLoop_actsOn {σ : Type} (svc : Services σ) (cfg : config)
    (g : autoscaling.Group) (ready : List v1.Node) :
    ∀ (l : List autoscaling.Instance) (s : σ),
      ∀ e ∈ (outdatedLoop svc cfg g ready l s).calls,
        ∃ i ∈ l, e.inst = some i
          ∧ (∀ j err, e.call = Call.TerminateEc2Instance j err → j = i)
          ∧ (∀ name a b err, e.call = Call.Drain name a b err →
              ∃ node, (⟨some i, Call.GetNodeByHostName (aws.StringValue i.InstanceId)
                  (Reply.ok node)⟩ : Event) ∈ (outdatedLoop svc cfg g ready l s).calls
                ∧ name = node.Name) := by
  intro l
  induction l with
  | nil => intro s; simp [outdatedLoop]
  | cons i rest ih =>
    intro s e he
    have h := handleOutdatedInstance_actsOn svc cfg g ready i s
    unfold outdatedLoop at he ⊢
    simp only [] at he ⊢
    split at he
    · rename_i hv
      simp only [hv, List.mem_append] at he ⊢
      rcases he with he | he
      · obtain ⟨h1, h2, h3⟩ := h e he
        refine ⟨i, List.mem_cons_self _ _, h1, h2, ?_⟩
        intro name a b err hc
        obtain ⟨node, hm, hn⟩ := h3 name a b err hc
        exact ⟨node, Or.inl hm, hn⟩
      · obtain ⟨j, hj, h1, h2, h3⟩ := ih _ e he
        refine ⟨j, List.mem_cons_of_mem _ hj, h1, h2, ?_⟩
        intro name a b err hc
        obtain ⟨node, hm, hn⟩ := h3 name a b err hc
        exact ⟨node, Or.inr hm, hn⟩
    · obtain ⟨h1, h2, h3⟩ := h e he
      exact ⟨i, List.mem_cons_self _ _, h1, h2, h3⟩
    · obtain ⟨h1, h2, h3⟩ := h e he
      exact ⟨i, List.mem_cons_self _ _, h1, h2, h3⟩

theorem classification_disjoint {σ : Type} (svc : Services σ) (g : autoscaling.Group)
    (s : σ) (old new : List autoscaling.Instance)
    (h : (SeparateOutdatedFromUpdatedInstances svc g s).val = Result.ok (old, new))
    (i : autoscaling.Instance) (hi : i ∈ old) : i ∉ new := by
  obtain ⟨p, ho, hn⟩ := classification_is_filter svc g s old new h
  subst ho hn
  simp only [List.mem_filter, Bool.not_eq_true', not_and, Bool.not_eq_true] at hi ⊢
  intro _
  exact hi.2

/-- C4: every `Drain` and every `TerminateEc2Instance` call of a tick is issued in the
handling of an instance `i` that is in the outdated list and not in the updated list that
`SeparateOutdatedFromUpdatedInstances` returned for the group in that tick; the termination
is requested for `i` itself and the drain for the name of the node that the lookup of `i`
returned. -/
theorem C4_only_outdated_drained_or_terminated {σ : Type} (svc : Services σ) (cfg : config)
    (groups : List autoscaling.Group) (s : σ) (r : GroupRun σ)
    (hr : r ∈ (HandleRollingUpgrade svc cfg groups s).runs)
    (e : Event) (he : e ∈ r.calls)
    (hk : e.call.isDrain = true ∨ e.call.isTerminate = true) :
    ∃ old new i, r.classified = Result.ok (old, new)
      ∧ (∃ s0, r.classified = (SeparateOutdatedFromUpdatedInstances svc r.group s0).val)
      ∧ i ∈ old ∧ i ∉ new ∧ e.inst = some i
      ∧ (∀ j err, e.call = Call.TerminateEc2Instance j err → j = i)
      ∧ (∀ name a b err, e.call = Call.Drain name a b err →
          ∃ node, (⟨some i, Call.GetNodeByHostName (aws.StringValue i.InstanceId)
              (Reply.ok node)⟩ : Event) ∈ r.calls ∧ name = node.Name) := by
  obtain ⟨g, _, s0, e0⟩ := runs_mem svc cfg groups s r hr
  have hact : e.call.isReconcileAction = true := by
    rcases hk with hk | hk <;> simp [Call.isReconcileAction, hk]
  have hcl := classification_calls svc g s0
  obtain ⟨hg, hcls, h⟩ := handleAutoScalingGroup_cases svc cfg g s0 r _ e0 rfl
  rcases h with ⟨h1, _, _, _⟩ | ⟨old, new, rd, hok, hrd, h⟩
  · rw [h1] at he
    have := (hcl e he).2
    rw [hact] at this
    exact absurd this (by decide)
  · have hrl := readyLoop_calls svc new [] 0 (SeparateOutdatedFromUpdatedInstances svc g s0).st
    have hrd2 : ∀ x ∈ rd.calls, x.call.isReconcileAction = false := by
      intro x hx
      rw [hrd] at hx
      exact (hrl x hx).2
    rcases h with ⟨h1, _, _, _⟩ | ⟨ready, lp, _, _, hlp, h1, _, _⟩
    · rw [h1, List.mem_append] at he
      rcases he with he | he
      · have := (hcl e he).2
        rw [hact] at this
        exact absurd this (by decide)
      · have := hrd2 e he
        rw [hact] at this
        exact absurd this (by decide)
    · rw [h1, List.mem_append, List.mem_append] at he
      rcases he with (he | he) | he
      · have := (hcl e he).2
        rw [hact] at this
        exact absurd this (by decide)
      · have := hrd2 e he
        rw [hact] at this
        exact absurd this (by decide)
      · rw [hlp] at he
        obtain ⟨i, hi, h2, h3, h4⟩ := outdatedLoop_actsOn svc cfg g ready old rd.st e he
        refine ⟨old, new, i, hcls.trans hok, ⟨s0, by rw [hg]; exact hcls⟩, hi,
          classification_disjoint svc g s0 old new hok i hi, h2, h3, ?_⟩
        intro name a b err hc
        obtain ⟨node, hm, hn⟩ := h4 name a b err hc
        refine ⟨node, ?_, hn⟩
        rw [h1, hlp]
        exact List.mem_append_right _ hm

/-- C2: for every group (with or without an outdated instance), if some updated instance
is not `InService`, or the node that the lookup of an updated instance returned in the tick
does not have `Ready` with status `True` as its last condition, then the tick issues no
`SetAutoScalingGroupDesiredCount`, no `Drain`, no `TerminateEc2Instance` and no
`AnnotateNodeByHostName` call for that group. -/
theorem C2_backpressure_gate {σ : Type} (svc : Services σ) (cfg : config)
    (groups : List autoscaling.Group) (s : σ) (r : GroupRun σ)
    (hr : r ∈ (HandleRollingUpgrade svc cfg groups s).runs)
    (old new : List autoscaling.Instance) (hcl : r.classified = Result.ok (old, new))
    (u : autoscaling.Instance) (hu : u ∈ new)
    (hnot : u.LifecycleState ≠ some "InService"
      ∨ ∃ node, (⟨some u, Call.GetNodeByHostName (aws.StringValue u.InstanceId)
            (Reply.ok node)⟩ : Event) ∈ r.calls
          ∧ lastConditionReady node ≠ some true) :
    ∀ e ∈ r.calls, e.call.isSetDesiredCount = false ∧ e.call.isDrain = false
      ∧ e.call.isTerminate = false ∧ e.call.isAnnotate = false := by
  have conv : ∀ e : Event, e.call.isReconcileAction = false →
      e.call.isSetDesiredCount = false ∧ e.call.isDrain = false
        ∧ e.call.isTerminate = false ∧ e.call.isAnnotate = false := by
    intro e h
    simp only [Call.isReconcileAction, Bool.or_eq_false_iff] at h
    exact ⟨h.1.1.1, h.1.1.2, h.1.2, h.2⟩
  obtain ⟨g, _, s0, e0⟩ := runs_mem svc cfg groups s r hr
  have hcalls := classification_calls svc g s0
  obtain ⟨_, hcls, h⟩ := handleAutoScalingGroup_cases svc cfg g s0 r _ e0 rfl
  rcases h with ⟨_, _, _, hno⟩ | ⟨old2, new2, rd, hok, hrd, h⟩
  · exact absurd (hcls.symm.trans hcl) (hno old new)
  · have heq := (hcls.symm.trans hcl).symm.trans hok
    simp only [Result.ok.injEq, Prod.mk.injEq] at heq
    obtain ⟨ho, hn⟩ := heq
    subst ho hn
    have hrl := readyLoop_calls svc new [] 0 (SeparateOutdatedFromUpdatedInstances svc g s0).st
    have hrd2 : ∀ x ∈ rd.calls, (∃ v ∈ new, x.inst = some v)
        ∧ x.call.isReconcileAction = false := by
      intro x hx
      rw [hrd] at hx
      exact hrl x hx
    rcases h with ⟨h1, _, _, _⟩ | ⟨ready, lp, hval, _, hlp, h1, _, _⟩
    · intro e he
      rw [h1, List.mem_append] at he
      rcases he with he | he
      · exact conv e (hcalls e he).2
      · exact conv e (hrd2 e he).2
    · exfalso
      rw [hrd] at hval
      obtain ⟨_, hc⟩ := readyLoop_count svc new [] 0 _ ready 0 hval
      obtain ⟨hin, hready⟩ := hc rfl
      rcases hnot with hnot | ⟨node, hmem, hnr⟩
      · exact hnot (hin u hu)
      · rw [h1, List.mem_append, List.mem_append] at hmem
        rcases hmem with (hmem | hmem) | hmem
        · have := (hcalls _ hmem).1
          simp at this
        · rw [hrd] at hmem
          exact hnr (hready _ hmem _ node rfl)
        · rw [hlp] at hmem
          obtain ⟨i, hi, h2, _, _⟩ := outdatedLoop_actsOn svc cfg g ready old rd.st _ hmem
          simp only [Option.some.injEq] at h2
          subst h2
          exact classification_disjoint svc g s0 old new hok u hi hu

/-! ### Drain before termination -/

theorem drainedBefore_mono (pre pre2 : List Event) (i : autoscaling.Instance)
    (hsub : ∀ e ∈ pre, e ∈ pre2) (h : DrainedBefore pre i) : DrainedBefore pre2 i := by
  obtain ⟨node, h1, h2⟩ := h
  refine ⟨node, hsub _ h1, ?_⟩
  rcases h2 with h2 | ⟨a, b, h2⟩
  · exact Or.inl h2
  · exact Or.inr ⟨a, b, hsub _ h2⟩

theorem terminationsDrained_nil (acc : List Event) : TerminationsDrained acc [] := by
  intro pre e post j err h
  simp at h

theorem terminationsDrained_cons (acc : List Event) (x : Event) (l : List Event)
    (hx : ∀ j err, x.call = Call.TerminateEc2Instance j err → DrainedBefore acc j)
    (hl : TerminationsDrained (acc ++ [x]) l) : TerminationsDrained acc (x :: l) := by
  intro pre e post j err h hc
  cases pre with
  | nil =>
    simp only [List.nil_append, List.cons.injEq] at h
    rw [← h.1] at hc
    simpa using hx j err hc
  | cons y pre2 =>
    simp only [List.cons_append, List.cons.injEq] at h
    have := hl pre2 e post j err h.2 hc
    rw [← h.1]
    simpa using this

theorem terminationsDrained_append (acc a b : List Event)
    (ha : TerminationsDrained acc a) (hb : TerminationsDrained (acc ++ a) b) :
    TerminationsDrained acc (a ++ b) := by
  induction a generalizing acc with
  | nil => simpa using hb
  | cons x rest ih =>
    rw [List.cons_append]
    apply terminationsDrained_cons
    · intro j err hc
      simpa using ha [] x rest j err rfl hc
    · apply ih
      · intro pre e post j err h hc
        have := ha (x :: pre) e post j err (by rw [h]; rfl) hc
        simpa using this
      · simpa using hb

theorem terminationsDrained_of_none (acc l : List Event)
    (h : ∀ e ∈ l, e.call.isTerminate = false) : TerminationsDrained acc l := by
  intro pre e post j err hl hc
  have := h e (by rw [hl]; simp)
  rw [hc] at this
  simp [Call.isTerminate] at this

theorem terminateStep_drained {σ : Type} (svc : Services σ) (i : autoscaling.Instance)
    (m : Int) (s : σ) (acc : List Event) (h : DrainedBefore acc i) :
    TerminationsDrained acc (terminateStep svc i m s).calls := by
  unfold terminateStep
  simp only []
  split
  · split
    · apply terminationsDrained_cons
      · intro j err hc
        simp only [Call.TerminateEc2Instance.injEq] at hc
        rw [← hc.1]; exact h
      · exact terminationsDrained_nil _
    · apply terminationsDrained_cons
      · intro j err hc
        simp only [Call.TerminateEc2Instance.injEq] at hc
        rw [← hc.1]; exact h
      · apply terminationsDrained_cons
        · intro j err hc
          simp at hc
        · exact terminationsDrained_nil _
  · exact terminationsDrained_nil _

theorem drainAndTerminate_drained {σ : Type} (svc : Services σ) (cfg : config)
    (i : autoscaling.Instance) (node : v1.Node) (md mt : Int) (s : σ) (acc : List Event)
    (hacc : (⟨some i, Call.GetNodeByHostName (aws.StringValue i.InstanceId)
      (Reply.ok node)⟩ : Event) ∈ acc)
    (hmd : md ≠ -1 →
      carries node.Annotations k8s.RollingUpdateDrainedTimestampAnnotationKey = true) :
    TerminationsDrained acc (drainAndTerminate svc cfg i node md mt s).calls := by
  unfold drainAndTerminate
  simp only []
  split
  · split
    · apply terminationsDrained_of_none
      simp [Call.isTerminate]
    · rename_i hd
      apply terminationsDrained_cons
      · intro j err hc
        simp at hc
      · apply terminationsDrained_cons
        · intro j err hc
          simp at hc
        · apply terminateStep_drained
          refine ⟨node, by simp [hacc], Or.inr ⟨cfg.IgnoreDaemonSets, cfg.DeleteLocalData, ?_⟩⟩
          rw [hd]
          simp
  · rename_i hne
    apply terminateStep_drained
    exact ⟨node, hacc, Or.inl (hmd hne)⟩

theorem minutesSinceKey_present {σ : Type} (svc : Services σ) (node : v1.Node)
    (key : String) (s : σ) (h : (minutesSinceKey svc node key s).1 ≠ -1) :
    carries node.Annotations key = true := by
  unfold minutesSinceKey at h
  unfold carries
  cases hl : mapLookup node.Annotations key with
  | none => rw [hl] at h; simp at h
  | some v => rfl

theorem handleOutdatedNode_drained {σ : Type} (svc : Services σ) (cfg : config)
    (g : autoscaling.Group) (ready : List v1.Node) (i : autoscaling.Instance)
    (node : v1.Node) (s : σ) (acc : List Event)
    (hacc : (⟨some i, Call.GetNodeByHostName (aws.StringValue i.InstanceId)
      (Reply.ok node)⟩ : Event) ∈ acc) :
    TerminationsDrained acc (handleOutdatedNode svc cfg g ready i node s).calls := by
  unfold handleOutdatedNode
  simp only []
  split
  · apply terminationsDrained_of_none
    simp [startRollout, Call.isTerminate]
  · apply terminationsDrained_cons
    · intro j err hc
      simp at hc
    · split
      · apply drainAndTerminate_drained
        · simp [hacc]
        · intro hne
          exact minutesSinceKey_present svc node _ _ hne
      · apply terminationsDrained_of_none
        intro e he
        unfold increaseDesiredCount at he
        simp only [] at he
        split at he
        · simp at he
        · split at he <;> simp at he <;> simp [he, Call.isTerminate]

theorem handleOutdatedInstance_drained {σ : Type} (svc : Services σ) (cfg : config)
    (g : autoscaling.Group) (ready : List v1.Node) (i : autoscaling.Instance) (s : σ)
    (acc : List Event) :
    TerminationsDrained acc (handleOutdatedInstance svc cfg g ready i s).calls := by
  unfold handleOutdatedInstance
  simp only []
  split
  · apply terminationsDrained_of_none
    simp [Call.isTerminate]
  · rename_i node hok
    apply terminationsDrained_cons
    · intro j err hc
      simp at hc
    · apply handleOutdatedNode_drained
      rw [hok]
      simp

theorem outdatedLoop_drained {σ : Type} (svc : Services σ) (cfg : config)
    (g : autoscaling.Group) (ready : List v1.Node) :
    ∀ (l : List autoscaling.Instance) (s : σ) (acc : List Event),
      TerminationsDrained acc (outdatedLoop svc cfg g ready l s).calls := by
  intro l
  induction l with
  | nil => intro s acc; exact terminationsDrained_nil _
  | cons i rest ih =>
    intro s acc
    have h := handleOutdatedInstance_drained svc cfg g ready i s acc
    unfold outdatedLoop
    simp only []
    split
    · exact terminationsDrained_append _ _ _ h (ih _ _)
    · exact h
    · exact h

/-- C3: in the calls of a tick for a group, every `TerminateEc2Instance` call for an
instance is preceded by the lookup that returned the node of that instance, and either that
node carried the drained-at annotation when it was read, or a `Drain` call on that node
precedes the termination too and returned no error. -/
theorem C3_drain_precedes_termination {σ : Type} (svc : Services σ) (cfg : config)
    (groups : List autoscaling.Group) (s : σ) (r : GroupRun σ)
    (hr : r ∈ (HandleRollingUpgrade svc cfg groups s).runs)
    (pre post : List Event) (e : Event) (j : autoscaling.Instance) (err : Option String)
    (hsplit : r.calls = pre ++ e :: post)
    (hcall : e.call = Call.TerminateEc2Instance j err) :
    DrainedBefore pre j := by
  obtain ⟨g, _, s0, e0⟩ := runs_mem svc cfg groups s r hr
  have hcalls := classification_calls svc g s0
  have none_of : ∀ l : List Event, (∀ x ∈ l, x.call.isReconcileAction = false) →
      ∀ x ∈ l, x.call.isTerminate = false := by
    intro l hl x hx
    have := hl x hx
    simp only [Call.isReconcileAction, Bool.or_eq_false_iff] at this
    exact this.1.2
  have hc : TerminationsDrained [] (SeparateOutdatedFromUpdatedInstances svc g s0).calls :=
    terminationsDrained_of_none _ _ (none_of _ (fun x hx => (hcalls x hx).2))
  have key : TerminationsDrained [] r.calls := by
    obtain ⟨_, _, h⟩ := handleAutoScalingGroup_cases svc cfg g s0 r _ e0 rfl
    rcases h with ⟨h1, _, _, _⟩ | ⟨old, new, rd, _, hrd, h⟩
    · rw [h1]; exact hc
    · have hrl := readyLoop_calls svc new [] 0
        (SeparateOutdatedFromUpdatedInstances svc g s0).st
      have hd : ∀ acc, TerminationsDrained acc rd.calls := by
        intro acc
        apply terminationsDrained_of_none
        apply none_of
        intro x hx
        rw [hrd] at hx
        exact (hrl x hx).2
      rcases h with ⟨h1, _, _, _⟩ | ⟨ready, lp, _, _, hlp, h1, _, _⟩
      · rw [h1]
        exact terminationsDrained_append _ _ _ hc (hd _)
      · rw [h1, hlp]
        exact terminationsDrained_append _ _ _
          (terminationsDrained_append _ _ _ hc (hd _)) (outdatedLoop_drained _ _ _ _ _ _ _)
  simpa using key pre e post j err hsplit hcall

/-! ## The rollout markers in the in-memory world -/

theorem mapLookup_delete_ne (m : List (String × String)) (key other : String)
    (h : other ≠ key) : mapLookup (mapDelete m key) other = mapLookup m other := by
  induction m with
  | nil => rfl
  | cons p rest ih =>
    obtain ⟨k, v⟩ := p
    by_cases hk : k = key
    · subst hk
      have hne : ¬ k = other := fun e => h e.symm
      simp only [mapDelete, List.filter, ne_eq, not_true_eq_false, decide_False] at ih ⊢
      simp only [mapLookup, hne, if_false]
      exact ih
    · simp only [mapDelete, List.filter, ne_eq, hk, not_false_eq_true, decide_True] at ih ⊢
      simp only [mapLookup]
      split
      · rfl
      · exact ih

theorem carries_insert_same (m : List (String × String)) (key value : String) :
    carries (mapInsert m key value) key = true := by
  simp [carries, mapInsert, mapLookup]

theorem carries_insert_ne (m : List (String × String)) (key value other : String)
    (h : other ≠ key) : carries (mapInsert m key value) other = carries m other := by
  have hne : ¬ key = other := fun e => h e.symm
  simp only [carries, mapInsert, mapLookup, hne, if_false]
  rw [mapLookup_delete_ne m key other h]

theorem started_ne_drained : k8s.RollingUpdateStartedTimestampAnnotationKey
    ≠ k8s.RollingUpdateDrainedTimestampAnnotationKey := by decide

theorem started_ne_terminated : k8s.RollingUpdateStartedTimestampAnnotationKey
    ≠ k8s.RollingUpdateTerminatedTimestampAnnotationKey := by decide

theorem drained_ne_terminated : k8s.RollingUpdateDrainedTimestampAnnotationKey
    ≠ k8s.RollingUpdateTerminatedTimestampAnnotationKey := by decide

/-- Writing started-at keeps the markers consistent. -/
theorem consistent_insert_started (m : List (String × String)) (value : String)
    (h : markersConsistent m = true) :
    markersConsistent
      (mapInsert m k8s.RollingUpdateStartedTimestampAnnotationKey value) = true := by
  unfold markersConsistent at h ⊢
  rw [carries_insert_same, carries_insert_ne _ _ _ _ started_ne_drained.symm,
    carries_insert_ne _ _ _ _ started_ne_terminated.symm]
  revert h
  cases carries m k8s.RollingUpdateDrainedTimestampAnnotationKey <;>
    cases carries m k8s.RollingUpdateTerminatedTimestampAnnotationKey <;>
    cases carries m k8s.RollingUpdateStartedTimestampAnnotationKey <;> simp

/-- Writing drained-at on a map that carries started-at keeps the markers consistent. -/
theorem consistent_insert_drained (m : List (String × String)) (value : String)
    (hs : carries m k8s.RollingUpdateStartedTimestampAnnotationKey = true) :
    markersConsistent
      (mapInsert m k8s.RollingUpdateDrainedTimestampAnnotationKey value) = true := by
  unfold markersConsistent
  rw [carries_insert_same, carries_insert_ne _ _ _ _ started_ne_drained,
    carries_insert_ne _ _ _ _ drained_ne_terminated.symm, hs]
  simp

/-- Writing terminated-at on a map that carries started-at and drained-at keeps the
markers consistent. -/
theorem consistent_insert_terminated (m : List (String × String)) (value : String)
    (hs : carries m k8s.RollingUpdateStartedTimestampAnnotationKey = true)
    (hd : carries m k8s.RollingUpdateDrainedTimestampAnnotationKey = true) :
    markersConsistent
      (mapInsert m k8s.RollingUpdateTerminatedTimestampAnnotationKey value) = true := by
  unfold markersConsistent
  rw [carries_insert_same, carries_insert_ne _ _ _ _ started_ne_terminated,
    carries_insert_ne _ _ _ _ drained_ne_terminated, hs, hd]
  simp

theorem consistent_of_no_later_marker (m : List (String × String))
    (hd : carries m k8s.RollingUpdateDrainedTimestampAnnotationKey = false)
    (ht : carries m k8s.RollingUpdateTerminatedTimestampAnnotationKey = false) :
    markersConsistent m = true := by
  simp [markersConsistent, hd, ht]

theorem storeLookup_consistent (nodes : List v1.Node) (h : String)
    (a : List (String × String)) (hall : allConsistent nodes = true)
    (hl : storeLookup nodes h = some a) : markersConsistent a = true := by
  unfold storeLookup at hl
  cases hf : nodes.find? (fun n => decide (n.Name = h)) with
  | none => rw [hf] at hl; simp at hl
  | some n =>
    rw [hf] at hl
    simp only [Option.map_some', Option.some.injEq] at hl
    have hm := List.mem_of_find?_eq_some hf
    unfold allConsistent at hall
    rw [List.all_eq_true] at hall
    rw [← hl]
    exact hall n hm

theorem allConsistent_replaceNode (nodes : List v1.Node) (node : v1.Node)
    (hall : allConsistent nodes = true) (hn : markersConsistent node.Annotations = true) :
    allConsistent (replaceNode nodes node) = true := by
  unfold allConsistent replaceNode at *
  rw [List.all_eq_true] at hall ⊢
  intro x hx
  rw [List.mem_map] at hx
  obtain ⟨y, hy, e⟩ := hx
  split at e
  · rw [← e]; exact hn
  · rw [← e]; exact hall y hy

theorem storeLookup_replaceNode (nodes : List v1.Node) (node : v1.Node)
    (a : List (String × String)) (hl : storeLookup nodes node.Name = some a) :
    storeLookup (replaceNode nodes node) node.Name = some node.Annotations := by
  induction nodes with
  | nil => simp [storeLookup] at hl
  | cons n rest ih =>
    unfold storeLookup replaceNode at *
    by_cases hn : n.Name = node.Name
    · simp [List.find?, hn]
    · have hl2 : Option.map (fun n => n.Annotations)
          (List.find? (fun n => decide (n.Name = node.Name)) rest) = some a := by
        simpa [List.find?, hn] using hl
      simpa [List.find?, hn] using ih hl2

theorem allConsistent_map_same (nodes : List v1.Node) (f : v1.Node → v1.Node)
    (hf : ∀ n, (f n).Annotations = n.Annotations) :
    allConsistent (nodes.map f) = allConsistent nodes := by
  unfold allConsistent
  rw [List.all_map]
  congr 1
  funext n
  simp [hf]

theorem storeLookup_map_same (nodes : List v1.Node) (f : v1.Node → v1.Node)
    (hf : ∀ n, (f n).Annotations = n.Annotations) (hn : ∀ n, (f n).Name = n.Name)
    (h : String) : storeLookup (nodes.map f) h = storeLookup nodes h := by
  unfold storeLookup
  induction nodes with
  | nil => rfl
  | cons n rest ih =>
    by_cases e : n.Name = h
    · simp [List.find?, hn, e, hf]
    · simpa [List.find?, hn, e] using ih

/-! ### The effect of the in-memory adapters on the nodes -/

theorem nextFailure_nodes (w : World) : w.nextFailure.2.nodes = w.nodes := by
  unfold World.nextFailure
  split <;> rfl

theorem getNode_nodes (h : String) (w : World) :
    (World.GetNodeByHostName h w).2.nodes = w.nodes := by
  unfold World.GetNodeByHostName
  simp only []
  split
  · exact nextFailure_nodes w
  · split <;> exact nextFailure_nodes w

theorem getNode_found (h : String) (w : World) (n : v1.Node)
    (hok : (World.GetNodeByHostName h w).1 = Reply.ok n) :
    storeLookup w.nodes h = some n.Annotations := by
  unfold World.GetNodeByHostName at hok
  simp only [] at hok
  split at hok
  · simp at hok
  · split at hok
    · simp at hok
    · rename_i m hf
      simp only [Reply.ok.injEq] at hok
      rw [nextFailure_nodes] at hf
      unfold storeLookup
      rw [hf, hok]
      rfl

theorem getNode_name (h : String) (w : World) (n : v1.Node)
    (hok : (World.GetNodeByHostName h w).1 = Reply.ok n) : n.Name = h := by
  unfold World.GetNodeByHostName at hok
  simp only [] at hok
  split at hok
  · simp at hok
  · split at hok
    · simp at hok
    · rename_i m hf
      simp only [Reply.ok.injEq] at hok
      have := List.find?_some hf
      rw [← hok]
      simpa using this

theorem updateNode_nodes (node : v1.Node) (w : World) :
    ((World.UpdateNode node w).1 = none
        ∧ (World.UpdateNode node w).2.nodes = replaceNode w.nodes node)
    ∨ ((World.UpdateNode node w).1 ≠ none ∧ (World.UpdateNode node w).2.nodes = w.nodes) := by
  unfold World.UpdateNode
  simp only []
  split
  · exact Or.inr ⟨by simp, nextFailure_nodes w⟩
  · split
    · refine Or.inl ⟨rfl, ?_⟩
      simp only [nextFailure_nodes]
    · exact Or.inr ⟨by simp, nextFailure_nodes w⟩

/-- What an annotation write does to the nodes of the in-memory world: nothing when it
returns an error, else the node found under the host name gets the key. -/
theorem annotate_nodes (h key value : String) (w : World) :
    ((World.AnnotateNodeByHostName h key value w).1 ≠ none
        ∧ (World.AnnotateNodeByHostName h key value w).2.nodes = w.nodes)
    ∨ ((World.AnnotateNodeByHostName h key value w).1 = none
        ∧ ∃ node : v1.Node, storeLookup w.nodes h = some node.Annotations ∧ node.Name = h
          ∧ (World.AnnotateNodeByHostName h key value w).2.nodes
            = replaceNode w.nodes
                { node with Annotations := mapInsert node.Annotations key value }) := by
  unfold World.AnnotateNodeByHostName
  simp only []
  cases hok : (World.GetNodeByHostName h w).1 with
  | error e => exact Or.inl ⟨by simp, getNode_nodes h w⟩
  | ok node =>
    simp only []
    rcases updateNode_nodes { node with Annotations := mapInsert node.Annotations key value }
      (World.GetNodeByHostName h w).2 with ⟨h1, h2⟩ | ⟨h1, h2⟩
    · refine Or.inr ⟨h1, node, getNode_found h w node hok, getNode_name h w node hok, ?_⟩
      rw [h2, getNode_nodes]
    · refine Or.inl ⟨h1, ?_⟩
      rw [h2, getNode_nodes]

theorem annotate_consistent (h key value : String) (w : World)
    (hall : allConsistent w.nodes = true)
    (hins : ∀ a, storeLookup w.nodes h = some a →
      markersConsistent (mapInsert a key value) = true) :
    allConsistent (World.AnnotateNodeByHostName h key value w).2.nodes = true := by
  rcases annotate_nodes h key value w with ⟨_, h2⟩ | ⟨_, node, hl, _, h2⟩
  · rw [h2]; exact hall
  · rw [h2]
    exact allConsistent_replaceNode _ _ hall (hins _ hl)

theorem annotate_lookup (h key value : String) (w : World)
    (hnone : (World.AnnotateNodeByHostName h key value w).1 = none) :
    ∃ a, storeLookup w.nodes h = some a
      ∧ storeLookup (World.AnnotateNodeByHostName h key value w).2.nodes h
        = some (mapInsert a key value) := by
  rcases annotate_nodes h key value w with ⟨h1, _⟩ | ⟨_, node, hl, hname, h2⟩
  · exact absurd hnone h1
  · refine ⟨node.Annotations, hl, ?_⟩
    rw [h2]
    have := storeLookup_replaceNode w.nodes
      { node with Annotations := mapInsert node.Annotations key value } node.Annotations
      (by simpa [hname] using hl)
    simpa [hname] using this

theorem drain_consistent (name : String) (a b : Bool) (w : World) :
    allConsistent (World.Drain name a b w).2.nodes = allConsistent w.nodes := by
  unfold World.Drain
  simp only []
  split
  · rw [nextFailure_nodes]
  · simp only []
    rw [allConsistent_map_same, nextFailure_nodes]
    intro n
    split <;> rfl

theorem drain_lookup (name : String) (a b : Bool) (w : World) (h : String) :
    storeLookup (World.Drain name a b w).2.nodes h = storeLookup w.nodes h := by
  unfold World.Drain
  simp only []
  split
  · rw [nextFailure_nodes]
  · simp only []
    rw [storeLookup_map_same, nextFailure_nodes]
    · intro n
      split <;> rfl
    · intro n
      split <;> rfl

theorem check_nodes (node : v1.Node) (nodes : List v1.Node) (w : World) :
    (World.CheckIfNodeHasEnoughResourcesToTransferAllPodsInNodes node nodes w).2.nodes
      = w.nodes := by
  unfold World.CheckIfNodeHasEnoughResourcesToTransferAllPodsInNodes
  split <;> rfl

theorem terminate_nodes (i : autoscaling.Instance) (w : World) :
    (World.TerminateEc2Instance i w).2.nodes = w.nodes := by
  unfold World.TerminateEc2Instance
  simp only []
  split
  · exact nextFailure_nodes w
  · simp only [nextFailure_nodes]

theorem setDesired_nodes (g : autoscaling.Group) (n : Int) (w : World) :
    (World.SetAutoScalingGroupDesiredCount g n w).2.nodes = w.nodes := by
  unfold World.SetAutoScalingGroupDesiredCount
  simp only []
  split
  · exact nextFailure_nodes w
  · simp only [nextFailure_nodes]

theorem describeByID_nodes (id : String) (w : World) :
    (World.DescribeLaunchTemplateByID id w).2.nodes = w.nodes := by
  unfold World.DescribeLaunchTemplateByID
  simp only []
  split
  · exact nextFailure_nodes w
  · split <;> exact nextFailure_nodes w

theorem describeByName_nodes (name : String) (w : World) :
    (World.DescribeLaunchTemplateByName name w).2.nodes = w.nodes := by
  unfold World.DescribeLaunchTemplateByName
  simp only []
  split
  · exact nextFailure_nodes w
  · split <;> exact nextFailure_nodes w

/-! ### One tick in the in-memory world keeps the markers consistent -/

theorem minutesSinceKey_state (node : v1.Node) (key : String) (w : World) :
    (minutesSinceKey World.services node key w).2 = w := by
  unfold minutesSinceKey
  split
  · rfl
  · split <;> rfl

theorem timestamps_state (node : v1.Node) (w : World) :
    (getRollingUpdateTimestampsFromNode World.services node w).2 = w := by
  unfold getRollingUpdateTimestampsFromNode
  simp only [minutesSinceKey_state]

theorem startRollout_consistent (i : autoscaling.Instance) (w : World)
    (hall : allConsistent w.nodes = true) :
    allConsistent (startRollout World.services i w).st.nodes = true := by
  unfold startRollout
  simp only [World.services]
  apply annotate_consistent _ _ _ _ hall
  intro a hl
  exact consistent_insert_started a _ (storeLookup_consistent _ _ _ hall hl)

theorem terminateStep_consistent (i : autoscaling.Instance) (m : Int) (w : World)
    (hall : allConsistent w.nodes = true)
    (hs : ∀ a, storeLookup w.nodes (aws.StringValue i.InstanceId) = some a →
      carries a k8s.RollingUpdateStartedTimestampAnnotationKey = true)
    (hd : ∀ a, storeLookup w.nodes (aws.StringValue i.InstanceId) = some a →
      carries a k8s.RollingUpdateDrainedTimestampAnnotationKey = true) :
    allConsistent (terminateStep World.services i m w).st.nodes = true := by
  unfold terminateStep
  simp only [World.services]
  split
  · split
    · simp only [terminate_nodes]; exact hall
    · apply annotate_consistent
      · simp only [terminate_nodes]; exact hall
      · intro a hl
        simp only [terminate_nodes] at hl
        exact consistent_insert_terminated a _ (hs a hl) (hd a hl)
  · exact hall

theorem drainAndTerminate_consistent (cfg : config) (i : autoscaling.Instance)
    (node : v1.Node) (md mt : Int) (w : World)
    (hall : allConsistent w.nodes = true)
    (hs : ∀ a, storeLookup w.nodes (aws.StringValue i.InstanceId) = some a →
      carries a k8s.RollingUpdateStartedTimestampAnnotationKey = true)
    (hd : md ≠ -1 → ∀ a, storeLookup w.nodes (aws.StringValue i.InstanceId) = some a →
      carries a k8s.RollingUpdateDrainedTimestampAnnotationKey = true)
    (h2 : ∀ e ∈ (drainAndTerminate World.services cfg i node md mt w).calls,
      e.dropsDrainedWrite = false) :
    allConsistent (drainAndTerminate World.services cfg i node md mt w).st.nodes = true := by
  unfold drainAndTerminate at h2 ⊢
  simp only [World.services] at h2 ⊢
  by_cases hmd : md = -1
  · simp only [hmd, if_true] at h2 ⊢
    cases hdr : (World.Drain node.Name cfg.IgnoreDaemonSets cfg.DeleteLocalData w).1 with
    | some e =>
      simp only [hdr]
      rw [drain_consistent]; exact hall
    | none =>
      simp only [hdr] at h2 ⊢
      have hall1 : allConsistent
          (World.Drain node.Name cfg.IgnoreDaemonSets cfg.DeleteLocalData w).2.nodes = true := by
        rw [drain_consistent]; exact hall
      have hs1 : ∀ a, storeLookup
          (World.Drain node.Name cfg.IgnoreDaemonSets cfg.DeleteLocalData w).2.nodes
            (aws.StringValue i.InstanceId) = some a →
          carries a k8s.RollingUpdateStartedTimestampAnnotationKey = true := by
        intro a hl
        rw [drain_lookup] at hl
        exact hs a hl
      cases han : (World.AnnotateNodeByHostName (aws.StringValue i.InstanceId)
          k8s.RollingUpdateDrainedTimestampAnnotationKey
          (formatInt64 (World.Drain node.Name cfg.IgnoreDaemonSets cfg.DeleteLocalData w).2.clock)
          (World.Drain node.Name cfg.IgnoreDaemonSets cfg.DeleteLocalData w).2).1 with
      | some e =>
        have := h2 ⟨some i, Call.AnnotateNodeByHostName (aws.StringValue i.InstanceId)
          k8s.RollingUpdateDrainedTimestampAnnotationKey
          (formatInt64 (World.Drain node.Name cfg.IgnoreDaemonSets cfg.DeleteLocalData w).2.clock)
          (some e)⟩ (by rw [han]; simp)
        simp [Event.dropsDrainedWrite] at this
      | none =>
        obtain ⟨a0, hl0, hl1⟩ := annotate_lookup _ _ _ _ han
        apply terminateStep_consistent
        · apply annotate_consistent _ _ _ _ hall1
          intro a hl
          exact consistent_insert_drained a _ (hs1 a hl)
        · intro a hl
          rw [hl1] at hl
          simp only [Option.some.injEq] at hl
          rw [← hl, carries_insert_ne _ _ _ _ started_ne_drained]
          exact hs1 a0 hl0
        · intro a hl
          rw [hl1] at hl
          simp only [Option.some.injEq] at hl
          rw [← hl]
          exact carries_insert_same _ _ _
  · simp only [hmd, if_false] at h2 ⊢
    exact terminateStep_consistent i mt w hall hs (hd hmd)

theorem increaseDesiredCount_nodes (g : autoscaling.Group) (i : autoscaling.Instance)
    (w : World) : (increaseDesiredCount World.services g i w).st.nodes = w.nodes := by
  unfold increaseDesiredCount
  simp only [World.services]
  split
  · rfl
  · split <;> exact setDesired_nodes _ _ _

theorem handleOutdatedNode_consistent (cfg : config) (g : autoscaling.Group)
    (ready : List v1.Node) (i : autoscaling.Instance) (node : v1.Node) (w : World)
    (hall : allConsistent w.nodes = true)
    (hl : storeLookup w.nodes (aws.StringValue i.InstanceId) = some node.Annotations)
    (h2 : ∀ e ∈ (handleOutdatedNode World.services cfg g ready i node w).calls,
      e.dropsDrainedWrite = false) :
    allConsistent (handleOutdatedNode World.services cfg g ready i node w).st.nodes
      = true := by
  unfold handleOutdatedNode at h2 ⊢
  simp only [timestamps_state] at h2 ⊢
  by_cases hst : (getRollingUpdateTimestampsFromNode World.services node w).1.1 = -1
  · simp only [hst, if_true]
    exact startRollout_consistent i w hall
  · simp only [hst, if_false] at h2 ⊢
    have hstarted : carries node.Annotations
        k8s.RollingUpdateStartedTimestampAnnotationKey = true :=
      minutesSinceKey_present World.services node _ _ hst
    by_cases hc : (World.services.CheckIfNodeHasEnoughResourcesToTransferAllPodsInNodes
        node ready w).1 = true
    · simp only [hc, if_true] at h2 ⊢
      apply drainAndTerminate_consistent
      · show allConsistent (World.CheckIfNodeHasEnoughResourcesToTransferAllPodsInNodes
          node ready w).2.nodes = true
        rw [check_nodes]; exact hall
      · intro a ha
        have ha2 : storeLookup (World.CheckIfNodeHasEnoughResourcesToTransferAllPodsInNodes
          node ready w).2.nodes (aws.StringValue i.InstanceId) = some a := ha
        rw [check_nodes, hl] at ha2
        simp only [Option.some.injEq] at ha2
        rw [← ha2]; exact hstarted
      · intro hne a ha
        have ha2 : storeLookup (World.CheckIfNodeHasEnoughResourcesToTransferAllPodsInNodes
          node ready w).2.nodes (aws.StringValue i.InstanceId) = some a := ha
        rw [check_nodes, hl] at ha2
        simp only [Option.some.injEq] at ha2
        rw [← ha2]
        exact minutesSinceKey_present World.services node _ _ hne
      · intro e he
        exact h2 e (List.mem_cons_of_mem _ he)
    · rw [if_neg hc, increaseDesiredCount_nodes]
      show allConsistent (World.CheckIfNodeHasEnoughResourcesToTransferAllPodsInNodes
          node ready w).2.nodes = true
      rw [check_nodes]; exact hall

theorem handleOutdatedInstance_consistent (cfg : config) (g : autoscaling.Group)
    (ready : List v1.Node) (i : autoscaling.Instance) (w : World)
    (hall : allConsistent w.nodes = true)
    (h2 : ∀ e ∈ (handleOutdatedInstance World.services cfg g ready i w).calls,
      e.dropsDrainedWrite = false) :
    allConsistent (handleOutdatedInstance World.services cfg g ready i w).st.nodes
      = true := by
  unfold handleOutdatedInstance at h2 ⊢
  simp only [] at h2 ⊢
  cases hok : (World.services.GetNodeByHostName (aws.StringValue i.InstanceId) w).1 with
  | error e =>
    simp only [hok]
    show allConsistent (World.GetNodeByHostName (aws.StringValue i.InstanceId) w).2.nodes = true
    rw [getNode_nodes]; exact hall
  | ok node =>
    simp only [hok] at h2 ⊢
    apply handleOutdatedNode_consistent
    · show allConsistent (World.GetNodeByHostName (aws.StringValue i.InstanceId) w).2.nodes
        = true
      rw [getNode_nodes]; exact hall
    · show storeLookup (World.GetNodeByHostName (aws.StringValue i.InstanceId) w).2.nodes
        (aws.StringValue i.InstanceId) = some node.Annotations
      rw [getNode_nodes]
      exact getNode_found _ w node hok
    · intro e he
      exact h2 e (List.mem_cons_of_mem _ he)

theorem outdatedLoop_consistent (cfg : config) (g : autoscaling.Group)
    (ready : List v1.Node) :
    ∀ (l : List autoscaling.Instance) (w : World),
      allConsistent w.nodes = true →
      (∀ e ∈ (outdatedLoop World.services cfg g ready l w).calls,
        e.dropsDrainedWrite = false) →
      allConsistent (outdatedLoop World.services cfg g ready l w).st.nodes = true := by
  intro l
  induction l with
  | nil => intro w hall _; exact hall
  | cons i rest ih =>
    intro w hall h2
    unfold outdatedLoop at h2 ⊢
    simp only [] at h2 ⊢
    cases hv : (handleOutdatedInstance World.services cfg g ready i w).val with
    | next =>
      simp only [hv] at h2 ⊢
      apply ih
      · exact handleOutdatedInstance_consistent cfg g ready i w hall
          (fun e he => h2 e (List.mem_append_left _ he))
      · intro e he
        exact h2 e (List.mem_append_right _ he)
    | ret =>
      simp only [hv] at h2 ⊢
      exact handleOutdatedInstance_consistent cfg g ready i w hall h2
    | crash =>
      simp only [hv] at h2 ⊢
      exact handleOutdatedInstance_consistent cfg g ready i w hall h2

theorem cleanUpdatedNode_consistent (u : autoscaling.Instance) (node : v1.Node) (w : World)
    (hall : allConsistent w.nodes = true)
    (h1 : ∀ e ∈ (cleanUpdatedNode World.services u node w).calls,
      e.strandsLaterMarker = false) :
    allConsistent (cleanUpdatedNode World.services u node w).st.nodes = true := by
  unfold cleanUpdatedNode at h1 ⊢
  cases hm : mapLookup node.Annotations k8s.RollingUpdateStartedTimestampAnnotationKey with
  | none => simp only [hm]; exact hall
  | some v =>
    simp only [hm] at h1 ⊢
    cases hsc : scanTaints World.services.Parse v node.Spec.Taints 0 with
    | notFound => simp only [hsc]; exact hall
    | panic => simp only [hsc]; exact hall
    | found k =>
      simp only [hsc] at h1 ⊢
      rcases updateNode_nodes (cleanedNode node k) w with ⟨e1, e2⟩ | ⟨_, e2⟩
      · have := h1 ⟨some u, Call.UpdateNode (cleanedNode node k) none⟩ (by
          show _ ∈ [(⟨some u, Call.UpdateNode (cleanedNode node k)
            (World.UpdateNode (cleanedNode node k) w).1⟩ : Event)]
          rw [e1]; simp)
        simp only [Event.strandsLaterMarker, Bool.or_eq_false_iff] at this
        show allConsistent (World.UpdateNode (cleanedNode node k) w).2.nodes = true
        rw [e2]
        exact allConsistent_replaceNode _ _ hall
          (consistent_of_no_later_marker _ this.1 this.2)
      · show allConsistent (World.UpdateNode (cleanedNode node k) w).2.nodes = true
        rw [e2]; exact hall

theorem readyLoop_consistent :
    ∀ (l : List autoscaling.Instance) (acc : List v1.Node) (n : Nat) (w : World),
      allConsistent w.nodes = true →
      (∀ e ∈ (readyLoop World.services l acc n w).calls, e.strandsLaterMarker = false) →
      allConsistent (readyLoop World.services l acc n w).st.nodes = true := by
  intro l
  induction l with
  | nil => intro acc n w hall _; exact hall
  | cons u rest ih =>
    intro acc n w hall h1
    have hg : allConsistent
        (World.services.GetNodeByHostName (aws.StringValue u.InstanceId) w).2.nodes = true := by
      show allConsistent (World.GetNodeByHostName (aws.StringValue u.InstanceId) w).2.nodes
        = true
      rw [getNode_nodes]; exact hall
    unfold readyLoop at h1 ⊢
    cases hs : u.LifecycleState with
    | none => simp only [hs]; exact hall
    | some state =>
      simp only [hs] at h1 ⊢
      by_cases hin : state ≠ "InService"
      · rw [if_pos hin] at h1 ⊢
        exact ih _ _ _ hall h1
      · rw [if_neg hin] at h1 ⊢
        cases hok : (World.services.GetNodeByHostName (aws.StringValue u.InstanceId) w).1 with
        | error e =>
          simp only [hok] at h1 ⊢
          exact ih _ _ _ hg (fun e he => h1 e (List.mem_cons_of_mem _ he))
        | ok node =>
          simp only [hok] at h1 ⊢
          cases hr : lastConditionReady node with
          | none => simp only [hr]; exact hg
          | some ready =>
            simp only [hr] at h1 ⊢
            have hclean := cleanUpdatedNode_consistent u node _ hg
            cases hc : (cleanUpdatedNode World.services u node
                (World.services.GetNodeByHostName (aws.StringValue u.InstanceId) w).2).val with
            | none =>
              simp only [hc] at h1 ⊢
              exact hclean (fun e he => h1 e (List.mem_cons_of_mem _ he))
            | some nd =>
              simp only [hc] at h1 ⊢
              have hcl := hclean (fun e he =>
                h1 e (List.mem_cons_of_mem _ (List.mem_append_left _ he)))
              cases ready with
              | true =>
                simp only [if_true] at h1 ⊢
                exact ih _ _ _ hcl (fun e he =>
                  h1 e (List.mem_cons_of_mem _ (List.mem_append_right _ he)))
              | false =>
                simp only [Bool.false_eq_true, if_false] at h1 ⊢
                exact ih _ _ _ hcl (fun e he =>
                  h1 e (List.mem_cons_of_mem _ (List.mem_append_right _ he)))

theorem describeTargetTemplate_nodes (target : autoscaling.LaunchTemplateSpecification)
    (w : World) : (describeTargetTemplate World.services target w).st.nodes = w.nodes := by
  unfold describeTargetTemplate
  simp only [World.services]
  split
  · split <;> exact describeByID_nodes _ _
  · split
    · split <;> exact describeByName_nodes _ _
    · rfl

theorem classification_nodes (g : autoscaling.Group) (w : World) :
    (SeparateOutdatedFromUpdatedInstances World.services g w).st.nodes = w.nodes := by
  unfold SeparateOutdatedFromUpdatedInstances
  simp only []
  split
  · rename_i t _
    unfold SeparateOutdatedFromUpdatedInstancesUsingLaunchTemplate
    simp only []
    split
    · exact describeTargetTemplate_nodes t w
    · exact describeTargetTemplate_nodes t w
    · exact describeTargetTemplate_nodes t w
    · split
      · exact describeTargetTemplate_nodes t w
      · exact describeTargetTemplate_nodes t w
  · split <;> rfl

theorem handleAutoScalingGroup_consistent (cfg : config) (g : autoscaling.Group) (w : World)
    (hall : allConsistent w.nodes = true)
    (h1 : ∀ e ∈ (handleAutoScalingGroup World.services cfg g w).calls,
      e.strandsLaterMarker = false)
    (h2 : ∀ e ∈ (handleAutoScalingGroup World.services cfg g w).calls,
      e.dropsDrainedWrite = false) :
    allConsistent (handleAutoScalingGroup World.services cfg g w).st.nodes = true := by
  have hc : allConsistent (SeparateOutdatedFromUpdatedInstances World.services g w).st.nodes
      = true := by
    rw [classification_nodes]; exact hall
  obtain ⟨_, _, h⟩ := handleAutoScalingGroup_cases World.services cfg g w _ _ rfl rfl
  rcases h with ⟨_, _, hst, _⟩ | ⟨old, new, rd, _, hrd, h⟩
  · rw [hst]; exact hc
  · rcases h with ⟨hcalls, _, hst, _⟩ | ⟨ready, lp, _, _, hlp, hcalls, _, hst⟩
    · rw [hst, hrd]
      apply readyLoop_consistent _ _ _ _ hc
      intro e he
      apply h1
      rw [hcalls, hrd]
      exact List.mem_append_right _ he
    · have hrdc : allConsistent rd.st.nodes = true := by
        rw [hrd]
        apply readyLoop_consistent _ _ _ _ hc
        intro e he
        apply h1
        rw [hcalls, hrd]
        exact List.mem_append_left _ (List.mem_append_right _ he)
      rw [hst, hlp]
      apply outdatedLoop_consistent _ _ _ _ _ hrdc
      intro e he
      apply h2
      rw [hcalls, hlp]
      exact List.mem_append_right _ he

/-- C5, as amended: in the in-memory world, if the markers of every node are consistent
before a tick (drained-at only with started-at, terminated-at only with started-at and
drained-at), then they are consistent after it, whatever the adapter calls return, provided
that in the tick no cleanup of an updated node persists a node object that carries
drained-at or terminated-at, and no drained-at annotation write returns an error. -/
theorem C5_markers_stay_consistent (cfg : config) :
    ∀ (groups : List autoscaling.Group) (w : World),
      allConsistent w.nodes = true →
      (∀ r ∈ (HandleRollingUpgrade World.services cfg groups w).runs,
        ∀ e ∈ r.calls, e.strandsLaterMarker = false) →
      (∀ r ∈ (HandleRollingUpgrade World.services cfg groups w).runs,
        ∀ e ∈ r.calls, e.dropsDrainedWrite = false) →
      allConsistent (HandleRollingUpgrade World.services cfg groups w).st.nodes = true := by
  intro groups
  induction groups with
  | nil => intro w hall _ _; exact hall
  | cons g rest ih =>
    intro w hall h1 h2
    unfold HandleRollingUpgrade at h1 h2 ⊢
    simp only [] at h1 h2 ⊢
    cases hf : (handleAutoScalingGroup World.services cfg g w).flow with
    | next =>
      simp only [hf] at h1 h2 ⊢
      apply ih
      · exact handleAutoScalingGroup_consistent cfg g w hall
          (h1 _ (List.mem_cons_self _ _)) (h2 _ (List.mem_cons_self _ _))
      · intro r hr
        exact h1 r (List.mem_cons_of_mem _ hr)
      · intro r hr
        exact h2 r (List.mem_cons_of_mem _ hr)
    | ret =>
      simp only [hf] at h1 h2 ⊢
      exact handleAutoScalingGroup_consistent cfg g w hall
        (h1 _ (List.mem_singleton_self _)) (h2 _ (List.mem_singleton_self _))
    | crash =>
      simp only [hf] at h1 h2 ⊢
      exact handleAutoScalingGroup_consistent cfg g w hall
        (h1 _ (List.mem_singleton_self _)) (h2 _ (List.mem_singleton_self _))

/-! ### The claims at concrete ticks -/

/-- C1, amended, at the second tick of the test: the capacity request succeeds, it is the
one successful change of the tick for the group, and the function returns. -/
theorem C1_at_most_one_successful_change_witness :
    handleAutoScalingGroup World.services testConfig oneOutdatedGroup startedWorld
        ∈ (HandleRollingUpgrade World.services testConfig [oneOutdatedGroup] startedWorld).runs
    ∧ ((handleAutoScalingGroup World.services testConfig oneOutdatedGroup
          startedWorld).calls.filter Event.isSuccessfulChange).length ≤ 1
    ∧ ((∃ e ∈ (handleAutoScalingGroup World.services testConfig oneOutdatedGroup
          startedWorld).calls, e.isSuccessfulChange = true) →
        (handleAutoScalingGroup World.services testConfig oneOutdatedGroup
          startedWorld).flow = Flow.ret) :=
  ⟨by decide,
    C1_at_most_one_successful_change World.services testConfig [oneOutdatedGroup]
      startedWorld _ (by decide)⟩

/-- C2 at the sixth tick of the test: the node of the updated instance is not ready, and
nothing is done to the outdated instance. -/
theorem C2_backpressure_gate_witness :
    (handleAutoScalingGroup World.services testConfig mixedGroup notReadyWorld).classified
        = Result.ok ([oldInstance], [newInstance])
    ∧ lastConditionReady notReadyNode ≠ some true
    ∧ ∀ e ∈ (handleAutoScalingGroup World.services testConfig mixedGroup
          notReadyWorld).calls,
        e.call.isSetDesiredCount = false ∧ e.call.isDrain = false
          ∧ e.call.isTerminate = false ∧ e.call.isAnnotate = false :=
  ⟨by decide, by decide,
    C2_backpressure_gate World.services testConfig [mixedGroup] notReadyWorld _ (by decide)
      [oldInstance] [newInstance] (by decide) newInstance (by decide)
      (Or.inr ⟨notReadyNode, by decide, by decide⟩)⟩

/-- C3 at the seventh tick of the test: the termination of the outdated instance comes
after the lookup of its node and the successful drain of that node. -/
theorem C3_drain_precedes_termination_witness :
    (handleAutoScalingGroup World.services testConfig oneOutdatedGroup
        sufficientWorld).calls
      = callsBeforeTermination ++ terminationEvent :: callsAfterTermination
    ∧ DrainedBefore callsBeforeTermination oldInstance :=
  ⟨by decide,
    C3_drain_precedes_termination World.services testConfig [oneOutdatedGroup]
      sufficientWorld
      (handleAutoScalingGroup World.services testConfig oneOutdatedGroup sufficientWorld)
      (by decide) callsBeforeTermination callsAfterTermination terminationEvent
      oldInstance none (by decide) rfl⟩

/-- C4 at the seventh tick of the test: the drain is issued for the outdated instance. -/
theorem C4_only_outdated_drained_or_terminated_witness :
    (⟨some oldInstance, Call.Drain "old-1" false false none⟩ : Event)
        ∈ (handleAutoScalingGroup World.services testConfig oneOutdatedGroup
            sufficientWorld).calls
    ∧ ∃ old new i,
        (handleAutoScalingGroup World.services testConfig oneOutdatedGroup
            sufficientWorld).classified = Result.ok (old, new)
        ∧ i ∈ old ∧ i ∉ new
        ∧ (⟨some oldInstance, Call.Drain "old-1" false false none⟩ : Event).inst = some i :=
  ⟨by decide,
    match C4_only_outdated_drained_or_terminated World.services testConfig
        [oneOutdatedGroup] sufficientWorld _ (by decide)
        ⟨some oldInstance, Call.Drain "old-1" false false none⟩ (by decide)
        (Or.inl rfl) with
    | ⟨old, new, i, h1, _, h3, h4, h5, _⟩ => ⟨old, new, i, h1, h3, h4, h5⟩⟩

/-- C5 as stated fails twice.  First, the error of the drained-at annotation write is
dropped: with a node that carries started-at, enough resources, a successful drain and a
failing drained-at write, the tick terminates the instance and leaves the node with
started-at and terminated-at but without drained-at.  Second, without any failing call,
the cleanup of an updated node that carries started-at and drained-at deletes started-at
alone. -/
theorem C5_counterexample :
    (allConsistent droppedErrorWorld.nodes = true
      ∧ allConsistent (HandleRollingUpgrade World.services testConfig [oneOutdatedGroup]
          droppedErrorWorld).st.nodes = false)
    ∧ (allConsistent staleMarkersWorld.nodes = true
      ∧ allConsistent (HandleRollingUpgrade World.services testConfig [oneUpdatedGroup]
          staleMarkersWorld).st.nodes = false) := by
  decide

/-- C5, amended, at the seventh tick of the test: no call fails, the node of the outdated
instance ends the tick with all three markers. -/
theorem C5_markers_stay_consistent_witness :
    allConsistent sufficientWorld.nodes = true
    ∧ (HandleRollingUpgrade World.services testConfig [oneOutdatedGroup]
        sufficientWorld).st.nodes.map
          (fun n => (carries n.Annotations k8s.RollingUpdateStartedTimestampAnnotationKey,
            carries n.Annotations k8s.RollingUpdateDrainedTimestampAnnotationKey,
            carries n.Annotations k8s.RollingUpdateTerminatedTimestampAnnotationKey))
        = [(true, true, true)]
    ∧ allConsistent (HandleRollingUpgrade World.services testConfig [oneOutdatedGroup]
        sufficientWorld).st.nodes = true :=
  ⟨by decide, by decide,
    C5_markers_stay_consistent testConfig [oneOutdatedGroup] sufficientWorld (by decide)
      (by decide) (by decide)⟩

/-! ## Errors of the classification, and groups with nothing outdated -/

theorem separate_of_selected {σ : Type} (svc : Services σ) (asg : autoscaling.Group)
    (s : σ) :
    SeparateOutdatedFromUpdatedInstances svc asg s =
      match selectedLaunchTemplate asg with
      | some t =>
        SeparateOutdatedFromUpdatedInstancesUsingLaunchTemplate svc (some t) asg.Instances s
      | none =>
        match asg.LaunchConfigurationName with
        | some name =>
          ⟨SeparateOutdatedFromUpdatedInstancesUsingLaunchConfiguration (some name)
            asg.Instances, s, []⟩
        | none =>
          ⟨Result.error
            "AutoScalingGroup has neither launch template nor launch configuration", s, []⟩ :=
  rfl

theorem separateUsingLaunchTemplate_error {σ : Type} (svc : Services σ)
    (t : autoscaling.LaunchTemplateSpecification) (instances : List autoscaling.Instance)
    (s : σ) (msg : String) (h : (describeTargetTemplate svc t s).val = Result.error msg) :
    (SeparateOutdatedFromUpdatedInstancesUsingLaunchTemplate svc (some t) instances s).val
      = Result.error msg := by
  unfold SeparateOutdatedFromUpdatedInstancesUsingLaunchTemplate
  simp only [h]

theorem describeTargetTemplate_error {σ : Type} (svc : Services σ)
    (t : autoscaling.LaunchTemplateSpecification) (s : σ) :
    (∀ e, t.LaunchTemplateId ≠ none → t.LaunchTemplateId ≠ some "" →
      (svc.DescribeLaunchTemplateByID (aws.StringValue t.LaunchTemplateId) s).1
        = Reply.error e →
      (describeTargetTemplate svc t s).val
        = Result.error ("error retrieving information about launch template "
            ++ aws.StringValue t.LaunchTemplateId ++ ": " ++ e))
    ∧ (∀ e, (t.LaunchTemplateId = none ∨ t.LaunchTemplateId = some "") →
      t.LaunchTemplateName ≠ none → t.LaunchTemplateName ≠ some "" →
      (svc.DescribeLaunchTemplateByName (aws.StringValue t.LaunchTemplateName) s).1
        = Reply.error e →
      (describeTargetTemplate svc t s).val
        = Result.error ("error retrieving information about launch template name "
            ++ aws.StringValue t.LaunchTemplateName ++ ": " ++ e))
    ∧ ((t.LaunchTemplateId = none ∨ t.LaunchTemplateId = some "") →
      (t.LaunchTemplateName = none ∨ t.LaunchTemplateName = some "") →
      (describeTargetTemplate svc t s).val = Result.error "invalid launch template name") := by
  refine ⟨?_, ?_, ?_⟩
  · intro e h1 h2 h
    unfold describeTargetTemplate
    rw [if_pos ⟨h1, h2⟩]
    simp only [h]
  · intro e h0 h1 h2 h
    unfold describeTargetTemplate
    rw [if_neg (by rcases h0 with h0 | h0 <;> simp [h0]), if_pos ⟨h1, h2⟩]
    simp only [h]
  · intro h0 h1
    unfold describeTargetTemplate
    rw [if_neg (by rcases h0 with h0 | h0 <;> simp [h0]),
      if_neg (by rcases h1 with h1 | h1 <;> simp [h1])]

/-- C11: `SeparateOutdatedFromUpdatedInstances` returns an error and no list (the error
result carries none) when the group has no launch template, neither of its own nor through
its mixed instances policy, and no launch configuration name; with a launch template it
returns the error of the template lookup whenever that lookup returns one, by id or by name
(and the error of the `switch` default when the template reference has neither); with a
launch configuration name and no launch template it returns two lists and no error, without
any adapter call. -/
theorem C11_classification_errors {σ : Type} (svc : Services σ) (asg : autoscaling.Group)
    (s : σ) :
    (selectedLaunchTemplate asg = none → asg.LaunchConfigurationName = none →
      SeparateOutdatedFromUpdatedInstances svc asg s
        = ⟨Result.error
            "AutoScalingGroup has neither launch template nor launch configuration", s, []⟩)
    ∧ (∀ t msg, selectedLaunchTemplate asg = some t →
        (describeTargetTemplate svc t s).val = Result.error msg →
        (SeparateOutdatedFromUpdatedInstances svc asg s).val = Result.error msg)
    ∧ (∀ t e, selectedLaunchTemplate asg = some t →
        t.LaunchTemplateId ≠ none → t.LaunchTemplateId ≠ some "" →
        (svc.DescribeLaunchTemplateByID (aws.StringValue t.LaunchTemplateId) s).1
          = Reply.error e →
        (SeparateOutdatedFromUpdatedInstances svc asg s).val
          = Result.error ("error retrieving information about launch template "
              ++ aws.StringValue t.LaunchTemplateId ++ ": " ++ e))
    ∧ (∀ t e, selectedLaunchTemplate asg = some t →
        (t.LaunchTemplateId = none ∨ t.LaunchTemplateId = some "") →
        t.LaunchTemplateName ≠ none → t.LaunchTemplateName ≠ some "" →
        (svc.DescribeLaunchTemplateByName (aws.StringValue t.LaunchTemplateName) s).1
          = Reply.error e →
        (SeparateOutdatedFromUpdatedInstances svc asg s).val
          = Result.error ("error retrieving information about launch template name "
              ++ aws.StringValue t.LaunchTemplateName ++ ": " ++ e))
    ∧ (∀ name, selectedLaunchTemplate asg = none →
        asg.LaunchConfigurationName = some name →
        ∃ old new, SeparateOutdatedFromUpdatedInstances svc asg s
          = ⟨Result.ok (old, new), s, []⟩) := by
  rw [separate_of_selected]
  refine ⟨?_, ?_, ?_, ?_, ?_⟩
  · intro h1 h2
    simp only [h1, h2]
  · intro t msg h1 h2
    simp only [h1]
    exact separateUsingLaunchTemplate_error svc t _ s msg h2
  · intro t e h1 h2 h3 h4
    simp only [h1]
    exact separateUsingLaunchTemplate_error svc t _ s _
      ((describeTargetTemplate_error svc t s).1 e h2 h3 h4)
  · intro t e h1 h2 h3 h4 h5
    simp only [h1]
    exact separateUsingLaunchTemplate_error svc t _ s _
      ((describeTargetTemplate_error svc t s).2.1 e h2 h3 h4 h5)
  · intro name h1 h2
    simp only [h1, h2, SeparateOutdatedFromUpdatedInstancesUsingLaunchConfiguration,
      launchConfigurationLoop_eq]
    exact ⟨_, _, rfl⟩

theorem quiet_not_successful (l : List Event)
    (h : ∀ x ∈ l, x.call.isReconcileAction = false) :
    ∀ x ∈ l, x.isSuccessfulChange = false := by
  intro x hx
  have := h x hx
  simp only [Call.isReconcileAction, Bool.or_eq_false_iff] at this
  simp [Event.isSuccessfulChange, Call.isCapacityOrTermination, this.1.1.1, this.1.2]

/-- C19: in every tick, a group whose classification returns an empty outdated list gets
no `AnnotateNodeByHostName`, no `Drain`, no `TerminateEc2Instance` and no
`SetAutoScalingGroupDesiredCount` call, and the pass over the group ends with `continue`
or with a panic of the readiness evaluation, never with a `return`. -/
theorem C19_nothing_outdated_no_action {σ : Type} (svc : Services σ) (cfg : config)
    (groups : List autoscaling.Group) (s : σ) (r : GroupRun σ)
    (new : List autoscaling.Instance)
    (hr : r ∈ (HandleRollingUpgrade svc cfg groups s).runs)
    (hcl : r.classified = Result.ok ([], new)) :
    (∀ e ∈ r.calls, e.call.isAnnotate = false ∧ e.call.isDrain = false
      ∧ e.call.isTerminate = false ∧ e.call.isSetDesiredCount = false)
    ∧ r.flow ≠ Flow.ret := by
  obtain ⟨g, _, s0, e⟩ := runs_mem svc cfg groups s r hr
  obtain ⟨_, hcv, h⟩ := handleAutoScalingGroup_cases svc cfg g s0 r _ e rfl
  have hc := classification_calls svc g s0
  have split4 : ∀ x : Event, x.call.isReconcileAction = false →
      x.call.isAnnotate = false ∧ x.call.isDrain = false
      ∧ x.call.isTerminate = false ∧ x.call.isSetDesiredCount = false := by
    intro x hx
    simp only [Call.isReconcileAction, Bool.or_eq_false_iff] at hx
    exact ⟨hx.2, hx.1.1.2, hx.1.2, hx.1.1.1⟩
  rcases h with ⟨h1, h2, _, _⟩ | ⟨old, new2, rd, hok, hrd, h⟩
  · refine ⟨?_, h2⟩
    intro x hx
    rw [h1] at hx
    exact split4 x (hc x hx).2
  · rw [hcv, hok] at hcl
    have hold : old = [] := by
      injection hcl with h3
      injection h3
    rcases h with ⟨h1, h2, _, _⟩ | ⟨ready, lp, _, hne, _⟩
    · refine ⟨?_, h2⟩
      intro x hx
      rw [h1, List.mem_append] at hx
      rcases hx with hx | hx
      · exact split4 x (hc x hx).2
      · rw [hrd] at hx
        exact split4 x (readyLoop_calls svc new2 [] 0 _ x hx).2
    · exact absurd hold hne

/-! ## The first phase: the started-at annotation -/

theorem minutesSinceKey_absent {σ : Type} (svc : Services σ) (node : v1.Node)
    (key : String) (s : σ) (h : mapLookup node.Annotations key = none) :
    minutesSinceKey svc node key s = (-1, s) := by
  unfold minutesSinceKey
  rw [h]

/-- C14: when the lookup of an outdated instance returns a node without the started-at
annotation, the loop body issues, after the lookup, exactly one call for that instance,
`AnnotateNodeByHostName` with the started-at key and the current time as formatted (so no
`Drain`, no `TerminateEc2Instance` and no `SetAutoScalingGroupDesiredCount`), and ends with
`continue` whether or not the write returned an error: the loop over the outdated instances
goes on with the rest of the list from the state the write left. -/
theorem C14_started_marker_only {σ : Type} (svc : Services σ) (cfg : config)
    (asg : autoscaling.Group) (ready : List v1.Node) (i : autoscaling.Instance)
    (rest : List autoscaling.Instance) (s : σ) (node : v1.Node)
    (hlookup : (svc.GetNodeByHostName (aws.StringValue i.InstanceId) s).1 = Reply.ok node)
    (hkey : mapLookup node.Annotations k8s.RollingUpdateStartedTimestampAnnotationKey
      = none) :
    ∃ (now : String) (err : Option String) (s1 : σ),
      handleOutdatedInstance svc cfg asg ready i s
        = ⟨Flow.next, s1,
            [⟨some i, Call.GetNodeByHostName (aws.StringValue i.InstanceId) (Reply.ok node)⟩,
             ⟨some i, Call.AnnotateNodeByHostName (aws.StringValue i.InstanceId)
               k8s.RollingUpdateStartedTimestampAnnotationKey now err⟩]⟩
      ∧ (∃ s0, now = (svc.Now s0).1
          ∧ err = (svc.AnnotateNodeByHostName (aws.StringValue i.InstanceId)
              k8s.RollingUpdateStartedTimestampAnnotationKey now (svc.Now s0).2).1
          ∧ s1 = (svc.AnnotateNodeByHostName (aws.StringValue i.InstanceId)
              k8s.RollingUpdateStartedTimestampAnnotationKey now (svc.Now s0).2).2)
      ∧ (∀ e ∈ (handleOutdatedInstance svc cfg asg ready i s).calls,
          e.call.isDrain = false ∧ e.call.isTerminate = false
          ∧ e.call.isSetDesiredCount = false)
      ∧ outdatedLoop svc cfg asg ready (i :: rest) s
        = ⟨(outdatedLoop svc cfg asg ready rest s1).val,
            (outdatedLoop svc cfg asg ready rest s1).st,
            [⟨some i, Call.GetNodeByHostName (aws.StringValue i.InstanceId) (Reply.ok node)⟩,
             ⟨some i, Call.AnnotateNodeByHostName (aws.StringValue i.InstanceId)
               k8s.RollingUpdateStartedTimestampAnnotationKey now err⟩]
            ++ (outdatedLoop svc cfg asg ready rest s1).calls⟩ := by
  have hts : (getRollingUpdateTimestampsFromNode svc node
      (svc.GetNodeByHostName (aws.StringValue i.InstanceId) s).2).1.1 = -1 := by
    unfold getRollingUpdateTimestampsFromNode
    simp only [minutesSinceKey_absent svc node _ _ hkey]
  have hh : handleOutdatedInstance svc cfg asg ready i s
      = ⟨Flow.next, (startRollout svc i (getRollingUpdateTimestampsFromNode svc node
            (svc.GetNodeByHostName (aws.StringValue i.InstanceId) s).2).2).st,
          ⟨some i, Call.GetNodeByHostName (aws.StringValue i.InstanceId) (Reply.ok node)⟩
            :: (startRollout svc i (getRollingUpdateTimestampsFromNode svc node
            (svc.GetNodeByHostName (aws.StringValue i.InstanceId) s).2).2).calls⟩ := by
    unfold handleOutdatedInstance
    simp only [hlookup]
    unfold handleOutdatedNode
    simp only []
    rw [if_pos hts]
    rfl
  refine ⟨_, _, _, hh, ⟨_, rfl, rfl, rfl⟩, ?_, ?_⟩
  · rw [hh]
    intro e he
    simp only [startRollout, List.mem_cons, List.mem_singleton, List.not_mem_nil,
      or_false] at he
    rcases he with he | he <;> subst he <;> exact ⟨rfl, rfl, rfl⟩
  · show outdatedLoop svc cfg asg ready (i :: rest) s = _
    rw [outdatedLoop]
    simp only [hh]
    rfl

/-! ## The capacity request -/

theorem append_eq_split {α : Type} (e : α) :
    ∀ (a b pre post : List α), a ++ b = pre ++ e :: post →
      (∃ m, a = pre ++ e :: m ∧ post = m ++ b) ∨ (∃ m, pre = a ++ m ∧ b = m ++ e :: post) := by
  intro a
  induction a with
  | nil => intro b pre post h; exact Or.inr ⟨pre, rfl, h⟩
  | cons x a ih =>
    intro b pre post h
    cases pre with
    | nil =>
      simp only [List.nil_append, List.cons_append, List.cons.injEq] at h
      exact Or.inl ⟨a, by rw [h.1]; rfl, h.2.symm⟩
    | cons y pre =>
      simp only [List.cons_append, List.cons.injEq] at h
      rcases ih b pre post h.2 with ⟨m, h1, h2⟩ | ⟨m, h1, h2⟩
      · exact Or.inl ⟨m, by rw [h.1, h1]; rfl, h2⟩
      · exact Or.inr ⟨m, by rw [h.1, h1]; rfl, h2⟩

theorem terminateStep_no_request {σ : Type} (svc : Services σ) (i : autoscaling.Instance)
    (m : Int) (s : σ) :
    ∀ e ∈ (terminateStep svc i m s).calls, e.call.isSetDesiredCount = false := by
  unfold terminateStep
  simp only []
  split
  · split <;> simp [Call.isSetDesiredCount]
  · simp

theorem drainAndTerminate_no_request {σ : Type} (svc : Services σ) (cfg : config)
    (i : autoscaling.Instance) (node : v1.Node) (md mt : Int) (s : σ) :
    ∀ e ∈ (drainAndTerminate svc cfg i node md mt s).calls,
      e.call.isSetDesiredCount = false := by
  unfold drainAndTerminate
  simp only []
  split
  · split
    · simp [Call.isSetDesiredCount]
    · intro e he
      simp only [List.mem_cons] at he
      rcases he with he | he | he
      · subst he; rfl
      · subst he; rfl
      · exact terminateStep_no_request svc i mt _ e he
  · exact terminateStep_no_request svc i mt s

theorem increaseDesiredCount_request {σ : Type} (svc : Services σ)
    (g : autoscaling.Group) (i : autoscaling.Instance) (s : σ) (d : Int)
    (hd : g.DesiredCapacity = some d) :
    ∃ err : Option String,
      (increaseDesiredCount svc g i s).calls
        = [⟨some i, Call.SetAutoScalingGroupDesiredCount g (wrapInt64 (d + 1)) err⟩]
      ∧ (err = none → (increaseDesiredCount svc g i s).val = Flow.ret)
      ∧ (err ≠ none → (increaseDesiredCount svc g i s).val = Flow.next) := by
  unfold increaseDesiredCount
  rw [hd]
  simp only []
  cases hs : (svc.SetAutoScalingGroupDesiredCount g (wrapInt64 (d + 1)) s).1 with
  | none => exact ⟨none, rfl, fun _ => rfl, fun h => absurd rfl h⟩
  | some e => exact ⟨some e, rfl, fun h => Option.noConfusion h, fun _ => rfl⟩

theorem handleOutdatedInstance_request {σ : Type} (svc : Services σ) (cfg : config)
    (g : autoscaling.Group) (ready : List v1.Node) (i : autoscaling.Instance) (s : σ) :
    (∀ e ∈ (handleOutdatedInstance svc cfg g ready i s).calls,
      e.call.isSetDesiredCount = false)
    ∨ ∃ (node : v1.Node) (d : Int) (err : Option String),
        g.DesiredCapacity = some d
        ∧ carries node.Annotations k8s.RollingUpdateStartedTimestampAnnotationKey = true
        ∧ (handleOutdatedInstance svc cfg g ready i s).calls
          = [⟨some i, Call.GetNodeByHostName (aws.StringValue i.InstanceId) (Reply.ok node)⟩,
             ⟨some i, Call.CheckIfNodeHasEnoughResourcesToTransferAllPodsInNodes node ready
               false⟩,
             ⟨some i, Call.SetAutoScalingGroupDesiredCount g (wrapInt64 (d + 1)) err⟩]
        ∧ (err = none → (handleOutdatedInstance svc cfg g ready i s).val = Flow.ret)
        ∧ (err ≠ none → (handleOutdatedInstance svc cfg g ready i s).val = Flow.next) := by
  unfold handleOutdatedInstance
  simp only []
  cases hg : (svc.GetNodeByHostName (aws.StringValue i.InstanceId) s).1 with
  | error msg => left; simp [Call.isSetDesiredCount]
  | ok node =>
    simp only []
    unfold handleOutdatedNode
    simp only []
    split
    · left
      simp [startRollout, Call.isSetDesiredCount]
    · rename_i hms
      have hcar := minutesSinceKey_present svc node
        k8s.RollingUpdateStartedTimestampAnnotationKey _ hms
      cases hc : (svc.CheckIfNodeHasEnoughResourcesToTransferAllPodsInNodes node ready
          (getRollingUpdateTimestampsFromNode svc node
            (svc.GetNodeByHostName (aws.StringValue i.InstanceId) s).2).2).1 with
      | true =>
        left
        simp only [if_true]
        intro e he
        simp only [List.mem_cons] at he
        rcases he with he | he | he
        · subst he; rfl
        · subst he; rfl
        · exact drainAndTerminate_no_request svc cfg i node _ _ _ e he
      | false =>
        simp only [Bool.false_eq_true, if_false]
        cases hd : g.DesiredCapacity with
        | none => left; simp [increaseDesiredCount, hd, Call.isSetDesiredCount]
        | some d =>
          right
          obtain ⟨err, h1, h2, h3⟩ := increaseDesiredCount_request svc g i
            (svc.CheckIfNodeHasEnoughResourcesToTransferAllPodsInNodes node ready
              (getRollingUpdateTimestampsFromNode svc node
                (svc.GetNodeByHostName (aws.StringValue i.InstanceId) s).2).2).2 d hd
          exact ⟨node, d, err, rfl, hcar, by rw [h1], h2, h3⟩

theorem request_is_third (a b c e : Event) (pre m : List Event)
    (h : [a, b, c] = pre ++ e :: m) (he : e.call.isSetDesiredCount = true)
    (ha : a.call.isSetDesiredCount = false) (hb : b.call.isSetDesiredCount = false) :
    pre = [a, b] ∧ e = c ∧ m = [] := by
  cases pre with
  | nil =>
    simp only [List.nil_append, List.cons.injEq] at h
    rw [← h.1, ha] at he
    cases he
  | cons x pre =>
    cases pre with
    | nil =>
      simp only [List.cons_append, List.nil_append, List.cons.injEq] at h
      rw [← h.2.1, hb] at he
      cases he
    | cons y pre =>
      cases pre with
      | nil =>
        simp only [List.cons_append, List.nil_append, List.cons.injEq] at h
        obtain ⟨h1, h2, h3, h4⟩ := h
        exact ⟨by rw [h1, h2], h3.symm, h4.symm⟩
      | cons z pre =>
        simp only [List.cons_append, List.cons.injEq] at h
        have := h.2.2.2
        simp at this

theorem capacityRequestAt_lift (g : autoscaling.Group) (ready : List v1.Node)
    (l l2 : List autoscaling.Instance) (a pre post : List Event) (e : Event) (flow : Flow)
    (hl : ∀ x ∈ l, x ∈ l2) (h : CapacityRequestAt g ready l pre e post flow) :
    CapacityRequestAt g ready l2 (a ++ pre) e post flow := by
  obtain ⟨pre0, i, node, d, err, h1, h2, h3, h4, h5, h6⟩ := h
  exact ⟨a ++ pre0, i, node, d, err, hl i h1, h2, h3, h4,
    by rw [h5, List.append_assoc], h6⟩

theorem handleOutdatedInstance_requestAt {σ : Type} (svc : Services σ) (cfg : config)
    (g : autoscaling.Group) (ready : List v1.Node) (i : autoscaling.Instance) (s : σ)
    (pre post : List Event) (e : Event)
    (h : (handleOutdatedInstance svc cfg g ready i s).calls = pre ++ e :: post)
    (he : e.call.isSetDesiredCount = true) :
    post = [] ∧ ∃ (node : v1.Node) (d : Int) (err : Option String),
      g.DesiredCapacity = some d
      ∧ e = ⟨some i, Call.SetAutoScalingGroupDesiredCount g (wrapInt64 (d + 1)) err⟩
      ∧ carries node.Annotations k8s.RollingUpdateStartedTimestampAnnotationKey = true
      ∧ pre =
        [⟨some i, Call.GetNodeByHostName (aws.StringValue i.InstanceId) (Reply.ok node)⟩,
         ⟨some i, Call.CheckIfNodeHasEnoughResourcesToTransferAllPodsInNodes node ready
           false⟩]
      ∧ (err = none → (handleOutdatedInstance svc cfg g ready i s).val = Flow.ret)
      ∧ (err ≠ none → (handleOutdatedInstance svc cfg g ready i s).val = Flow.next) := by
  rcases handleOutdatedInstance_request svc cfg g ready i s with hno | ⟨node, d, err, h1, h2,
    h3, h4, h5⟩
  · have := hno e (by rw [h]; simp)
    rw [this] at he
    cases he
  · rw [h3] at h
    obtain ⟨k1, k2, k3⟩ := request_is_third _ _ _ e pre post h he rfl rfl
    exact ⟨k3, node, d, err, h1, k2, h2, k1, h4, h5⟩

theorem outdatedLoop_requestAt {σ : Type} (svc : Services σ) (cfg : config)
    (g : autoscaling.Group) (ready : List v1.Node) :
    ∀ (l : List autoscaling.Instance) (s : σ) (pre post : List Event) (e : Event),
      (outdatedLoop svc cfg g ready l s).calls = pre ++ e :: post →
      e.call.isSetDesiredCount = true →
      CapacityRequestAt g ready l pre e post (outdatedLoop svc cfg g ready l s).val := by
  intro l
  induction l with
  | nil =>
    intro s pre post e h
    simp [outdatedLoop] at h
  | cons i rest ih =>
    intro s pre post e h he
    unfold outdatedLoop at h ⊢
    simp only [] at h ⊢
    cases hv : (handleOutdatedInstance svc cfg g ready i s).val with
    | next =>
      rw [hv] at h
      simp only [] at h ⊢
      rcases append_eq_split e _ _ _ _ h with ⟨m, h1, h2⟩ | ⟨m, h1, h2⟩
      · obtain ⟨_, node, d, err, k1, k2, k3, k4, k5, _⟩ :=
          handleOutdatedInstance_requestAt svc cfg g ready i s pre m e h1 he
        refine ⟨[], i, node, d, err, List.mem_cons_self _ _, k1, k2, k3, by rw [k4]; rfl, ?_⟩
        intro hn
        have := k5 hn
        rw [hv] at this
        cases this
      · rw [h1]
        exact capacityRequestAt_lift g ready rest (i :: rest) _ m post e _
          (fun x hx => List.mem_cons_of_mem _ hx) (ih _ m post e h2 he)
    | ret =>
      rw [hv] at h
      simp only [] at h ⊢
      obtain ⟨k0, node, d, err, k1, k2, k3, k4, _, _⟩ :=
        handleOutdatedInstance_requestAt svc cfg g ready i s pre post e h he
      exact ⟨[], i, node, d, err, List.mem_cons_self _ _, k1, k2, k3, by rw [k4]; rfl,
        fun _ => ⟨k0, hv⟩⟩
    | crash =>
      rw [hv] at h
      simp only [] at h ⊢
      obtain ⟨k0, node, d, err, k1, k2, k3, k4, k5, _⟩ :=
        handleOutdatedInstance_requestAt svc cfg g ready i s pre post e h he
      refine ⟨[], i, node, d, err, List.mem_cons_self _ _, k1, k2, k3, by rw [k4]; rfl, ?_⟩
      intro hn
      have := k5 hn
      rw [hv] at this
      cases this

/-- C15: in every tick, every `SetAutoScalingGroupDesiredCount` call issued for a group
names that group and passes its `DesiredCapacity` plus 1 as the `int64` addition of the
code computes it (the sum itself whenever it is representable); it is issued for an
instance of the outdated list, right after the lookup returned its node, which carries
started-at, and after the capacity check returned false; and when the call returns no error
it is the last call of the pass, which ends with `return`, so no further outdated instance
is handled. -/
theorem C15_capacity_request {σ : Type} (svc : Services σ) (cfg : config)
    (groups : List autoscaling.Group) (s : σ) (r : GroupRun σ)
    (hr : r ∈ (HandleRollingUpgrade svc cfg groups s).runs) :
    (∀ (pre post : List Event) (e : Event), r.calls = pre ++ e :: post →
      e.call.isSetDesiredCount = true →
      ∃ (old new : List autoscaling.Instance) (targets : List v1.Node),
        r.classified = Result.ok (old, new)
        ∧ CapacityRequestAt r.group targets old pre e post r.flow)
    ∧ (∀ d : Int, -2 ^ 63 ≤ d → d < 2 ^ 63 - 1 → wrapInt64 (d + 1) = d + 1) := by
  refine ⟨?_, ?_⟩
  · obtain ⟨g, _, s0, e0⟩ := runs_mem svc cfg groups s r hr
    obtain ⟨hg, hcv, h⟩ := handleAutoScalingGroup_cases svc cfg g s0 r _ e0 rfl
    have hc := classification_calls svc g s0
    intro pre post e hcalls he
    have quiet : ∀ l : List Event, (∀ x ∈ l, x.call.isReconcileAction = false) → e ∉ l := by
      intro l hl hmem
      have := hl e hmem
      simp only [Call.isReconcileAction, Bool.or_eq_false_iff] at this
      rw [this.1.1.1] at he
      cases he
    have hmem : e ∈ r.calls := by rw [hcalls]; simp
    rcases h with ⟨h1, _, _, _⟩ | ⟨old, new, rd, hok, hrd, h⟩
    · rw [h1] at hmem
      exact absurd hmem (quiet _ (fun x hx => (hc x hx).2))
    · have hq : ∀ x ∈ (SeparateOutdatedFromUpdatedInstances svc g s0).calls ++ rd.calls,
          x.call.isReconcileAction = false := by
        intro x hx
        rw [List.mem_append] at hx
        rcases hx with hx | hx
        · exact (hc x hx).2
        · rw [hrd] at hx
          exact (readyLoop_calls svc new [] 0 _ x hx).2
      rcases h with ⟨h1, _, _, _⟩ | ⟨ready, lp, _, _, hlp, h1, h2, _⟩
      · rw [h1] at hmem
        exact absurd hmem (quiet _ hq)
      · rw [h1] at hcalls
        rcases append_eq_split e _ _ _ _ hcalls with ⟨m, k1, _⟩ | ⟨m, k1, k2⟩
        · exact absurd (by rw [k1]; simp) (quiet _ hq)
        · refine ⟨old, new, ready, by rw [hcv, hok], ?_⟩
          rw [hg, h2, k1]
          rw [hlp] at k2 ⊢
          exact capacityRequestAt_lift g ready old old _ m post e _ (fun x hx => hx)
            (outdatedLoop_requestAt svc cfg g ready old rd.st m post e k2 he)
  · intro d h1 h2
    unfold wrapInt64
    omega

/-! ## Which groups a tick reaches -/

theorem terminateStep_ret {σ : Type} (svc : Services σ) (i : autoscaling.Instance)
    (m : Int) (s : σ) (h : (terminateStep svc i m s).val = Flow.ret) :
    ∃ e ∈ (terminateStep svc i m s).calls, e.isSuccessfulChange = true := by
  unfold terminateStep at h ⊢
  simp only [] at h ⊢
  split at h
  · rename_i hm
    rw [if_pos hm]
    split at h
    · cases h
    · rename_i ht
      rw [ht]
      exact ⟨_, List.mem_cons_self _ _, rfl⟩
  · cases h

theorem drainAndTerminate_ret {σ : Type} (svc : Services σ) (cfg : config)
    (i : autoscaling.Instance) (node : v1.Node) (md mt : Int) (s : σ)
    (h : (drainAndTerminate svc cfg i node md mt s).val = Flow.ret) :
    ∃ e ∈ (drainAndTerminate svc cfg i node md mt s).calls, e.isSuccessfulChange = true := by
  unfold drainAndTerminate at h ⊢
  simp only [] at h ⊢
  split at h
  · rename_i hm
    rw [if_pos hm]
    split at h
    · cases h
    · rename_i hd
      rw [hd]
      simp only [] at h ⊢
      obtain ⟨e, he, hs⟩ := terminateStep_ret svc i mt _ h
      exact ⟨e, List.mem_cons_of_mem _ (List.mem_cons_of_mem _ he), hs⟩
  · rename_i hm
    rw [if_neg hm]
    exact terminateStep_ret svc i mt s h

theorem increaseDesiredCount_ret {σ : Type} (svc : Services σ)
    (g : autoscaling.Group) (i : autoscaling.Instance) (s : σ)
    (h : (increaseDesiredCount svc g i s).val = Flow.ret) :
    ∃ e ∈ (increaseDesiredCount svc g i s).calls, e.isSuccessfulChange = true := by
  unfold increaseDesiredCount at h ⊢
  cases hd : g.DesiredCapacity with
  | none => rw [hd] at h; cases h
  | some d =>
    rw [hd] at h
    simp only [] at h ⊢
    split at h
    · cases h
    · rename_i hs
      rw [hs]
      exact ⟨_, List.mem_cons_self _ _, rfl⟩

theorem handleOutdatedNode_ret {σ : Type} (svc : Services σ) (cfg : config)
    (g : autoscaling.Group) (ready : List v1.Node) (i : autoscaling.Instance)
    (node : v1.Node) (s : σ)
    (h : (handleOutdatedNode svc cfg g ready i node s).val = Flow.ret) :
    ∃ e ∈ (handleOutdatedNode svc cfg g ready i node s).calls,
      e.isSuccessfulChange = true := by
  unfold handleOutdatedNode at h ⊢
  simp only [] at h ⊢
  split at h
  · cases h
  · rename_i hm
    rw [if_neg hm]
    simp only [] at h ⊢
    split at h
    · rename_i hc
      rw [if_pos hc]
      obtain ⟨e, he, hs⟩ := drainAndTerminate_ret svc cfg i node _ _ _ h
      exact ⟨e, List.mem_cons_of_mem _ he, hs⟩
    · rename_i hc
      rw [if_neg hc]
      obtain ⟨e, he, hs⟩ := increaseDesiredCount_ret svc g i _ h
      exact ⟨e, List.mem_cons_of_mem _ he, hs⟩

theorem handleOutdatedInstance_ret {σ : Type} (svc : Services σ) (cfg : config)
    (g : autoscaling.Group) (ready : List v1.Node) (i : autoscaling.Instance) (s : σ)
    (h : (handleOutdatedInstance svc cfg g ready i s).val = Flow.ret) :
    ∃ e ∈ (handleOutdatedInstance svc cfg g ready i s).calls,
      e.isSuccessfulChange = true := by
  unfold handleOutdatedInstance at h ⊢
  simp only [] at h ⊢
  cases hg : (svc.GetNodeByHostName (aws.StringValue i.InstanceId) s).1 with
  | error msg => rw [hg] at h; cases h
  | ok node =>
    rw [hg] at h
    simp only [] at h ⊢
    obtain ⟨e, he, hs⟩ := handleOutdatedNode_ret svc cfg g ready i node _ h
    exact ⟨e, List.mem_cons_of_mem _ he, hs⟩

theorem outdatedLoop_ret {σ : Type} (svc : Services σ) (cfg : config)
    (g : autoscaling.Group) (ready : List v1.Node) :
    ∀ (l : List autoscaling.Instance) (s : σ),
      (outdatedLoop svc cfg g ready l s).val = Flow.ret →
      ∃ e ∈ (outdatedLoop svc cfg g ready l s).calls, e.isSuccessfulChange = true := by
  intro l
  induction l with
  | nil => intro s h; simp [outdatedLoop] at h
  | cons i rest ih =>
    intro s h
    unfold outdatedLoop at h ⊢
    simp only [] at h ⊢
    cases hv : (handleOutdatedInstance svc cfg g ready i s).val with
    | next =>
      rw [hv] at h
      simp only [] at h ⊢
      obtain ⟨e, he, hs⟩ := ih _ h
      exact ⟨e, List.mem_append_right _ he, hs⟩
    | ret =>
      simp only []
      exact handleOutdatedInstance_ret svc cfg g ready i s hv
    | crash =>
      rw [hv] at h
      simp only [] at h
      rw [hv] at h
      cases h

theorem handleAutoScalingGroup_ret_iff {σ : Type} (svc : Services σ) (cfg : config)
    (g : autoscaling.Group) (s : σ) :
    (handleAutoScalingGroup svc cfg g s).flow = Flow.ret
      ↔ ∃ e ∈ (handleAutoScalingGroup svc cfg g s).calls, e.isSuccessfulChange = true := by
  obtain ⟨_, _, h⟩ := handleAutoScalingGroup_cases svc cfg g s _ _ rfl rfl
  have hc := quiet_not_successful _ (fun x hx => (classification_calls svc g s x hx).2)
  rcases h with ⟨h1, h2, _, _⟩ | ⟨old, new, rd, _, hrd, h⟩
  · constructor
    · intro hf; exact absurd hf h2
    · rintro ⟨e, he, hs⟩
      rw [h1] at he
      rw [hc e he] at hs
      cases hs
  · have hd := quiet_not_successful _
      (fun x hx => (readyLoop_calls svc new [] 0
        (SeparateOutdatedFromUpdatedInstances svc g s).st x hx).2)
    rcases h with ⟨h1, h2, _, _⟩ | ⟨ready, lp, _, _, hlp, h1, h2, _⟩
    · constructor
      · intro hf; exact absurd hf h2
      · rintro ⟨e, he, hs⟩
        rw [h1, List.mem_append] at he
        rcases he with he | he
        · rw [hc e he] at hs; cases hs
        · rw [hrd] at he
          rw [hd e he] at hs
          cases hs
    · rw [h1, h2, hlp]
      constructor
      · intro hf
        obtain ⟨e, he, hs⟩ := outdatedLoop_ret svc cfg g ready old rd.st hf
        exact ⟨e, List.mem_append_right _ he, hs⟩
      · rintro ⟨e, he, hs⟩
        by_contra hne
        have hnil := (outdatedLoop_success svc cfg g ready old rd.st).2 hne
        rw [List.filter_eq_nil_iff] at hnil
        rw [List.mem_append, List.mem_append] at he
        rcases he with (he | he) | he
        · rw [hc e he] at hs; cases hs
        · rw [hrd] at he
          rw [hd e he] at hs
          cases hs
        · exact hnil e he hs

theorem handleAutoScalingGroup_group {σ : Type} (svc : Services σ) (cfg : config)
    (g : autoscaling.Group) (s : σ) : (handleAutoScalingGroup svc cfg g s).group = g :=
  (handleAutoScalingGroup_cases svc cfg g s _ _ rfl rfl).1

theorem handleAutoScalingGroup_error {σ : Type} (svc : Services σ) (cfg : config)
    (g : autoscaling.Group) (s : σ) (msg : String)
    (h : (handleAutoScalingGroup svc cfg g s).classified = Result.error msg) :
    (handleAutoScalingGroup svc cfg g s).flow = Flow.next
    ∧ (handleAutoScalingGroup svc cfg g s).calls
      = (SeparateOutdatedFromUpdatedInstances svc g s).calls := by
  have hcl : (handleAutoScalingGroup svc cfg g s).classified
      = (SeparateOutdatedFromUpdatedInstances svc g s).val :=
    (handleAutoScalingGroup_cases svc cfg g s _ _ rfl rfl).2.1
  rw [hcl] at h
  unfold handleAutoScalingGroup
  simp only [h]
  exact ⟨trivial, trivial⟩

theorem runs_initial_segment {σ : Type} (svc : Services σ) (cfg : config) :
    ∀ (groups : List autoscaling.Group) (s : σ),
      (HandleRollingUpgrade svc cfg groups s).runs.map GroupRun.group <+: groups := by
  intro groups
  induction groups with
  | nil => intro s; simp [HandleRollingUpgrade]
  | cons g rest ih =>
    intro s
    unfold HandleRollingUpgrade
    simp only []
    split
    · simp only [List.map_cons, handleAutoScalingGroup_group]
      exact (List.prefix_cons_inj g).mpr (ih _)
    · simp only [List.map_cons, List.map_nil, handleAutoScalingGroup_group]
      exact ⟨rest, rfl⟩
    · simp only [List.map_cons, List.map_nil, handleAutoScalingGroup_group]
      exact ⟨rest, rfl⟩

theorem runs_stop_is_last {σ : Type} (svc : Services σ) (cfg : config) :
    ∀ (groups : List autoscaling.Group) (s : σ) (pre post : List (GroupRun σ))
      (r : GroupRun σ),
      (HandleRollingUpgrade svc cfg groups s).runs = pre ++ r :: post →
      r.flow ≠ Flow.next → post = [] := by
  intro groups
  induction groups with
  | nil => intro s pre post r h; simp [HandleRollingUpgrade] at h
  | cons g rest ih =>
    intro s pre post r h hne
    unfold HandleRollingUpgrade at h
    simp only [] at h
    have single : ∀ x : GroupRun σ, [x] = pre ++ r :: post → post = [] := by
      intro x hx
      cases pre with
      | nil =>
        simp only [List.nil_append, List.cons.injEq] at hx
        exact hx.2.symm
      | cons y pre =>
        simp only [List.cons_append, List.cons.injEq] at hx
        have := hx.2
        simp at this
    split at h
    · rename_i hf
      cases pre with
      | nil =>
        simp only [List.nil_append, List.cons.injEq] at h
        rw [← h.1] at hne
        exact absurd hf hne
      | cons y pre =>
        simp only [List.cons_append, List.cons.injEq] at h
        exact ih _ pre post r h.2 hne
    · exact single _ h
    · exact single _ h

theorem runs_all_next {σ : Type} (svc : Services σ) (cfg : config) :
    ∀ (groups : List autoscaling.Group) (s : σ),
      (∀ r ∈ (HandleRollingUpgrade svc cfg groups s).runs, r.flow = Flow.next) →
      (HandleRollingUpgrade svc cfg groups s).runs.map GroupRun.group = groups := by
  intro groups
  induction groups with
  | nil => intro s _; simp [HandleRollingUpgrade]
  | cons g rest ih =>
    intro s h
    unfold HandleRollingUpgrade at h ⊢
    simp only [] at h ⊢
    cases hf : (handleAutoScalingGroup svc cfg g s).flow with
    | next =>
      rw [hf] at h
      simp only [List.map_cons, handleAutoScalingGroup_group] at h ⊢
      rw [ih _ (fun r hr => h r (List.mem_cons_of_mem _ hr))]
    | ret =>
      rw [hf] at h
      have := h _ (List.mem_singleton.mpr rfl)
      rw [hf] at this
      cases this
    | crash =>
      rw [hf] at h
      have := h _ (List.mem_singleton.mpr rfl)
      rw [hf] at this
      cases this

/-- C13, as amended: a tick handles the groups of its input in order, from the first on,
and goes on to the next group after a classification error, a skip or an action that
returned an error, so that it handles all of them when every pass ends with `continue`.
A pass ends with `return` exactly when a termination or a capacity request returned no
error in it; such a pass, like one that panics, is the last of the tick, and the groups
after it are not handled in that tick. -/
theorem C13_groups_reached {σ : Type} (svc : Services σ) (cfg : config)
    (groups : List autoscaling.Group) (s : σ) :
    (HandleRollingUpgrade svc cfg groups s).runs.map GroupRun.group <+: groups
    ∧ ((∀ r ∈ (HandleRollingUpgrade svc cfg groups s).runs, r.flow = Flow.next) →
      (HandleRollingUpgrade svc cfg groups s).runs.map GroupRun.group = groups)
    ∧ (∀ (pre post : List (GroupRun σ)) (r : GroupRun σ),
      (HandleRollingUpgrade svc cfg groups s).runs = pre ++ r :: post →
      r.flow ≠ Flow.next → post = [])
    ∧ (∀ r ∈ (HandleRollingUpgrade svc cfg groups s).runs,
      (r.flow = Flow.ret ↔ ∃ e ∈ r.calls, e.isSuccessfulChange = true))
    ∧ (∀ r ∈ (HandleRollingUpgrade svc cfg groups s).runs, ∀ msg,
      r.classified = Result.error msg → r.flow = Flow.next) := by
  refine ⟨runs_initial_segment svc cfg groups s, runs_all_next svc cfg groups s,
    runs_stop_is_last svc cfg groups s, ?_, ?_⟩
  · intro r hr
    obtain ⟨g, _, s0, e⟩ := runs_mem svc cfg groups s r hr
    rw [e]
    exact handleAutoScalingGroup_ret_iff svc cfg g s0
  · intro r hr msg hmsg
    obtain ⟨g, _, s0, e⟩ := runs_mem svc cfg groups s r hr
    rw [e] at hmsg ⊢
    exact (handleAutoScalingGroup_error svc cfg g s0 msg hmsg).1

/-- C13 as stated fails: with two groups that each hold one outdated instance whose node
carries started-at, and too few resources, the capacity request for the first group
returns no error and the tick ends there: the second group is neither classified nor
reconciled, and only the first desired count is raised. -/
theorem C13_counterexample :
    (HandleRollingUpgrade World.services testConfig [oneOutdatedGroup, secondGroup]
        twoGroupsWorld).runs.map GroupRun.group = [oneOutdatedGroup]
    ∧ (HandleRollingUpgrade World.services testConfig [oneOutdatedGroup, secondGroup]
        twoGroupsWorld).st.desired = [("asg", 2)]
    ∧ (HandleRollingUpgrade World.services testConfig [oneOutdatedGroup, secondGroup]
        twoGroupsWorld).crashed = false := by
  decide

theorem C13_groups_reached_witness :
    (HandleRollingUpgrade World.services testConfig [bareGroup, oneOutdatedGroup]
        twoGroupsWorld).runs.map GroupRun.group <+: [bareGroup, oneOutdatedGroup]
    ∧ (HandleRollingUpgrade World.services testConfig [bareGroup, oneOutdatedGroup]
        twoGroupsWorld).runs.map GroupRun.flow = [Flow.next, Flow.ret] :=
  ⟨(C13_groups_reached World.services testConfig [bareGroup, oneOutdatedGroup]
      twoGroupsWorld).1, by decide⟩

/-! ## The drain and the termination -/

theorem handleOutdatedInstance_drainAndTerminate {σ : Type} (svc : Services σ)
    (cfg : config) (asg : autoscaling.Group) (ready : List v1.Node)
    (i : autoscaling.Instance) (node : v1.Node) (s : σ) (now1 : String)
    (err1 : Option String) (now2 : String) (err2 : Option String) (final : σ)
    (h : DrainAndTerminateAnswers svc cfg ready i node s now1 err1 now2 err2 final) :
    handleOutdatedInstance svc cfg asg ready i s
      = ⟨Flow.ret, final, drainAndTerminateCalls cfg ready i node now1 err1 now2 err2⟩ := by
  obtain ⟨ms, s1, s2, s3, s4, s5, s6, s7, s8, hlookup, hstarted, hms, hdrained, hterminated,
    hcheck, hdrain, hnow1, hwrite1, hterm, hnow2, hwrite2⟩ := h
  have hts : getRollingUpdateTimestampsFromNode svc node s1 = ((ms, -1, -1), s2) := by
    unfold getRollingUpdateTimestampsFromNode
    simp only [hstarted, minutesSinceKey_absent svc node _ _ hdrained,
      minutesSinceKey_absent svc node _ _ hterminated]
  have hT : terminateStep svc i (-1) s6
      = ⟨Flow.ret, final, [⟨some i, Call.TerminateEc2Instance i none⟩,
          ⟨some i, Call.AnnotateNodeByHostName (aws.StringValue i.InstanceId)
            k8s.RollingUpdateTerminatedTimestampAnnotationKey now2 err2⟩]⟩ := by
    unfold terminateStep
    simp only [hterm, hnow2, hwrite2, if_true]
  have hD : drainAndTerminate svc cfg i node (-1) (-1) s3
      = ⟨Flow.ret, final, [⟨some i, Call.Drain node.Name cfg.IgnoreDaemonSets
            cfg.DeleteLocalData none⟩,
          ⟨some i, Call.AnnotateNodeByHostName (aws.StringValue i.InstanceId)
            k8s.RollingUpdateDrainedTimestampAnnotationKey now1 err1⟩,
          ⟨some i, Call.TerminateEc2Instance i none⟩,
          ⟨some i, Call.AnnotateNodeByHostName (aws.StringValue i.InstanceId)
            k8s.RollingUpdateTerminatedTimestampAnnotationKey now2 err2⟩]⟩ := by
    unfold drainAndTerminate
    simp only [hdrain, hnow1, hwrite1, hT, if_true]
  have hN : handleOutdatedNode svc cfg asg ready i node s1
      = ⟨Flow.ret, final,
          ⟨some i, Call.CheckIfNodeHasEnoughResourcesToTransferAllPodsInNodes node ready
            true⟩ :: (drainAndTerminate svc cfg i node (-1) (-1) s3).calls⟩ := by
    unfold handleOutdatedNode
    simp only [hts, hcheck, if_neg hms, if_true, hD]
  unfold handleOutdatedInstance
  simp only [hlookup, hN, hD]
  rfl

theorem drainAndTerminate_final_markers (cfg : config) (targets : List v1.Node)
    (i : autoscaling.Instance) (node : v1.Node) (w : World) (now1 now2 : String)
    (final : World)
    (h : DrainAndTerminateAnswers World.services cfg targets i node w now1 none now2 none
      final) :
    ∃ a, storeLookup final.nodes (aws.StringValue i.InstanceId) = some a
      ∧ carries a k8s.RollingUpdateStartedTimestampAnnotationKey = true
      ∧ carries a k8s.RollingUpdateDrainedTimestampAnnotationKey = true
      ∧ carries a k8s.RollingUpdateTerminatedTimestampAnnotationKey = true := by
  obtain ⟨ms, s1, s2, s3, s4, s5, s6, s7, s8, hlookup, hstarted, hms, _, _,
    hcheck, hdrain, hnow1, hwrite1, hterm, hnow2, hwrite2⟩ := h
  have g1 : (World.GetNodeByHostName (aws.StringValue i.InstanceId) w).1 = Reply.ok node :=
    congrArg Prod.fst hlookup
  have g2 : (World.GetNodeByHostName (aws.StringValue i.InstanceId) w).2 = s1 :=
    congrArg Prod.snd hlookup
  have m1 : (minutesSinceKey World.services node
      k8s.RollingUpdateStartedTimestampAnnotationKey s1).1 = ms := congrArg Prod.fst hstarted
  have m2 : (minutesSinceKey World.services node
      k8s.RollingUpdateStartedTimestampAnnotationKey s1).2 = s2 := congrArg Prod.snd hstarted
  have c2 : (World.CheckIfNodeHasEnoughResourcesToTransferAllPodsInNodes node targets s2).2
      = s3 := congrArg Prod.snd hcheck
  have d2 : (World.Drain node.Name cfg.IgnoreDaemonSets cfg.DeleteLocalData s3).2 = s4 :=
    congrArg Prod.snd hdrain
  have n1 : s4 = s5 := congrArg Prod.snd hnow1
  have a1 : (World.AnnotateNodeByHostName (aws.StringValue i.InstanceId)
      k8s.RollingUpdateDrainedTimestampAnnotationKey now1 s5).1 = none :=
    congrArg Prod.fst hwrite1
  have a2 : (World.AnnotateNodeByHostName (aws.StringValue i.InstanceId)
      k8s.RollingUpdateDrainedTimestampAnnotationKey now1 s5).2 = s6 :=
    congrArg Prod.snd hwrite1
  have t2 : (World.TerminateEc2Instance i s6).2 = s7 := congrArg Prod.snd hterm
  have n2 : s7 = s8 := congrArg Prod.snd hnow2
  have b1 : (World.AnnotateNodeByHostName (aws.StringValue i.InstanceId)
      k8s.RollingUpdateTerminatedTimestampAnnotationKey now2 s8).1 = none :=
    congrArg Prod.fst hwrite2
  have b2 : (World.AnnotateNodeByHostName (aws.StringValue i.InstanceId)
      k8s.RollingUpdateTerminatedTimestampAnnotationKey now2 s8).2 = final :=
    congrArg Prod.snd hwrite2
  have hcar : carries node.Annotations k8s.RollingUpdateStartedTimestampAnnotationKey
      = true :=
    minutesSinceKey_present World.services node _ s1 (by rw [m1]; exact hms)
  have l0 : storeLookup w.nodes (aws.StringValue i.InstanceId) = some node.Annotations :=
    getNode_found _ w node g1
  have l5 : storeLookup s5.nodes (aws.StringValue i.InstanceId) = some node.Annotations := by
    rw [← n1, ← d2, drain_lookup, ← c2, check_nodes, ← m2, minutesSinceKey_state, ← g2,
      getNode_nodes]
    exact l0
  obtain ⟨x, hx1, hx2⟩ := annotate_lookup _ _ _ s5 a1
  rw [l5] at hx1
  rw [a2] at hx2
  have l8 : storeLookup s8.nodes (aws.StringValue i.InstanceId)
      = some (mapInsert x k8s.RollingUpdateDrainedTimestampAnnotationKey now1) := by
    rw [← n2, ← t2, terminate_nodes]
    exact hx2
  obtain ⟨y, hy1, hy2⟩ := annotate_lookup _ _ _ s8 b1
  rw [l8] at hy1
  rw [b2] at hy2
  injection hx1 with hx1
  injection hy1 with hy1
  refine ⟨_, hy2, ?_, ?_, ?_⟩
  · rw [carries_insert_ne _ _ _ _ started_ne_terminated, ← hy1,
      carries_insert_ne _ _ _ _ started_ne_drained, ← hx1]
    exact hcar
  · rw [carries_insert_ne _ _ _ _ drained_ne_terminated, ← hy1]
    exact carries_insert_same _ _ _
  · exact carries_insert_same _ _ _

/-- C17, as amended: when the lookup of an outdated instance returns a node whose
started-at is read as set and which has neither drained-at nor terminated-at, the capacity
check returns true, and `Drain` and `TerminateEc2Instance` return no error, the loop body
issues in this order the lookup, the capacity check, `Drain` of the node, the drained-at
write, `TerminateEc2Instance` of the instance and the terminated-at write, whatever the two
writes return, and then returns from `HandleRollingUpgrade`; the instances after it are not
handled.  When both writes return no error, the node ends, in the in-memory world, with
started-at, drained-at and terminated-at. -/
theorem C17_drain_then_terminate {σ : Type} (svc : Services σ) (cfg : config)
    (asg : autoscaling.Group) (ready : List v1.Node) (i : autoscaling.Instance)
    (rest : List autoscaling.Instance) (node : v1.Node) (s : σ) (now1 : String)
    (err1 : Option String) (now2 : String) (err2 : Option String) (final : σ)
    (h : DrainAndTerminateAnswers svc cfg ready i node s now1 err1 now2 err2 final) :
    handleOutdatedInstance svc cfg asg ready i s
      = ⟨Flow.ret, final, drainAndTerminateCalls cfg ready i node now1 err1 now2 err2⟩
    ∧ outdatedLoop svc cfg asg ready (i :: rest) s
      = ⟨Flow.ret, final, drainAndTerminateCalls cfg ready i node now1 err1 now2 err2⟩
    ∧ (∀ (w wfinal : World) (targets : List v1.Node) (n1 n2 : String),
        DrainAndTerminateAnswers World.services cfg targets i node w n1 none n2 none wfinal →
        (handleOutdatedInstance World.services cfg asg targets i w).st = wfinal
        ∧ ∃ a, storeLookup wfinal.nodes (aws.StringValue i.InstanceId) = some a
          ∧ carries a k8s.RollingUpdateStartedTimestampAnnotationKey = true
          ∧ carries a k8s.RollingUpdateDrainedTimestampAnnotationKey = true
          ∧ carries a k8s.RollingUpdateTerminatedTimestampAnnotationKey = true) := by
  have hh := handleOutdatedInstance_drainAndTerminate svc cfg asg ready i node s now1 err1
    now2 err2 final h
  refine ⟨hh, ?_, ?_⟩
  · rw [outdatedLoop]
    simp only [hh]
  · intro w wfinal targets n1 n2 hw
    refine ⟨?_, drainAndTerminate_final_markers cfg targets i node w n1 n2 wfinal hw⟩
    rw [handleOutdatedInstance_drainAndTerminate World.services cfg asg targets i node w n1
      none n2 none wfinal hw]

/-- C17 as stated fails: the node carries started-at alone, the resources suffice, `Drain`
and `TerminateEc2Instance` return no error, and the drained-at write returns an error,
which the code drops: the node ends the tick with started-at and terminated-at and
without drained-at. -/
theorem C17_counterexample :
    ((HandleRollingUpgrade World.services testConfig [oneOutdatedGroup]
        droppedErrorWorld).runs.map
      (fun r => r.calls.map (fun e => (e.call.isDrain, e.call.isTerminate,
        e.call.isAnnotate, e.call.succeeded))))
      = [[(false, false, false, true), (false, false, false, true),
          (true, false, false, true), (false, false, true, false),
          (false, true, false, true), (false, false, true, true)]]
    ∧ (storeLookup (HandleRollingUpgrade World.services testConfig [oneOutdatedGroup]
        droppedErrorWorld).st.nodes "old-1").map
        (fun a => (carries a k8s.RollingUpdateStartedTimestampAnnotationKey,
          carries a k8s.RollingUpdateDrainedTimestampAnnotationKey,
          carries a k8s.RollingUpdateTerminatedTimestampAnnotationKey))
      = some (true, false, true) := by
  decide

/-! ## `MaxSize` and `CanIncreaseAutoScalingGroupMax` are not read -/

theorem agree_refl {σ α : Type} (x : Step σ α) : x.agree x := ⟨rfl, rfl, rfl⟩

theorem agree_cons {σ α : Type} (x y : Step σ α) (e : Event) (h : x.agree y) :
    Step.agree ⟨x.val, x.st, e :: x.calls⟩ ⟨y.val, y.st, e :: y.calls⟩ :=
  ⟨h.1, h.2.1, by simp only [List.map_cons, h.2.2]⟩

theorem increaseDesiredCount_agree {σ : Type} (svc : Services σ)
    (hsvc : ∀ g c s, svc.SetAutoScalingGroupDesiredCount g c s
      = svc.SetAutoScalingGroupDesiredCount (eraseMaxSize g) c s)
    (g g2 : autoscaling.Group) (h : eraseMaxSize g = eraseMaxSize g2)
    (i : autoscaling.Instance) (s : σ) :
    (increaseDesiredCount svc g i s).agree (increaseDesiredCount svc g2 i s) := by
  have hd : g.DesiredCapacity = g2.DesiredCapacity := by
    have := congrArg autoscaling.Group.DesiredCapacity h
    exact this
  have hs : ∀ c s, svc.SetAutoScalingGroupDesiredCount g c s
      = svc.SetAutoScalingGroupDesiredCount g2 c s := by
    intro c s
    rw [hsvc g, hsvc g2, h]
  unfold increaseDesiredCount
  rw [← hd]
  cases g.DesiredCapacity with
  | none => exact ⟨rfl, rfl, rfl⟩
  | some d =>
    simp only [hs]
    cases (svc.SetAutoScalingGroupDesiredCount g2 (wrapInt64 (d + 1)) s).1 with
    | none => exact ⟨rfl, rfl, by simp [Event.eraseMaxSize, Call.eraseMaxSize, h]⟩
    | some e => exact ⟨rfl, rfl, by simp [Event.eraseMaxSize, Call.eraseMaxSize, h]⟩

theorem handleOutdatedNode_agree {σ : Type} (svc : Services σ)
    (hsvc : ∀ g c s, svc.SetAutoScalingGroupDesiredCount g c s
      = svc.SetAutoScalingGroupDesiredCount (eraseMaxSize g) c s)
    (cfg : config) (b : Bool) (g g2 : autoscaling.Group)
    (h : eraseMaxSize g = eraseMaxSize g2) (ready : List v1.Node)
    (i : autoscaling.Instance) (node : v1.Node) (s : σ) :
    (handleOutdatedNode svc cfg g ready i node s).agree
      (handleOutdatedNode svc { cfg with CanIncreaseAutoScalingGroupMax := b } g2 ready i
        node s) := by
  unfold handleOutdatedNode
  simp only []
  by_cases hms : (getRollingUpdateTimestampsFromNode svc node s).1.1 = -1
  · rw [if_pos hms, if_pos hms]
    exact agree_refl _
  · rw [if_neg hms, if_neg hms]
    apply agree_cons
    cases (svc.CheckIfNodeHasEnoughResourcesToTransferAllPodsInNodes node ready
        (getRollingUpdateTimestampsFromNode svc node s).2).1 with
    | true =>
      simp only [if_true]
      exact agree_refl _
    | false =>
      simp only [Bool.false_eq_true, if_false]
      exact increaseDesiredCount_agree svc hsvc g g2 h i _

theorem handleOutdatedInstance_agree {σ : Type} (svc : Services σ)
    (hsvc : ∀ g c s, svc.SetAutoScalingGroupDesiredCount g c s
      = svc.SetAutoScalingGroupDesiredCount (eraseMaxSize g) c s)
    (cfg : config) (b : Bool) (g g2 : autoscaling.Group)
    (h : eraseMaxSize g = eraseMaxSize g2) (ready : List v1.Node)
    (i : autoscaling.Instance) (s : σ) :
    (handleOutdatedInstance svc cfg g ready i s).agree
      (handleOutdatedInstance svc { cfg with CanIncreaseAutoScalingGroupMax := b } g2 ready
        i s) := by
  unfold handleOutdatedInstance
  simp only []
  cases (svc.GetNodeByHostName (aws.StringValue i.InstanceId) s).1 with
  | error msg => exact agree_refl _
  | ok node =>
    simp only []
    exact agree_cons _ _ _ (handleOutdatedNode_agree svc hsvc cfg b g g2 h ready i node _)

theorem outdatedLoop_agree {σ : Type} (svc : Services σ)
    (hsvc : ∀ g c s, svc.SetAutoScalingGroupDesiredCount g c s
      = svc.SetAutoScalingGroupDesiredCount (eraseMaxSize g) c s)
    (cfg : config) (b : Bool) (g g2 : autoscaling.Group)
    (h : eraseMaxSize g = eraseMaxSize g2) (ready : List v1.Node) :
    ∀ (l : List autoscaling.Instance) (s : σ),
      (outdatedLoop svc cfg g ready l s).agree
        (outdatedLoop svc { cfg with CanIncreaseAutoScalingGroupMax := b } g2 ready l s) := by
  intro l
  induction l with
  | nil => intro s; exact ⟨rfl, rfl, rfl⟩
  | cons i rest ih =>
    intro s
    obtain ⟨hv, hst, hcalls⟩ := handleOutdatedInstance_agree svc hsvc cfg b g g2 h ready i s
    rw [outdatedLoop, outdatedLoop]
    simp only []
    rw [← hv]
    cases hf : (handleOutdatedInstance svc cfg g ready i s).val with
    | next =>
      simp only []
      rw [← hst]
      obtain ⟨kv, kst, kcalls⟩ := ih (handleOutdatedInstance svc cfg g ready i s).st
      exact ⟨kv, kst, by simp only [List.map_append, hcalls, kcalls]⟩
    | ret => exact ⟨hv, hst, hcalls⟩
    | crash => exact ⟨hv, hst, hcalls⟩

theorem handleAutoScalingGroup_agree {σ : Type} (svc : Services σ)
    (hsvc : ∀ g c s, svc.SetAutoScalingGroupDesiredCount g c s
      = svc.SetAutoScalingGroupDesiredCount (eraseMaxSize g) c s)
    (cfg : config) (b : Bool) (g g2 : autoscaling.Group)
    (h : eraseMaxSize g = eraseMaxSize g2) (s : σ) :
    (handleAutoScalingGroup svc cfg g s).eraseMaxSize
      = (handleAutoScalingGroup svc { cfg with CanIncreaseAutoScalingGroupMax := b } g2
          s).eraseMaxSize := by
  have hc : SeparateOutdatedFromUpdatedInstances svc g s
      = SeparateOutdatedFromUpdatedInstances svc g2 s := by
    have e1 : SeparateOutdatedFromUpdatedInstances svc g s
        = SeparateOutdatedFromUpdatedInstances svc (eraseMaxSize g) s := rfl
    have e2 : SeparateOutdatedFromUpdatedInstances svc g2 s
        = SeparateOutdatedFromUpdatedInstances svc (eraseMaxSize g2) s := rfl
    rw [e1, e2, h]
  unfold handleAutoScalingGroup
  simp only []
  rw [hc]
  cases (SeparateOutdatedFromUpdatedInstances svc g2 s).val with
  | panic => simp only [GroupRun.eraseMaxSize, h]
  | error e => simp only [GroupRun.eraseMaxSize, h]
  | ok p =>
    obtain ⟨old, new⟩ := p
    simp only []
    cases (getReadyNodesAndNumberOfNonReadyNodesOrInstances svc new
        (SeparateOutdatedFromUpdatedInstances svc g2 s).st).val with
    | none => simp only [GroupRun.eraseMaxSize, h]
    | some q =>
      obtain ⟨ready, n⟩ := q
      simp only []
      by_cases h0 : old.length = 0
      · rw [if_pos h0, if_pos h0]
        simp only [GroupRun.eraseMaxSize, h]
      · rw [if_neg h0, if_neg h0]
        by_cases hn : n ≠ 0
        · rw [if_pos hn, if_pos hn]
          simp only [GroupRun.eraseMaxSize, h]
        · rw [if_neg hn, if_neg hn]
          obtain ⟨kv, kst, kcalls⟩ := outdatedLoop_agree svc hsvc cfg b g g2 h ready old
            (getReadyNodesAndNumberOfNonReadyNodesOrInstances svc new
              (SeparateOutdatedFromUpdatedInstances svc g2 s).st).st
          simp only [GroupRun.eraseMaxSize, h, List.map_append, kv, kst, kcalls]

theorem tick_agree {σ : Type} (svc : Services σ)
    (hsvc : ∀ g c s, svc.SetAutoScalingGroupDesiredCount g c s
      = svc.SetAutoScalingGroupDesiredCount (eraseMaxSize g) c s)
    (cfg : config) (b : Bool) :
    ∀ (groups groups2 : List autoscaling.Group) (s : σ),
      groups.map eraseMaxSize = groups2.map eraseMaxSize →
      (HandleRollingUpgrade svc cfg groups s).runs.map GroupRun.eraseMaxSize
        = (HandleRollingUpgrade svc { cfg with CanIncreaseAutoScalingGroupMax := b } groups2
            s).runs.map GroupRun.eraseMaxSize
      ∧ (HandleRollingUpgrade svc cfg groups s).st
        = (HandleRollingUpgrade svc { cfg with CanIncreaseAutoScalingGroupMax := b } groups2
            s).st
      ∧ (HandleRollingUpgrade svc cfg groups s).crashed
        = (HandleRollingUpgrade svc { cfg with CanIncreaseAutoScalingGroupMax := b } groups2
            s).crashed := by
  intro groups
  induction groups with
  | nil =>
    intro groups2 s h
    cases groups2 with
    | nil => exact ⟨rfl, rfl, rfl⟩
    | cons g2 rest2 => simp at h
  | cons g rest ih =>
    intro groups2 s h
    cases groups2 with
    | nil => simp at h
    | cons g2 rest2 =>
      simp only [List.map_cons, List.cons.injEq] at h
      have key := handleAutoScalingGroup_agree svc hsvc cfg b g g2 h.1 s
      have kf : (handleAutoScalingGroup svc cfg g s).flow
          = (handleAutoScalingGroup svc { cfg with CanIncreaseAutoScalingGroupMax := b } g2
              s).flow := by
        have := congrArg GroupRun.flow key
        exact this
      have ks : (handleAutoScalingGroup svc cfg g s).st
          = (handleAutoScalingGroup svc { cfg with CanIncreaseAutoScalingGroupMax := b } g2
              s).st := by
        have := congrArg GroupRun.st key
        exact this
      rw [HandleRollingUpgrade, HandleRollingUpgrade]
      simp only []
      rw [← kf]
      cases (handleAutoScalingGroup svc cfg g s).flow with
      | next =>
        simp only [List.map_cons, key]
        rw [← ks]
        obtain ⟨i1, i2, i3⟩ := ih rest2 (handleAutoScalingGroup svc cfg g s).st h.2
        exact ⟨by rw [i1], i2, i3⟩
      | ret => exact ⟨by simp only [List.map_cons, List.map_nil, key], ks, rfl⟩
      | crash => exact ⟨by simp only [List.map_cons, List.map_nil, key], ks, rfl⟩

/-- C18: the engine reads neither `MaxSize` nor `CanIncreaseAutoScalingGroupMax`.  With
adapters whose capacity request does not depend on the `MaxSize` of the group handed to it,
two ticks from the same world on group lists that differ only in `MaxSize`, under
configurations that differ only in the flag, reach the same groups with the same
classification, issue the same calls with the same arguments and results (the group a
capacity request passes differing only in that `MaxSize`), end each pass the same way and
leave the same world; and a group whose `DesiredCapacity` equals its `MaxSize` still gets
the request for the desired capacity plus one. -/
theorem C18_max_size_and_flag_unread {σ : Type} (svc : Services σ) (cfg : config) (b : Bool)
    (groups groups2 : List autoscaling.Group) (s : σ)
    (hsvc : ∀ g c s, svc.SetAutoScalingGroupDesiredCount g c s
      = svc.SetAutoScalingGroupDesiredCount (eraseMaxSize g) c s)
    (hgroups : groups.map eraseMaxSize = groups2.map eraseMaxSize) :
    (HandleRollingUpgrade svc cfg groups s).runs.map GroupRun.eraseMaxSize
      = (HandleRollingUpgrade svc { cfg with CanIncreaseAutoScalingGroupMax := b } groups2
          s).runs.map GroupRun.eraseMaxSize
    ∧ (HandleRollingUpgrade svc cfg groups s).st
      = (HandleRollingUpgrade svc { cfg with CanIncreaseAutoScalingGroupMax := b } groups2
          s).st
    ∧ (HandleRollingUpgrade svc cfg groups s).crashed
      = (HandleRollingUpgrade svc { cfg with CanIncreaseAutoScalingGroupMax := b } groups2
          s).crashed
    ∧ (∀ (g : autoscaling.Group) (i : autoscaling.Instance) (s0 : σ) (d : Int),
        g.DesiredCapacity = some d → g.MaxSize = some d →
        ∃ err, (increaseDesiredCount svc g i s0).calls
          = [⟨some i, Call.SetAutoScalingGroupDesiredCount g (wrapInt64 (d + 1)) err⟩]) := by
  obtain ⟨h1, h2, h3⟩ := tick_agree svc hsvc cfg b groups groups2 s hgroups
  refine ⟨h1, h2, h3, ?_⟩
  intro g i s0 d hd _
  obtain ⟨err, he, _⟩ := increaseDesiredCount_request svc g i s0 d hd
  exact ⟨err, he⟩

/-! ## The claims at concrete ticks, second part -/

/-- C12 fails on the code at the fifth tick of the test: the updated instance is
`InService` and the lookup of its node returns an error, and the readiness evaluation
returns the count 0, where the claim has 1 (the `continue` of main.go 180-184 skips the
increment that the two sibling branches make); so the tick goes on to the outdated
instance and requests the desired capacity 3 instead of changing nothing. -/
theorem C12_lookup_failure_not_counted :
    (World.services.GetNodeByHostName "new-1" nodeAbsentWorld).1
      = Reply.error "node not found"
    ∧ (getReadyNodesAndNumberOfNonReadyNodesOrInstances World.services [newInstance]
        nodeAbsentWorld).val = some ([], 0)
    ∧ (HandleRollingUpgrade World.services testConfig [mixedGroup]
        nodeAbsentWorld).runs.map
        (fun r => r.calls.filter (fun e => e.call.isSetDesiredCount))
      = [[⟨some oldInstance, Call.SetAutoScalingGroupDesiredCount mixedGroup 3 none⟩]]
    ∧ (HandleRollingUpgrade World.services testConfig [mixedGroup]
        nodeAbsentWorld).st.desired = [("asg", 3)] := by
  decide

/-- C16 fails on the code at the third tick of the test: the second tick requests the
desired capacity 2; the third tick, run on the same instance and the same node with the
group reporting the desired capacity 2, requests 3, where the test expects the request
count to stay at one and the desired capacity at 2. -/
theorem C16_request_repeated :
    (HandleRollingUpgrade World.services testConfig [oneOutdatedGroup]
        startedWorld).st.desired = [("asg", 2)]
    ∧ (HandleRollingUpgrade World.services testConfig [oneOutdatedGroup]
        startedWorld).st.nodes = startedWorld.nodes
    ∧ (HandleRollingUpgrade World.services testConfig [afterRequestGroup]
        (HandleRollingUpgrade World.services testConfig [oneOutdatedGroup]
          startedWorld).st).runs.map
        (fun r => r.calls.filter (fun e => e.call.isSetDesiredCount))
      = [[⟨some oldInstance, Call.SetAutoScalingGroupDesiredCount afterRequestGroup 3
            none⟩]]
    ∧ (HandleRollingUpgrade World.services testConfig [afterRequestGroup]
        (HandleRollingUpgrade World.services testConfig [oneOutdatedGroup]
          startedWorld).st).st.desired = [("asg", 2), ("asg", 3)] := by
  decide

/-- C20 fails on the code for a node whose first `NoSchedule` taint has no `timeAdded`:
started-at parses, the cordon taint added after it qualifies, and the scan dereferences
the nil `TimeAdded` of the taint before it; the tick ends in a panic, no `UpdateNode` is
issued, and the node keeps both taints and started-at. -/
theorem C20_cleanup_panics_on_taint_without_time :
    scanTaints World.services.Parse "5" handTaintedNode.Spec.Taints 0 = TaintScan.panic
    ∧ scanTaints World.services.Parse "5" (handTaintedNode.Spec.Taints.drop 1) 1
      = TaintScan.found 1
    ∧ (cleanUpdatedNode World.services newInstance handTaintedNode handTaintedWorld).val
      = none
    ∧ (HandleRollingUpgrade World.services testConfig [oneUpdatedGroup]
        handTaintedWorld).crashed = true
    ∧ (HandleRollingUpgrade World.services testConfig [oneUpdatedGroup]
        handTaintedWorld).runs.map (fun r => r.calls.map (fun e => e.call))
      = [[Call.GetNodeByHostName "new-1" (Reply.ok handTaintedNode)]]
    ∧ (HandleRollingUpgrade World.services testConfig [oneUpdatedGroup]
        handTaintedWorld).st.nodes = [handTaintedNode] := by
  decide

/-- C11 at a group without launch template and launch configuration, at a group whose
template lookup fails, and at the group of the classification test. -/
theorem C11_classification_errors_witness :
    SeparateOutdatedFromUpdatedInstances World.services bareGroup emptyWorld
      = ⟨Result.error
          "AutoScalingGroup has neither launch template nor launch configuration",
          emptyWorld, []⟩
    ∧ (SeparateOutdatedFromUpdatedInstances World.services templateGroup emptyWorld).val
      = Result.error
          "error retrieving information about launch template id: launch template not found"
    ∧ ∃ old new, SeparateOutdatedFromUpdatedInstances World.services classificationMixGroup
        emptyWorld = ⟨Result.ok (old, new), emptyWorld, []⟩ :=
  ⟨(C11_classification_errors World.services bareGroup emptyWorld).1 rfl rfl,
    (C11_classification_errors World.services templateGroup emptyWorld).2.2.1
      (testTarget "v2") "launch template not found" rfl (by decide) (by decide) rfl,
    (C11_classification_errors World.services classificationMixGroup emptyWorld).2.2.2.2
      "v2" rfl rfl⟩

/-- C14 at the first tick of the test: the node has no annotation, the started-at write is
the one call after the lookup, and the loop goes on. -/
theorem C14_started_marker_only_witness :
    (World.services.GetNodeByHostName "old-1" freshWorld).1 = Reply.ok freshNode
    ∧ mapLookup freshNode.Annotations k8s.RollingUpdateStartedTimestampAnnotationKey = none
    ∧ ∃ (now : String) (err : Option String) (s1 : World),
        handleOutdatedInstance World.services testConfig oneOutdatedGroup [] oldInstance
          freshWorld
          = ⟨Flow.next, s1,
              [⟨some oldInstance, Call.GetNodeByHostName "old-1" (Reply.ok freshNode)⟩,
               ⟨some oldInstance, Call.AnnotateNodeByHostName "old-1"
                 k8s.RollingUpdateStartedTimestampAnnotationKey now err⟩]⟩ :=
  ⟨by decide, by decide,
    match C14_started_marker_only World.services testConfig oneOutdatedGroup []
        oldInstance [] freshWorld freshNode (by decide) (by decide) with
    | ⟨now, err, s1, h, _⟩ => ⟨now, err, s1, h⟩⟩

/-- C15 at the second tick of the test: the one capacity request passes 2 for the desired
capacity 1, after the lookup and the capacity check, and ends the pass. -/
theorem C15_capacity_request_witness :
    handleAutoScalingGroup World.services testConfig oneOutdatedGroup startedWorld
        ∈ (HandleRollingUpgrade World.services testConfig [oneOutdatedGroup] startedWorld).runs
    ∧ (handleAutoScalingGroup World.services testConfig oneOutdatedGroup startedWorld).calls
      = [⟨some oldInstance, Call.GetNodeByHostName "old-1" (Reply.ok startedNode)⟩,
         ⟨some oldInstance, Call.CheckIfNodeHasEnoughResourcesToTransferAllPodsInNodes
           startedNode [] false⟩]
        ++ ⟨some oldInstance, Call.SetAutoScalingGroupDesiredCount oneOutdatedGroup 2 none⟩
          :: []
    ∧ ∃ (old new : List autoscaling.Instance) (targets : List v1.Node),
        (handleAutoScalingGroup World.services testConfig oneOutdatedGroup
            startedWorld).classified = Result.ok (old, new)
        ∧ CapacityRequestAt
            (handleAutoScalingGroup World.services testConfig oneOutdatedGroup
              startedWorld).group targets old
            [⟨some oldInstance, Call.GetNodeByHostName "old-1" (Reply.ok startedNode)⟩,
             ⟨some oldInstance, Call.CheckIfNodeHasEnoughResourcesToTransferAllPodsInNodes
               startedNode [] false⟩]
            ⟨some oldInstance, Call.SetAutoScalingGroupDesiredCount oneOutdatedGroup 2 none⟩
            []
            (handleAutoScalingGroup World.services testConfig oneOutdatedGroup
              startedWorld).flow :=
  ⟨by decide, by decide,
    (C15_capacity_request World.services testConfig [oneOutdatedGroup] startedWorld
      (handleAutoScalingGroup World.services testConfig oneOutdatedGroup startedWorld)
      (by decide)).1
      [⟨some oldInstance, Call.GetNodeByHostName "old-1" (Reply.ok startedNode)⟩,
       ⟨some oldInstance, Call.CheckIfNodeHasEnoughResourcesToTransferAllPodsInNodes
         startedNode [] false⟩]
      []
      ⟨some oldInstance, Call.SetAutoScalingGroupDesiredCount oneOutdatedGroup 2 none⟩
      (by decide) rfl⟩

/-- C17, amended, at the seventh tick of the test: every adapter answers without an error,
the six calls are issued in order, and the node ends with the three markers. -/
theorem C17_drain_then_terminate_witness :
    DrainAndTerminateAnswers World.services testConfig [] oldInstance startedNode
        sufficientWorld "100" none "100" none drainedWorld
    ∧ handleOutdatedInstance World.services testConfig oneOutdatedGroup [] oldInstance
        sufficientWorld
      = ⟨Flow.ret, drainedWorld,
          drainAndTerminateCalls testConfig [] oldInstance startedNode "100" none "100"
            none⟩
    ∧ (storeLookup drainedWorld.nodes "old-1").map
        (fun a => (carries a k8s.RollingUpdateDrainedTimestampAnnotationKey,
          carries a k8s.RollingUpdateTerminatedTimestampAnnotationKey))
      = some (true, true) :=
  ⟨⟨95, _, _, _, _, _, _, _, _, rfl, rfl, by decide, rfl, rfl, rfl, rfl, rfl, rfl, rfl, rfl,
      rfl⟩,
    (C17_drain_then_terminate World.services testConfig oneOutdatedGroup [] oldInstance []
      startedNode sufficientWorld "100" none "100" none drainedWorld
      ⟨95, _, _, _, _, _, _, _, _, rfl, rfl, by decide, rfl, rfl, rfl, rfl, rfl, rfl, rfl,
        rfl, rfl⟩).1,
    by decide⟩

theorem world_request_ignores_max (g : autoscaling.Group) (c : Int) (w : World) :
    World.services.SetAutoScalingGroupDesiredCount g c w
      = World.services.SetAutoScalingGroupDesiredCount (eraseMaxSize g) c w := rfl

/-- C18 at the second tick of the test with the maximum size 1 and with the maximum size
999: the in-memory capacity request does not read `MaxSize`, the two ticks leave the same
world, and the desired capacity 2 is requested past the maximum size 1. -/
theorem C18_max_size_and_flag_unread_witness :
    [atMaxGroup].map eraseMaxSize = [oneOutdatedGroup].map eraseMaxSize
    ∧ (HandleRollingUpgrade World.services testConfig [atMaxGroup] startedWorld).st
      = (HandleRollingUpgrade World.services
          { testConfig with CanIncreaseAutoScalingGroupMax := true } [oneOutdatedGroup]
          startedWorld).st
    ∧ (HandleRollingUpgrade World.services testConfig [atMaxGroup]
        startedWorld).st.desired = [("asg", 2)] :=
  ⟨by decide,
    (C18_max_size_and_flag_unread World.services testConfig true [atMaxGroup]
      [oneOutdatedGroup] startedWorld world_request_ignores_max (by decide)).2.1,
    by decide⟩

/-- C19 at a group whose three instances are on the target launch configuration: the tick
looks the three nodes up and issues no other call. -/
theorem C19_nothing_outdated_no_action_witness :
    handleAutoScalingGroup World.services testConfig allUpdatedGroup allUpdatedWorld
        ∈ (HandleRollingUpgrade World.services testConfig [allUpdatedGroup]
            allUpdatedWorld).runs
    ∧ (handleAutoScalingGroup World.services testConfig allUpdatedGroup
        allUpdatedWorld).classified = Result.ok ([], allUpdatedGroup.Instances)
    ∧ (handleAutoScalingGroup World.services testConfig allUpdatedGroup
        allUpdatedWorld).calls.length = 3
    ∧ ∀ e ∈ (handleAutoScalingGroup World.services testConfig allUpdatedGroup
          allUpdatedWorld).calls,
        e.call.isAnnotate = false ∧ e.call.isDrain = false
          ∧ e.call.isTerminate = false ∧ e.call.isSetDesiredCount = false :=
  ⟨by decide, by decide, by decide,
    (C19_nothing_outdated_no_action World.services testConfig [allUpdatedGroup]
      allUpdatedWorld _ allUpdatedGroup.Instances (by decide) (by decide)).1⟩

/-! ## Skips: a failed lookup and a failed drain -/

theorem outdatedLoop_cons_next {σ : Type} (svc : Services σ) (cfg : config)
    (g : autoscaling.Group) (ready : List v1.Node) (i : autoscaling.Instance)
    (rest : List autoscaling.Instance) (s : σ)
    (h : (handleOutdatedInstance svc cfg g ready i s).val = Flow.next) :
    outdatedLoop svc cfg g ready (i :: rest) s
      = ⟨(outdatedLoop svc cfg g ready rest
            (handleOutdatedInstance svc cfg g ready i s).st).val,
          (outdatedLoop svc cfg g ready rest
            (handleOutdatedInstance svc cfg g ready i s).st).st,
          (handleOutdatedInstance svc cfg g ready i s).calls
            ++ (outdatedLoop svc cfg g ready rest
              (handleOutdatedInstance svc cfg g ready i s).st).calls⟩ := by
  rw [outdatedLoop]
  simp only [h]

/-- C29: when the lookup of the node of an outdated instance returns an error, the lookup
is the only call of the loop body for that instance (so no annotation write, no `Drain`, no
`TerminateEc2Instance` and no `SetAutoScalingGroupDesiredCount`), the body ends with
`continue`, and the loop goes on with the next outdated instance of the same group from the
state the lookup left. -/
theorem C29_lookup_failure_skips {σ : Type} (svc : Services σ) (cfg : config)
    (asg : autoscaling.Group) (ready : List v1.Node) (i : autoscaling.Instance)
    (rest : List autoscaling.Instance) (s : σ) (msg : String)
    (hlookup : (svc.GetNodeByHostName (aws.StringValue i.InstanceId) s).1
      = Reply.error msg) :
    handleOutdatedInstance svc cfg asg ready i s
      = ⟨Flow.next, (svc.GetNodeByHostName (aws.StringValue i.InstanceId) s).2,
          [⟨some i, Call.GetNodeByHostName (aws.StringValue i.InstanceId)
            (Reply.error msg)⟩]⟩
    ∧ (∀ e ∈ (handleOutdatedInstance svc cfg asg ready i s).calls,
        e.call.isReconcileAction = false)
    ∧ outdatedLoop svc cfg asg ready (i :: rest) s
      = ⟨(outdatedLoop svc cfg asg ready rest
            (svc.GetNodeByHostName (aws.StringValue i.InstanceId) s).2).val,
          (outdatedLoop svc cfg asg ready rest
            (svc.GetNodeByHostName (aws.StringValue i.InstanceId) s).2).st,
          ⟨some i, Call.GetNodeByHostName (aws.StringValue i.InstanceId) (Reply.error msg)⟩
            :: (outdatedLoop svc cfg asg ready rest
              (svc.GetNodeByHostName (aws.StringValue i.InstanceId) s).2).calls⟩ := by
  have hh : handleOutdatedInstance svc cfg asg ready i s
      = ⟨Flow.next, (svc.GetNodeByHostName (aws.StringValue i.InstanceId) s).2,
          [⟨some i, Call.GetNodeByHostName (aws.StringValue i.InstanceId)
            (Reply.error msg)⟩]⟩ := by
    unfold handleOutdatedInstance
    simp only [hlookup]
  refine ⟨hh, ?_, ?_⟩
  · rw [hh]
    intro e he
    simp only [List.mem_singleton] at he
    subst he
    rfl
  · rw [outdatedLoop_cons_next svc cfg asg ready i rest s (by rw [hh]), hh]
    rfl

theorem terminateStep_no_drain {σ : Type} (svc : Services σ) (i : autoscaling.Instance)
    (m : Int) (s : σ) :
    ∀ e ∈ (terminateStep svc i m s).calls, e.call.isDrain = false := by
  unfold terminateStep
  simp only []
  split
  · split <;> simp [Call.isDrain]
  · simp

theorem increaseDesiredCount_no_drain {σ : Type} (svc : Services σ)
    (g : autoscaling.Group) (i : autoscaling.Instance) (s : σ) :
    ∀ e ∈ (increaseDesiredCount svc g i s).calls, e.call.isDrain = false := by
  unfold increaseDesiredCount
  split
  · simp
  · simp only []
    split <;> simp [Call.isDrain]

theorem drainAndTerminate_drain_error {σ : Type} (svc : Services σ) (cfg : config)
    (i : autoscaling.Instance) (node : v1.Node) (md mt : Int) (s : σ) (e : Event)
    (name : String) (a b : Bool) (err : String)
    (he : e ∈ (drainAndTerminate svc cfg i node md mt s).calls)
    (hcall : e.call = Call.Drain name a b (some err)) :
    drainAndTerminate svc cfg i node md mt s
      = ⟨Flow.next, (svc.Drain node.Name cfg.IgnoreDaemonSets cfg.DeleteLocalData s).2, [e]⟩
    ∧ e = ⟨some i, Call.Drain node.Name cfg.IgnoreDaemonSets cfg.DeleteLocalData
        (some err)⟩ := by
  have hd : e.call.isDrain = true := by rw [hcall]; rfl
  unfold drainAndTerminate at he ⊢
  simp only [] at he ⊢
  split at he
  · rename_i hm
    rw [if_pos hm]
    cases hdr : (svc.Drain node.Name cfg.IgnoreDaemonSets cfg.DeleteLocalData s).1 with
    | some x =>
      rw [hdr] at he
      simp only [List.mem_singleton] at he
      subst he
      simp only [Call.Drain.injEq, Option.some.injEq] at hcall
      rw [hcall.2.2.2]
      exact ⟨rfl, rfl⟩
    | none =>
      rw [hdr] at he
      simp only [List.mem_cons] at he
      rcases he with he | he | he
      · subst he
        simp at hcall
      · subst he
        simp at hcall
      · rw [terminateStep_no_drain svc i mt _ e he] at hd
        cases hd
  · rw [terminateStep_no_drain svc i mt _ e he] at hd
    cases hd

theorem handleOutdatedInstance_drain_error {σ : Type} (svc : Services σ) (cfg : config)
    (g : autoscaling.Group) (ready : List v1.Node) (i : autoscaling.Instance) (s : σ)
    (e : Event) (name : String) (a b : Bool) (err : String)
    (he : e ∈ (handleOutdatedInstance svc cfg g ready i s).calls)
    (hcall : e.call = Call.Drain name a b (some err)) :
    (handleOutdatedInstance svc cfg g ready i s).val = Flow.next
    ∧ ∃ node : v1.Node,
      (handleOutdatedInstance svc cfg g ready i s).calls
        = [⟨some i, Call.GetNodeByHostName (aws.StringValue i.InstanceId) (Reply.ok node)⟩,
           ⟨some i, Call.CheckIfNodeHasEnoughResourcesToTransferAllPodsInNodes node ready
             true⟩,
           ⟨some i, Call.Drain node.Name cfg.IgnoreDaemonSets cfg.DeleteLocalData
             (some err)⟩] := by
  have hd : e.call.isDrain = true := by rw [hcall]; rfl
  unfold handleOutdatedInstance at he ⊢
  simp only [] at he ⊢
  cases hg : (svc.GetNodeByHostName (aws.StringValue i.InstanceId) s).1 with
  | error msg =>
    rw [hg] at he
    simp only [List.mem_singleton] at he
    subst he
    simp at hcall
  | ok node =>
    rw [hg] at he
    simp only [List.mem_cons] at he ⊢
    rcases he with he | he
    · subst he
      simp at hcall
    · unfold handleOutdatedNode at he ⊢
      simp only [] at he ⊢
      split at he
      · simp only [startRollout, List.mem_singleton] at he
        subst he
        simp at hcall
      · rename_i hms
        rw [if_neg hms]
        simp only [List.mem_cons] at he ⊢
        rcases he with he | he
        · subst he
          simp at hcall
        · cases hc : (svc.CheckIfNodeHasEnoughResourcesToTransferAllPodsInNodes node ready
              (getRollingUpdateTimestampsFromNode svc node
                (svc.GetNodeByHostName (aws.StringValue i.InstanceId) s).2).2).1 with
          | false =>
            rw [hc] at he
            simp only [Bool.false_eq_true, if_false] at he
            rw [increaseDesiredCount_no_drain svc g i _ e he] at hd
            cases hd
          | true =>
            rw [hc] at he
            simp only [if_true] at he ⊢
            obtain ⟨k1, k2⟩ := drainAndTerminate_drain_error svc cfg i node _ _ _ e name a b
              err he hcall
            rw [k1, k2]
            exact ⟨rfl, node, rfl⟩

/-- C27: when `Drain` returns an error for the node of an outdated instance, it is the
last call of the loop body for that instance, after the lookup and the capacity check: no
drained-at and no terminated-at write, no `TerminateEc2Instance`; the body ends with
`continue` and the loop goes on with the next outdated instance. -/
theorem C27_drain_error_skips {σ : Type} (svc : Services σ) (cfg : config)
    (asg : autoscaling.Group) (ready : List v1.Node) (i : autoscaling.Instance)
    (rest : List autoscaling.Instance) (s : σ) (e : Event) (name : String) (a b : Bool)
    (err : String)
    (he : e ∈ (handleOutdatedInstance svc cfg asg ready i s).calls)
    (hcall : e.call = Call.Drain name a b (some err)) :
    (handleOutdatedInstance svc cfg asg ready i s).val = Flow.next
    ∧ (∃ node : v1.Node,
      (handleOutdatedInstance svc cfg asg ready i s).calls
        = [⟨some i, Call.GetNodeByHostName (aws.StringValue i.InstanceId) (Reply.ok node)⟩,
           ⟨some i, Call.CheckIfNodeHasEnoughResourcesToTransferAllPodsInNodes node ready
             true⟩,
           ⟨some i, Call.Drain node.Name cfg.IgnoreDaemonSets cfg.DeleteLocalData
             (some err)⟩])
    ∧ (∀ x ∈ (handleOutdatedInstance svc cfg asg ready i s).calls,
        x.call.isAnnotate = false ∧ x.call.isTerminate = false
        ∧ x.call.isSetDesiredCount = false)
    ∧ outdatedLoop svc cfg asg ready (i :: rest) s
      = ⟨(outdatedLoop svc cfg asg ready rest
            (handleOutdatedInstance svc cfg asg ready i s).st).val,
          (outdatedLoop svc cfg asg ready rest
            (handleOutdatedInstance svc cfg asg ready i s).st).st,
          (handleOutdatedInstance svc cfg asg ready i s).calls
            ++ (outdatedLoop svc cfg asg ready rest
              (handleOutdatedInstance svc cfg asg ready i s).st).calls⟩ := by
  obtain ⟨hv, node, hc⟩ := handleOutdatedInstance_drain_error svc cfg asg ready i s e name
    a b err he hcall
  refine ⟨hv, ⟨node, hc⟩, ?_, outdatedLoop_cons_next svc cfg asg ready i rest s hv⟩
  rw [hc]
  intro x hx
  simp only [List.mem_cons, List.mem_singleton, List.not_mem_nil, or_false] at hx
  rcases hx with hx | hx | hx <;> subst hx <;> exact ⟨rfl, rfl, rfl⟩

/-! ## How the markers are read -/

theorem minutesSinceKey_unparseable {σ : Type} (svc : Services σ) (node : v1.Node)
    (key value : String) (s : σ) (hl : mapLookup node.Annotations key = some value)
    (hp : svc.Parse value = none) : minutesSinceKey svc node key s = (0, s) := by
  unfold minutesSinceKey
  simp only [hl, hp]

theorem minutesSinceKey_parsed {σ : Type} (svc : Services σ) (node : v1.Node)
    (key value : String) (t : Int) (s : σ) (hl : mapLookup node.Annotations key = some value)
    (hp : svc.Parse value = some t) :
    minutesSinceKey svc node key s = svc.MinutesSince t s := by
  unfold minutesSinceKey
  simp only [hl, hp]

theorem startRollout_calls {σ : Type} (svc : Services σ) (i : autoscaling.Instance) (s : σ) :
    ∀ e ∈ (startRollout svc i s).calls, e.call.isDrain = false ∧ e.call.isTerminate = false
      ∧ e.call.isSetDesiredCount = false ∧ e.call.isLookup = false := by
  intro e he
  simp only [startRollout, List.mem_singleton] at he
  subst he
  exact ⟨rfl, rfl, rfl, rfl⟩

theorem handleOutdatedNode_started {σ : Type} (svc : Services σ) (cfg : config)
    (g : autoscaling.Group) (ready : List v1.Node) (i : autoscaling.Instance)
    (node : v1.Node) (s : σ)
    (hms : (getRollingUpdateTimestampsFromNode svc node s).1.1 ≠ -1) :
    handleOutdatedNode svc cfg g ready i node s
      = ⟨(if (svc.CheckIfNodeHasEnoughResourcesToTransferAllPodsInNodes node ready
              (getRollingUpdateTimestampsFromNode svc node s).2).1 then
            drainAndTerminate svc cfg i node
              (getRollingUpdateTimestampsFromNode svc node s).1.2.1
              (getRollingUpdateTimestampsFromNode svc node s).1.2.2
              (svc.CheckIfNodeHasEnoughResourcesToTransferAllPodsInNodes node ready
                (getRollingUpdateTimestampsFromNode svc node s).2).2
          else increaseDesiredCount svc g i
              (svc.CheckIfNodeHasEnoughResourcesToTransferAllPodsInNodes node ready
                (getRollingUpdateTimestampsFromNode svc node s).2).2).val,
          (if (svc.CheckIfNodeHasEnoughResourcesToTransferAllPodsInNodes node ready
              (getRollingUpdateTimestampsFromNode svc node s).2).1 then
            drainAndTerminate svc cfg i node
              (getRollingUpdateTimestampsFromNode svc node s).1.2.1
              (getRollingUpdateTimestampsFromNode svc node s).1.2.2
              (svc.CheckIfNodeHasEnoughResourcesToTransferAllPodsInNodes node ready
                (getRollingUpdateTimestampsFromNode svc node s).2).2
          else increaseDesiredCount svc g i
              (svc.CheckIfNodeHasEnoughResourcesToTransferAllPodsInNodes node ready
                (getRollingUpdateTimestampsFromNode svc node s).2).2).st,
          ⟨some i, Call.CheckIfNodeHasEnoughResourcesToTransferAllPodsInNodes node ready
            (svc.CheckIfNodeHasEnoughResourcesToTransferAllPodsInNodes node ready
              (getRollingUpdateTimestampsFromNode svc node s).2).1⟩
          :: (if (svc.CheckIfNodeHasEnoughResourcesToTransferAllPodsInNodes node ready
              (getRollingUpdateTimestampsFromNode svc node s).2).1 then
            drainAndTerminate svc cfg i node
              (getRollingUpdateTimestampsFromNode svc node s).1.2.1
              (getRollingUpdateTimestampsFromNode svc node s).1.2.2
              (svc.CheckIfNodeHasEnoughResourcesToTransferAllPodsInNodes node ready
                (getRollingUpdateTimestampsFromNode svc node s).2).2
          else increaseDesiredCount svc g i
              (svc.CheckIfNodeHasEnoughResourcesToTransferAllPodsInNodes node ready
                (getRollingUpdateTimestampsFromNode svc node s).2).2).calls⟩ := by
  unfold handleOutdatedNode
  simp only []
  rw [if_neg hms]

theorem handleOutdatedNode_unstarted {σ : Type} (svc : Services σ) (cfg : config)
    (g : autoscaling.Group) (ready : List v1.Node) (i : autoscaling.Instance)
    (node : v1.Node) (s : σ)
    (hms : (getRollingUpdateTimestampsFromNode svc node s).1.1 = -1) :
    handleOutdatedNode svc cfg g ready i node s
      = startRollout svc i (getRollingUpdateTimestampsFromNode svc node s).2 := by
  unfold handleOutdatedNode
  simp only []
  rw [if_pos hms]

theorem timestamps_started {σ : Type} (svc : Services σ) (node : v1.Node) (s : σ) :
    (getRollingUpdateTimestampsFromNode svc node s).1.1
      = (minutesSinceKey svc node k8s.RollingUpdateStartedTimestampAnnotationKey s).1 := rfl

theorem timestamps_drained {σ : Type} (svc : Services σ) (node : v1.Node) (s : σ) :
    (getRollingUpdateTimestampsFromNode svc node s).1.2.1
      = (minutesSinceKey svc node k8s.RollingUpdateDrainedTimestampAnnotationKey
          (minutesSinceKey svc node k8s.RollingUpdateStartedTimestampAnnotationKey s).2).1 :=
  rfl

theorem timestamps_terminated {σ : Type} (svc : Services σ) (node : v1.Node) (s : σ) :
    (getRollingUpdateTimestampsFromNode svc node s).1.2.2
      = (minutesSinceKey svc node k8s.RollingUpdateTerminatedTimestampAnnotationKey
          (minutesSinceKey svc node k8s.RollingUpdateDrainedTimestampAnnotationKey
            (minutesSinceKey svc node k8s.RollingUpdateStartedTimestampAnnotationKey
              s).2).2).1 :=
  rfl

/-- C23, as amended: in `getRollingUpdateTimestampsFromNode` an annotation whose value does
not parse yields 0, the zero value of the named result, and not the absent marker -1, which
only an absent key yields (both without reading the clock).  So the engine handles a node
whose started-at does not parse as started: its first call for the node is the capacity
check and not the started-at write that a node without started-at gets; with a drained-at
that does not parse no `Drain` is issued, and with a terminated-at that does not parse no
`TerminateEc2Instance`. -/
theorem C23_unparseable_reads_zero {σ : Type} (svc : Services σ) (node : v1.Node) (s : σ) :
    (∀ key value, mapLookup node.Annotations key = some value → svc.Parse value = none →
      minutesSinceKey svc node key s = (0, s))
    ∧ (∀ key, mapLookup node.Annotations key = none →
      minutesSinceKey svc node key s = (-1, s))
    ∧ (∀ (cfg : config) (asg : autoscaling.Group) (ready : List v1.Node)
        (i : autoscaling.Instance) (value : String),
        mapLookup node.Annotations k8s.RollingUpdateStartedTimestampAnnotationKey
          = some value →
        svc.Parse value = none →
        ∃ (res : Bool) (rest : List Event),
          (handleOutdatedNode svc cfg asg ready i node s).calls
            = ⟨some i, Call.CheckIfNodeHasEnoughResourcesToTransferAllPodsInNodes node ready
                res⟩ :: rest)
    ∧ (∀ (cfg : config) (asg : autoscaling.Group) (ready : List v1.Node)
        (i : autoscaling.Instance),
        mapLookup node.Annotations k8s.RollingUpdateStartedTimestampAnnotationKey = none →
        ∃ (now : String) (err : Option String),
          (handleOutdatedNode svc cfg asg ready i node s).calls
            = [⟨some i, Call.AnnotateNodeByHostName (aws.StringValue i.InstanceId)
                k8s.RollingUpdateStartedTimestampAnnotationKey now err⟩])
    ∧ (∀ (cfg : config) (asg : autoscaling.Group) (ready : List v1.Node)
        (i : autoscaling.Instance) (value : String),
        mapLookup node.Annotations k8s.RollingUpdateDrainedTimestampAnnotationKey
          = some value →
        svc.Parse value = none →
        ∀ e ∈ (handleOutdatedNode svc cfg asg ready i node s).calls, e.call.isDrain = false)
    ∧ (∀ (cfg : config) (asg : autoscaling.Group) (ready : List v1.Node)
        (i : autoscaling.Instance) (value : String),
        mapLookup node.Annotations k8s.RollingUpdateTerminatedTimestampAnnotationKey
          = some value →
        svc.Parse value = none →
        ∀ e ∈ (handleOutdatedNode svc cfg asg ready i node s).calls,
          e.call.isTerminate = false) := by
  refine ⟨fun key value hl hp => minutesSinceKey_unparseable svc node key value s hl hp,
    fun key hl => minutesSinceKey_absent svc node key s hl, ?_, ?_, ?_, ?_⟩
  · intro cfg asg ready i value hl hp
    have hms : (getRollingUpdateTimestampsFromNode svc node s).1.1 ≠ -1 := by
      rw [timestamps_started, minutesSinceKey_unparseable svc node _ value s hl hp]
      simp
    rw [handleOutdatedNode_started svc cfg asg ready i node s hms]
    exact ⟨_, _, rfl⟩
  · intro cfg asg ready i hl
    have hms : (getRollingUpdateTimestampsFromNode svc node s).1.1 = -1 := by
      rw [timestamps_started, minutesSinceKey_absent svc node _ s hl]
    rw [handleOutdatedNode_unstarted svc cfg asg ready i node s hms]
    exact ⟨_, _, rfl⟩
  · intro cfg asg ready i value hl hp e he
    have hmd : (getRollingUpdateTimestampsFromNode svc node s).1.2.1 ≠ -1 := by
      rw [timestamps_drained, minutesSinceKey_unparseable svc node _ value _ hl hp]
      simp
    by_cases hms : (getRollingUpdateTimestampsFromNode svc node s).1.1 = -1
    · rw [handleOutdatedNode_unstarted svc cfg asg ready i node s hms] at he
      exact (startRollout_calls svc i _ e he).1
    · rw [handleOutdatedNode_started svc cfg asg ready i node s hms] at he
      simp only [List.mem_cons] at he
      rcases he with he | he
      · subst he; rfl
      · split at he
        · unfold drainAndTerminate at he
          simp only [] at he
          rw [if_neg hmd] at he
          exact terminateStep_no_drain svc i _ _ e he
        · exact increaseDesiredCount_no_drain svc asg i _ e he
  · intro cfg asg ready i value hl hp e he
    have hmt : (getRollingUpdateTimestampsFromNode svc node s).1.2.2 ≠ -1 := by
      rw [timestamps_terminated, minutesSinceKey_unparseable svc node _ value _ hl hp]
      simp
    have hT : ∀ s0 : σ, ∀ x ∈ (terminateStep svc i
        (getRollingUpdateTimestampsFromNode svc node s).1.2.2 s0).calls,
        x.call.isTerminate = false := by
      intro s0 x hx
      unfold terminateStep at hx
      simp only [] at hx
      rw [if_neg hmt] at hx
      simp at hx
    by_cases hms : (getRollingUpdateTimestampsFromNode svc node s).1.1 = -1
    · rw [handleOutdatedNode_unstarted svc cfg asg ready i node s hms] at he
      exact (startRollout_calls svc i _ e he).2.1
    · rw [handleOutdatedNode_started svc cfg asg ready i node s hms] at he
      simp only [List.mem_cons] at he
      rcases he with he | he
      · subst he; rfl
      · split at he
        · unfold drainAndTerminate at he
          simp only [] at he
          split at he
          · split at he
            · simp only [List.mem_singleton] at he
              subst he; rfl
            · simp only [List.mem_cons] at he
              rcases he with he | he | he
              · subst he; rfl
              · subst he; rfl
              · exact hT _ e he
          · exact hT _ e he
        · unfold increaseDesiredCount at he
          split at he
          · simp at he
          · simp only [] at he
            split at he <;>
            · simp only [List.mem_singleton] at he
              subst he; rfl

/-- C23 as stated fails: the started-at value `yesterday` does not parse, the three results
are 0, -1 and -1, and the tick handles the node as started: it asks for the capacity check
and requests capacity instead of writing started-at. -/
theorem C23_counterexample :
    mapLookup garbledNode.Annotations k8s.RollingUpdateStartedTimestampAnnotationKey
      = some "yesterday"
    ∧ World.services.Parse "yesterday" = none
    ∧ (getRollingUpdateTimestampsFromNode World.services garbledNode garbledWorld).1
      = (0, -1, -1)
    ∧ (HandleRollingUpgrade World.services testConfig [oneOutdatedGroup]
        garbledWorld).runs.map (fun r => r.calls.map (fun e => e.call))
      = [[Call.GetNodeByHostName "old-1" (Reply.ok garbledNode),
          Call.CheckIfNodeHasEnoughResourcesToTransferAllPodsInNodes garbledNode [] false,
          Call.SetAutoScalingGroupDesiredCount oneOutdatedGroup 2 none]] := by
  decide

theorem handleOutdatedInstance_found {σ : Type} (svc : Services σ) (cfg : config)
    (g : autoscaling.Group) (ready : List v1.Node) (i : autoscaling.Instance) (s : σ)
    (node : v1.Node)
    (hlookup : (svc.GetNodeByHostName (aws.StringValue i.InstanceId) s).1 = Reply.ok node) :
    handleOutdatedInstance svc cfg g ready i s
      = ⟨(handleOutdatedNode svc cfg g ready i node
            (svc.GetNodeByHostName (aws.StringValue i.InstanceId) s).2).val,
          (handleOutdatedNode svc cfg g ready i node
            (svc.GetNodeByHostName (aws.StringValue i.InstanceId) s).2).st,
          ⟨some i, Call.GetNodeByHostName (aws.StringValue i.InstanceId) (Reply.ok node)⟩
            :: (handleOutdatedNode svc cfg g ready i node
              (svc.GetNodeByHostName (aws.StringValue i.InstanceId) s).2).calls⟩ := by
  unfold handleOutdatedInstance
  simp only [hlookup]

/-- C24, as amended: for an outdated instance whose node carries the three markers, each
read as different from -1, the engine asks for the capacity check first.  When the check
returns true the check is the last call for the instance (no `Drain`, no
`TerminateEc2Instance`, no `SetAutoScalingGroupDesiredCount`) and the loop goes on with the
next outdated instance; when it returns false the engine requests the desired capacity plus
one for the group, as for a node that carries started-at alone, and issues no `Drain` and
no `TerminateEc2Instance`. -/
theorem C24_marked_node {σ : Type} (svc : Services σ) (cfg : config)
    (asg : autoscaling.Group) (ready : List v1.Node) (i : autoscaling.Instance)
    (rest : List autoscaling.Instance) (s s1 s2 : σ) (node : v1.Node) (ms md mt : Int)
    (hlookup : svc.GetNodeByHostName (aws.StringValue i.InstanceId) s = (Reply.ok node, s1))
    (hts : getRollingUpdateTimestampsFromNode svc node s1 = ((ms, md, mt), s2))
    (hms : ms ≠ -1) (hmd : md ≠ -1) (hmt : mt ≠ -1) :
    (∀ s3, svc.CheckIfNodeHasEnoughResourcesToTransferAllPodsInNodes node ready s2
        = (true, s3) →
      handleOutdatedInstance svc cfg asg ready i s
        = ⟨Flow.next, s3,
            [⟨some i, Call.GetNodeByHostName (aws.StringValue i.InstanceId) (Reply.ok node)⟩,
             ⟨some i, Call.CheckIfNodeHasEnoughResourcesToTransferAllPodsInNodes node ready
               true⟩]⟩
      ∧ outdatedLoop svc cfg asg ready (i :: rest) s
        = ⟨(outdatedLoop svc cfg asg ready rest s3).val,
            (outdatedLoop svc cfg asg ready rest s3).st,
            [⟨some i, Call.GetNodeByHostName (aws.StringValue i.InstanceId) (Reply.ok node)⟩,
             ⟨some i, Call.CheckIfNodeHasEnoughResourcesToTransferAllPodsInNodes node ready
               true⟩] ++ (outdatedLoop svc cfg asg ready rest s3).calls⟩)
    ∧ (∀ s3 d, svc.CheckIfNodeHasEnoughResourcesToTransferAllPodsInNodes node ready s2
        = (false, s3) →
      asg.DesiredCapacity = some d →
      ∃ err, (handleOutdatedInstance svc cfg asg ready i s).calls
        = [⟨some i, Call.GetNodeByHostName (aws.StringValue i.InstanceId) (Reply.ok node)⟩,
           ⟨some i, Call.CheckIfNodeHasEnoughResourcesToTransferAllPodsInNodes node ready
             false⟩,
           ⟨some i, Call.SetAutoScalingGroupDesiredCount asg (wrapInt64 (d + 1)) err⟩]) := by
  have g1 : (svc.GetNodeByHostName (aws.StringValue i.InstanceId) s).1 = Reply.ok node := by
    rw [hlookup]
  have g2 : (svc.GetNodeByHostName (aws.StringValue i.InstanceId) s).2 = s1 := by
    rw [hlookup]
  have hh := handleOutdatedInstance_found svc cfg asg ready i s node g1
  rw [g2] at hh
  have hn := handleOutdatedNode_started svc cfg asg ready i node s1 (by rw [hts]; exact hms)
  rw [hts] at hn
  simp only [] at hn
  refine ⟨?_, ?_⟩
  · intro s3 hc
    rw [hc] at hn
    simp only [if_true] at hn
    have hd : drainAndTerminate svc cfg i node md mt s3 = ⟨Flow.next, s3, []⟩ := by
      unfold drainAndTerminate
      rw [if_neg hmd]
      unfold terminateStep
      rw [if_neg hmt]
    rw [hd] at hn
    rw [hn] at hh
    refine ⟨hh, ?_⟩
    rw [outdatedLoop_cons_next svc cfg asg ready i rest s (by rw [hh]), hh]
  · intro s3 d hc hd
    rw [hc] at hn
    simp only [Bool.false_eq_true, if_false] at hn
    obtain ⟨err, he, _⟩ := increaseDesiredCount_request svc asg i s3 d hd
    rw [hn] at hh
    rw [hh, he]
    exact ⟨err, rfl⟩

/-- C24 as stated fails: the node of the outdated instance carries the three markers, the
capacity check returns false, and the tick requests the desired capacity 2. -/
theorem C24_counterexample :
    (carries markedNode.Annotations k8s.RollingUpdateStartedTimestampAnnotationKey,
      carries markedNode.Annotations k8s.RollingUpdateDrainedTimestampAnnotationKey,
      carries markedNode.Annotations k8s.RollingUpdateTerminatedTimestampAnnotationKey)
      = (true, true, true)
    ∧ (HandleRollingUpgrade World.services testConfig [oneOutdatedGroup]
        markedWorld).runs.map (fun r => r.calls.map (fun e => e.call))
      = [[Call.GetNodeByHostName "old-1" (Reply.ok markedNode),
          Call.CheckIfNodeHasEnoughResourcesToTransferAllPodsInNodes markedNode [] false,
          Call.SetAutoScalingGroupDesiredCount oneOutdatedGroup 2 none]]
    ∧ (HandleRollingUpgrade World.services testConfig [oneOutdatedGroup]
        markedWorld).st.desired = [("asg", 2)] := by
  decide

theorem minutesSinceKey_set {σ : Type} (svc : Services σ) (node : v1.Node)
    (key value : String) (s : σ) (hl : mapLookup node.Annotations key = some value)
    (h : svc.Parse value = none
      ∨ ∃ t, svc.Parse value = some t ∧ (svc.MinutesSince t s).1 ≠ -1) :
    (minutesSinceKey svc node key s).1 ≠ -1 := by
  rcases h with h | ⟨t, h1, h2⟩
  · rw [minutesSinceKey_unparseable svc node key value s hl h]
    simp
  · rw [minutesSinceKey_parsed svc node key value t s hl h1]
    exact h2

/-- When the drained-at of the node of an outdated instance is read as different from -1,
the engine issues no `Drain` for the instance in the tick, and with started-at read as set
and a capacity check that returns true it goes straight to the termination step.  The
drained-at annotation is read as different from -1 when its value does not parse or when
the minutes since its instant are not -1. -/
theorem no_second_drain_when_read {σ : Type} (svc : Services σ) (cfg : config)
    (asg : autoscaling.Group) (ready : List v1.Node) (i : autoscaling.Instance)
    (s s1 s2 : σ) (node : v1.Node) (ms md mt : Int)
    (hlookup : svc.GetNodeByHostName (aws.StringValue i.InstanceId) s = (Reply.ok node, s1))
    (hts : getRollingUpdateTimestampsFromNode svc node s1 = ((ms, md, mt), s2))
    (hmd : md ≠ -1) :
    (∀ e ∈ (handleOutdatedInstance svc cfg asg ready i s).calls, e.call.isDrain = false)
    ∧ (ms ≠ -1 →
      ∀ s3, svc.CheckIfNodeHasEnoughResourcesToTransferAllPodsInNodes node ready s2
        = (true, s3) →
      handleOutdatedInstance svc cfg asg ready i s
        = ⟨(terminateStep svc i mt s3).val, (terminateStep svc i mt s3).st,
            ⟨some i, Call.GetNodeByHostName (aws.StringValue i.InstanceId) (Reply.ok node)⟩
            :: ⟨some i, Call.CheckIfNodeHasEnoughResourcesToTransferAllPodsInNodes node
                ready true⟩
            :: (terminateStep svc i mt s3).calls⟩)
    ∧ (∀ value, mapLookup node.Annotations k8s.RollingUpdateDrainedTimestampAnnotationKey
          = some value →
        (svc.Parse value = none
          ∨ ∃ t, svc.Parse value = some t ∧ ∀ s0, (svc.MinutesSince t s0).1 ≠ -1) →
        ∀ s0, (getRollingUpdateTimestampsFromNode svc node s0).1.2.1 ≠ -1) := by
  have g1 : (svc.GetNodeByHostName (aws.StringValue i.InstanceId) s).1 = Reply.ok node := by
    rw [hlookup]
  have g2 : (svc.GetNodeByHostName (aws.StringValue i.InstanceId) s).2 = s1 := by
    rw [hlookup]
  have hh := handleOutdatedInstance_found svc cfg asg ready i s node g1
  rw [g2] at hh
  have hd : ∀ s3, drainAndTerminate svc cfg i node md mt s3 = terminateStep svc i mt s3 := by
    intro s3
    unfold drainAndTerminate
    rw [if_neg hmd]
  refine ⟨?_, ?_, ?_⟩
  · rw [hh]
    intro e he
    simp only [List.mem_cons] at he
    rcases he with he | he
    · subst he; rfl
    · by_cases hms : (getRollingUpdateTimestampsFromNode svc node s1).1.1 = -1
      · rw [handleOutdatedNode_unstarted svc cfg asg ready i node s1 hms] at he
        exact (startRollout_calls svc i _ e he).1
      · rw [handleOutdatedNode_started svc cfg asg ready i node s1 hms, hts] at he
        simp only [List.mem_cons] at he
        rcases he with he | he
        · subst he; rfl
        · split at he
          · rw [hd] at he
            exact terminateStep_no_drain svc i _ _ e he
          · exact increaseDesiredCount_no_drain svc asg i _ e he
  · intro hms s3 hc
    have hn := handleOutdatedNode_started svc cfg asg ready i node s1
      (by rw [hts]; exact hms)
    rw [hts] at hn
    simp only [] at hn
    rw [hc] at hn
    simp only [if_true, hd] at hn
    rw [hn] at hh
    exact hh
  · intro value hl h s0
    rw [timestamps_drained]
    apply minutesSinceKey_set svc node _ value _ hl
    rcases h with h | ⟨t, h1, h2⟩
    · exact Or.inl h
    · exact Or.inr ⟨t, h1, h2 _⟩

/-- C26 fails on the code for a node whose drained-at lies one minute ahead of the clock:
the node carries drained-at, the minutes since its instant are -1, which is also the marker
of an absent annotation, so the reading is that of a node not yet drained and the tick
issues a `Drain` for the node.  With the same annotations read at the instant 100 the tick
issues none. -/
theorem C26_drained_node_drained_again :
    carries aheadNode.Annotations k8s.RollingUpdateDrainedTimestampAnnotationKey = true
    ∧ (getRollingUpdateTimestampsFromNode World.services aheadNode aheadWorld).1
      = (3, -1, -1)
    ∧ (HandleRollingUpgrade World.services testConfig [oneOutdatedGroup]
        aheadWorld).runs.map
        (fun r => r.calls.filter (fun e => e.call.isDrain))
      = [[⟨some oldInstance, Call.Drain "old-1" false false none⟩]]
    ∧ (getRollingUpdateTimestampsFromNode World.services aheadNode
        { aheadWorld with clock := 100 }).1 = (99, 95, -1)
    ∧ (HandleRollingUpgrade World.services testConfig [oneOutdatedGroup]
        { aheadWorld with clock := 100 }).runs.map
        (fun r => r.calls.filter (fun e => e.call.isDrain))
      = [[]] := by
  decide

/-! ## The readiness evaluation -/

theorem lastConditionReady_spec (node : v1.Node) (b : Bool)
    (h : lastConditionReady node = some b) : specReady node = b := by
  unfold lastConditionReady at h
  unfold specReady
  cases hl : node.Status.Conditions.getLast? with
  | none => rw [hl] at h; cases h
  | some c =>
    rw [hl] at h
    simp only [Option.some.injEq] at h
    rw [← h]
    rfl

theorem lastConditionReady_isSome (node : v1.Node) (h : node.Status.Conditions ≠ []) :
    lastConditionReady node ≠ none := by
  unfold lastConditionReady
  cases hl : node.Status.Conditions.getLast? with
  | none =>
    rw [List.getLast?_eq_none_iff] at hl
    exact absurd hl h
  | some c => simp

theorem cleanUpdatedNode_val {σ : Type} (svc : Services σ) (u : autoscaling.Instance)
    (node : v1.Node) (s : σ) :
    (cleanUpdatedNode svc u node s).val
      = if cleanupPanics svc.Parse node then none else some (afterCleanup svc.Parse node) := by
  unfold cleanUpdatedNode cleanupPanics afterCleanup
  cases mapLookup node.Annotations k8s.RollingUpdateStartedTimestampAnnotationKey with
  | none => simp
  | some v =>
    simp only []
    cases scanTaints svc.Parse v node.Spec.Taints 0 <;> simp

theorem cleanUpdatedNode_foundNodes {σ : Type} (svc : Services σ)
    (u : autoscaling.Instance) (node : v1.Node) (s : σ) :
    foundNodes (cleanUpdatedNode svc u node s).calls = []
    ∧ lookupsOf (cleanUpdatedNode svc u node s).calls = [] := by
  unfold cleanUpdatedNode
  split
  · exact ⟨rfl, rfl⟩
  · split <;> exact ⟨rfl, rfl⟩

theorem foundNodes_append (a b : List Event) :
    foundNodes (a ++ b) = foundNodes a ++ foundNodes b := by
  simp [foundNodes, List.filterMap_append]

theorem lookupsOf_append (a b : List Event) :
    lookupsOf (a ++ b) = lookupsOf a ++ lookupsOf b := by
  simp [lookupsOf, List.filterMap_append]

theorem readyLoop_result {σ : Type} (svc : Services σ) :
    ∀ (l : List autoscaling.Instance) (acc : List v1.Node) (n : Nat) (s : σ)
      (ready : List v1.Node) (m : Nat),
      (readyLoop svc l acc n s).val = some (ready, m) →
      ready = acc ++ ((foundNodes (readyLoop svc l acc n s).calls).filter specReady).map
          (afterCleanup svc.Parse)
      ∧ m = n + (l.filter notInService).length
          + ((foundNodes (readyLoop svc l acc n s).calls).filter
              (fun node => !specReady node)).length
      ∧ lookupsOf (readyLoop svc l acc n s).calls
        = (l.filter (fun u => !notInService u)).map
            (fun u => (some u, aws.StringValue u.InstanceId)) := by
  intro l
  induction l with
  | nil =>
    intro acc n s ready m h
    simp only [readyLoop, Option.some.injEq, Prod.mk.injEq] at h
    simp [readyLoop, foundNodes, lookupsOf, h.1, h.2]
  | cons u rest ih =>
    intro acc n s ready m h
    unfold readyLoop at h ⊢
    cases hstate : u.LifecycleState with
    | none => rw [hstate] at h; cases h
    | some state =>
      rw [hstate] at h
      try simp only [] at h ⊢
      by_cases hin : state = "InService"
      · have hnot : notInService u = false := by simp [notInService, hstate, hin]
        rw [if_neg (by simpa using hin)] at h ⊢
        try simp only [] at h ⊢
        cases hok : (svc.GetNodeByHostName (aws.StringValue u.InstanceId) s).1 with
        | error msg =>
          rw [hok] at h
          try simp only [] at h ⊢
          obtain ⟨k1, k2, k3⟩ := ih _ _ _ _ _ h
          refine ⟨?_, ?_, ?_⟩
          · rw [k1]; rfl
          · rw [k2]
            simp [List.filter, hnot, foundNodes]
          · simp only [lookupsOf, List.filterMap_cons, List.filter, hnot, Bool.not_false,
              List.map_cons]
            rw [← k3]
            rfl
        | ok node =>
          rw [hok] at h
          try simp only [] at h ⊢
          cases hready : lastConditionReady node with
          | none => rw [hready] at h; cases h
          | some isReady =>
            rw [hready] at h
            try simp only [] at h ⊢
            have hspec := lastConditionReady_spec node isReady hready
            have hcv := cleanUpdatedNode_val svc u node
              (svc.GetNodeByHostName (aws.StringValue u.InstanceId) s).2
            obtain ⟨hf1, hf2⟩ := cleanUpdatedNode_foundNodes svc u node
              (svc.GetNodeByHostName (aws.StringValue u.InstanceId) s).2
            cases hclean : (cleanUpdatedNode svc u node
                (svc.GetNodeByHostName (aws.StringValue u.InstanceId) s).2).val with
            | none => rw [hclean] at h; cases h
            | some node2 =>
              rw [hclean] at h
              try simp only [] at h ⊢
              have hnode2 : node2 = afterCleanup svc.Parse node := by
                rw [hclean] at hcv
                split at hcv
                · cases hcv
                · simp only [Option.some.injEq] at hcv
                  exact hcv
              have hfound : ∀ t : List Event,
                  foundNodes ((⟨some u, Call.GetNodeByHostName
                      (aws.StringValue u.InstanceId) (Reply.ok node)⟩ : Event)
                    :: ((cleanUpdatedNode svc u node
                      (svc.GetNodeByHostName (aws.StringValue u.InstanceId) s).2).calls
                      ++ t)) = node :: foundNodes t := by
                intro t
                have : foundNodes ((⟨some u, Call.GetNodeByHostName
                      (aws.StringValue u.InstanceId) (Reply.ok node)⟩ : Event)
                    :: ((cleanUpdatedNode svc u node
                      (svc.GetNodeByHostName (aws.StringValue u.InstanceId) s).2).calls
                      ++ t)) = node :: foundNodes ((cleanUpdatedNode svc u node
                      (svc.GetNodeByHostName (aws.StringValue u.InstanceId) s).2).calls
                      ++ t) := rfl
                rw [this, foundNodes_append, hf1, List.nil_append]
              have hlook : ∀ t : List Event,
                  lookupsOf ((⟨some u, Call.GetNodeByHostName
                      (aws.StringValue u.InstanceId) (Reply.ok node)⟩ : Event)
                    :: ((cleanUpdatedNode svc u node
                      (svc.GetNodeByHostName (aws.StringValue u.InstanceId) s).2).calls
                      ++ t)) = (some u, aws.StringValue u.InstanceId) :: lookupsOf t := by
                intro t
                have : lookupsOf ((⟨some u, Call.GetNodeByHostName
                      (aws.StringValue u.InstanceId) (Reply.ok node)⟩ : Event)
                    :: ((cleanUpdatedNode svc u node
                      (svc.GetNodeByHostName (aws.StringValue u.InstanceId) s).2).calls
                      ++ t)) = (some u, aws.StringValue u.InstanceId)
                    :: lookupsOf ((cleanUpdatedNode svc u node
                      (svc.GetNodeByHostName (aws.StringValue u.InstanceId) s).2).calls
                      ++ t) := rfl
                rw [this, lookupsOf_append, hf2, List.nil_append]
              rw [hfound, hlook]
              cases isReady with
              | true =>
                simp only [if_true] at h ⊢
                obtain ⟨k1, k2, k3⟩ := ih _ _ _ _ _ h
                refine ⟨?_, ?_, ?_⟩
                · rw [k1, hnode2]
                  simp [List.filter, hspec]
                · rw [k2]
                  simp [List.filter, hnot, hspec]
                · rw [k3]
                  simp [List.filter, hnot]
              | false =>
                simp only [Bool.false_eq_true, if_false] at h ⊢
                obtain ⟨k1, k2, k3⟩ := ih _ _ _ _ _ h
                refine ⟨?_, ?_, ?_⟩
                · rw [k1]
                  simp [List.filter, hspec]
                · rw [k2]
                  simp [List.filter, hnot, hspec]
                  omega
                · rw [k3]
                  simp [List.filter, hnot]
      · have hnot : notInService u = true := by simp [notInService, hstate, hin]
        rw [if_pos (by simpa using hin)] at h ⊢
        obtain ⟨k1, k2, k3⟩ := ih _ _ _ _ _ h
        refine ⟨k1, ?_, ?_⟩
        · rw [k2]
          simp [List.filter, hnot]
          omega
        · rw [k3]
          simp [List.filter, hnot]

theorem readyLoop_returns {σ : Type} (svc : Services σ) :
    ∀ (l : List autoscaling.Instance) (acc : List v1.Node) (n : Nat) (s : σ),
      (∀ u ∈ l, u.LifecycleState ≠ none) →
      (∀ node ∈ foundNodes (readyLoop svc l acc n s).calls,
        node.Status.Conditions ≠ [] ∧ cleanupPanics svc.Parse node = false) →
      (readyLoop svc l acc n s).val ≠ none := by
  intro l
  induction l with
  | nil => intro acc n s _ _; simp [readyLoop]
  | cons u rest ih =>
    intro acc n s hstates hnodes
    have hrest : ∀ v ∈ rest, v.LifecycleState ≠ none :=
      fun v hv => hstates v (List.mem_cons_of_mem _ hv)
    unfold readyLoop at hnodes ⊢
    cases hstate : u.LifecycleState with
    | none => exact absurd hstate (hstates u (List.mem_cons_self _ _))
    | some state =>
      rw [hstate] at hnodes
      try simp only [] at hnodes ⊢
      by_cases hin : state = "InService"
      · rw [if_neg (by simpa using hin)] at hnodes ⊢
        try simp only [] at hnodes ⊢
        cases hok : (svc.GetNodeByHostName (aws.StringValue u.InstanceId) s).1 with
        | error msg =>
          rw [hok] at hnodes
          try simp only [] at hnodes ⊢
          exact ih _ _ _ hrest hnodes
        | ok node =>
          rw [hok] at hnodes
          try simp only [] at hnodes ⊢
          have hhead : ∀ t : List Event, node ∈ foundNodes
              ((⟨some u, Call.GetNodeByHostName (aws.StringValue u.InstanceId)
                (Reply.ok node)⟩ : Event) :: t) := by
            intro t
            have : foundNodes ((⟨some u, Call.GetNodeByHostName
                (aws.StringValue u.InstanceId) (Reply.ok node)⟩ : Event) :: t)
                = node :: foundNodes t := rfl
            rw [this]
            exact List.mem_cons_self _ _
          cases hready : lastConditionReady node with
          | none =>
            rw [hready] at hnodes
            exact absurd hready (lastConditionReady_isSome node (hnodes node (hhead _)).1)
          | some isReady =>
            rw [hready] at hnodes
            try simp only [] at hnodes ⊢
            have hcv := cleanUpdatedNode_val svc u node
              (svc.GetNodeByHostName (aws.StringValue u.InstanceId) s).2
            cases hclean : (cleanUpdatedNode svc u node
                (svc.GetNodeByHostName (aws.StringValue u.InstanceId) s).2).val with
            | none =>
              rw [hclean] at hnodes
              rw [hclean, (hnodes node (hhead _)).2] at hcv
              simp at hcv
            | some node2 =>
              rw [hclean] at hnodes
              try simp only [] at hnodes ⊢
              have sub : ∀ t : List Event, ∀ x ∈ foundNodes t,
                  x ∈ foundNodes ((⟨some u, Call.GetNodeByHostName
                      (aws.StringValue u.InstanceId) (Reply.ok node)⟩ : Event)
                    :: ((cleanUpdatedNode svc u node
                      (svc.GetNodeByHostName (aws.StringValue u.InstanceId) s).2).calls
                      ++ t)) := by
                intro t x hx
                have : foundNodes ((⟨some u, Call.GetNodeByHostName
                      (aws.StringValue u.InstanceId) (Reply.ok node)⟩ : Event)
                    :: ((cleanUpdatedNode svc u node
                      (svc.GetNodeByHostName (aws.StringValue u.InstanceId) s).2).calls
                      ++ t)) = node :: foundNodes ((cleanUpdatedNode svc u node
                      (svc.GetNodeByHostName (aws.StringValue u.InstanceId) s).2).calls
                      ++ t) := rfl
                rw [this, foundNodes_append]
                exact List.mem_cons_of_mem _ (List.mem_append_right _ hx)
              cases isReady with
              | true =>
                simp only [if_true] at hnodes ⊢
                exact ih _ _ _ hrest (fun x hx => hnodes x (sub _ x hx))
              | false =>
                simp only [Bool.false_eq_true, if_false] at hnodes ⊢
                exact ih _ _ _ hrest (fun x hx => hnodes x (sub _ x hx))
      · rw [if_pos (by simpa using hin)] at hnodes ⊢
        exact ih _ _ _ hrest hnodes

/-- Whatever `getReadyNodesAndNumberOfNonReadyNodesOrInstances` returns, its lookups are
issued for the `InService` instances, in instance order and under their instance ids; the
ready nodes are, in that order, the nodes that a lookup returned whose last status
condition has type `Ready` and status `True` (each as the cleanup of main.go 199-224 leaves
the object); and the non-ready count is the number of instances that are not `InService`
plus the number of returned nodes whose last condition is anything else.  The function
returns whenever every instance has its lifecycle state set, every returned node has at
least one status condition and the cleanup does not dereference a nil `TimeAdded`. -/
theorem readyNodes_of_lookups {σ : Type} (svc : Services σ)
    (updatedInstances : List autoscaling.Instance) (s : σ) :
    (∀ ready m,
      (getReadyNodesAndNumberOfNonReadyNodesOrInstances svc updatedInstances s).val
        = some (ready, m) →
      lookupsOf (getReadyNodesAndNumberOfNonReadyNodesOrInstances svc updatedInstances
          s).calls
        = (updatedInstances.filter (fun u => !notInService u)).map
            (fun u => (some u, aws.StringValue u.InstanceId))
      ∧ ready = ((foundNodes (getReadyNodesAndNumberOfNonReadyNodesOrInstances svc
          updatedInstances s).calls).filter specReady).map (afterCleanup svc.Parse)
      ∧ m = (updatedInstances.filter notInService).length
          + ((foundNodes (getReadyNodesAndNumberOfNonReadyNodesOrInstances svc
              updatedInstances s).calls).filter (fun node => !specReady node)).length)
    ∧ ((∀ u ∈ updatedInstances, u.LifecycleState ≠ none) →
      (∀ node ∈ foundNodes (getReadyNodesAndNumberOfNonReadyNodesOrInstances svc
          updatedInstances s).calls,
        node.Status.Conditions ≠ [] ∧ cleanupPanics svc.Parse node = false) →
      ∃ ready m,
        (getReadyNodesAndNumberOfNonReadyNodesOrInstances svc updatedInstances s).val
          = some (ready, m)) := by
  unfold getReadyNodesAndNumberOfNonReadyNodesOrInstances
  refine ⟨?_, ?_⟩
  · intro ready m h
    obtain ⟨k1, k2, k3⟩ := readyLoop_result svc updatedInstances [] 0 s ready m h
    refine ⟨k3, ?_, ?_⟩
    · rw [k1]; rfl
    · rw [k2]; omega
  · intro h1 h2
    have := readyLoop_returns svc updatedInstances [] 0 s h1 h2
    cases hv : (readyLoop svc updatedInstances [] 0 s).val with
    | none => exact absurd hv this
    | some p => exact ⟨p.1, p.2, rfl⟩

/-- The readiness evaluation at the sixth and the seventh tick of the test: the node of the updated instance
is returned with the last condition `Ready` `False`, then `True`. -/
theorem readyNodes_of_lookups_example :
    (getReadyNodesAndNumberOfNonReadyNodesOrInstances World.services [newInstance]
        notReadyWorld).val = some ([], 1)
    ∧ (getReadyNodesAndNumberOfNonReadyNodesOrInstances World.services
        [testInstance "new-0" "v2" none "Pending", newInstance]
        ⟨[testNode "new-1" [] [] "True"], [], [], [], 100, [], []⟩).val
      = some ([testNode "new-1" [] [] "True"], 1)
    ∧ lookupsOf (getReadyNodesAndNumberOfNonReadyNodesOrInstances World.services
        [testInstance "new-0" "v2" none "Pending", newInstance]
        ⟨[testNode "new-1" [] [] "True"], [], [], [], 100, [], []⟩).calls
      = [(some newInstance, "new-1")] :=
  ⟨by decide, by decide,
    ((readyNodes_of_lookups World.services [testInstance "new-0" "v2" none "Pending", newInstance]
      ⟨[testNode "new-1" [] [] "True"], [], [], [], 100, [], []⟩).1
      [testNode "new-1" [] [] "True"] 1 (by decide)).1⟩

/-- C25 fails on the code for a node without status conditions: the updated instance is
`InService`, the lookup returns its node, and indexing the empty condition list at
`len(conditions)-1` panics; the readiness evaluation returns nothing, where the claim has
the count 1 and no ready node, and the tick ends in the panic before the outdated instance
is looked at. -/
theorem C25_empty_conditions_panic :
    (World.services.GetNodeByHostName "new-1" silentWorld).1 = Reply.ok silentNode
    ∧ silentNode.Status.Conditions = []
    ∧ lastConditionReady silentNode = none
    ∧ (getReadyNodesAndNumberOfNonReadyNodesOrInstances World.services [newInstance]
        silentWorld).val = none
    ∧ (HandleRollingUpgrade World.services testConfig [mixedGroup] silentWorld).crashed
      = true
    ∧ (HandleRollingUpgrade World.services testConfig [mixedGroup]
        silentWorld).runs.map (fun r => r.calls.map (fun e => e.call))
      = [[Call.GetNodeByHostName "new-1" (Reply.ok silentNode)]] := by
  decide

/-! ## Markers are kept -/

theorem keeps_refl (h : String) (nodes : List v1.Node) : keepsMarkers h nodes nodes :=
  fun a ha => ⟨a, ha, fun _ hk => hk⟩

theorem keeps_trans (h : String) (a b c : List v1.Node) (h1 : keepsMarkers h a b)
    (h2 : keepsMarkers h b c) : keepsMarkers h a c := by
  intro x hx
  obtain ⟨y, hy, k1⟩ := h1 x hx
  obtain ⟨z, hz, k2⟩ := h2 y hy
  exact ⟨z, hz, fun key hk => k2 key (k1 key hk)⟩

theorem keeps_of_eq (h : String) (a b : List v1.Node) (e : b = a) : keepsMarkers h a b := by
  rw [e]; exact keeps_refl h a

theorem keeps_of_lookup (h : String) (a b : List v1.Node)
    (e : storeLookup b h = storeLookup a h) : keepsMarkers h a b :=
  fun x hx => ⟨x, by rw [e]; exact hx, fun _ hk => hk⟩

theorem storeLookup_replaceNode_ne (nodes : List v1.Node) (node : v1.Node) (h : String)
    (hne : node.Name ≠ h) : storeLookup (replaceNode nodes node) h = storeLookup nodes h := by
  have key : (replaceNode nodes node).find? (fun n => decide (n.Name = h))
      = nodes.find? (fun n => decide (n.Name = h)) := by
    induction nodes with
    | nil => rfl
    | cons n rest ih =>
      have hcons : replaceNode (n :: rest) node
          = (if n.Name = node.Name then node else n) :: replaceNode rest node := rfl
      rw [hcons]
      by_cases e : n.Name = node.Name
      · have e2 : ¬ n.Name = h := by rw [e]; exact hne
        rw [if_pos e, List.find?_cons_of_neg _ (by simpa using hne),
          List.find?_cons_of_neg _ (by simpa using e2)]
        exact ih
      · rw [if_neg e]
        by_cases e2 : n.Name = h
        · rw [List.find?_cons_of_pos _ (by simpa using e2),
            List.find?_cons_of_pos _ (by simpa using e2)]
        · rw [List.find?_cons_of_neg _ (by simpa using e2),
            List.find?_cons_of_neg _ (by simpa using e2)]
          exact ih
  unfold storeLookup
  rw [key]

theorem annotate_keeps (host key value : String) (w : World) (h : String) :
    keepsMarkers h w.nodes (World.AnnotateNodeByHostName host key value w).2.nodes := by
  rcases annotate_nodes host key value w with ⟨_, h2⟩ | ⟨hnone, node, hl, hname, h2⟩
  · exact keeps_of_eq h _ _ h2
  · by_cases e : host = h
    · subst e
      intro a ha
      obtain ⟨x, hx1, hx2⟩ := annotate_lookup host key value w hnone
      rw [ha] at hx1
      simp only [Option.some.injEq] at hx1
      refine ⟨_, hx2, ?_⟩
      intro k hk
      by_cases ek : k = key
      · rw [ek]; exact carries_insert_same _ _ _
      · rw [carries_insert_ne _ _ _ _ ek, ← hx1]; exact hk
    · apply keeps_of_lookup
      rw [h2]
      apply storeLookup_replaceNode_ne
      show node.Name ≠ h
      rw [hname]
      exact e

theorem startRollout_keeps (i : autoscaling.Instance) (w : World) (h : String) :
    keepsMarkers h w.nodes (startRollout World.services i w).st.nodes := by
  unfold startRollout
  simp only [World.services]
  exact annotate_keeps _ _ _ w h

theorem terminateStep_keeps (i : autoscaling.Instance) (m : Int) (w : World) (h : String) :
    keepsMarkers h w.nodes (terminateStep World.services i m w).st.nodes := by
  unfold terminateStep
  simp only [World.services]
  split
  · split
    · exact keeps_of_eq h _ _ (terminate_nodes i w)
    · exact keeps_trans h _ _ _ (keeps_of_eq h _ _ (terminate_nodes i w))
        (annotate_keeps _ _ _ _ h)
  · exact keeps_refl h _

theorem drainAndTerminate_keeps (cfg : config) (i : autoscaling.Instance) (node : v1.Node)
    (md mt : Int) (w : World) (h : String) :
    keepsMarkers h w.nodes (drainAndTerminate World.services cfg i node md mt w).st.nodes := by
  unfold drainAndTerminate
  simp only [World.services]
  have hd : keepsMarkers h w.nodes
      (World.Drain node.Name cfg.IgnoreDaemonSets cfg.DeleteLocalData w).2.nodes :=
    keeps_of_lookup h _ _ (drain_lookup _ _ _ w h)
  split
  · split
    · exact hd
    · exact keeps_trans h _ _ _ hd
        (keeps_trans h _ _ _ (annotate_keeps _ _ _ _ h) (terminateStep_keeps i mt _ h))
  · exact terminateStep_keeps i mt w h

theorem handleOutdatedNode_keeps (cfg : config) (g : autoscaling.Group)
    (ready : List v1.Node) (i : autoscaling.Instance) (node : v1.Node) (w : World)
    (h : String) :
    keepsMarkers h w.nodes (handleOutdatedNode World.services cfg g ready i node w).st.nodes := by
  unfold handleOutdatedNode
  simp only [timestamps_state]
  split
  · exact startRollout_keeps i w h
  · have hc : keepsMarkers h w.nodes
        (World.services.CheckIfNodeHasEnoughResourcesToTransferAllPodsInNodes node ready
          w).2.nodes := keeps_of_eq h _ _ (check_nodes node ready w)
    split
    · exact keeps_trans h _ _ _ hc (drainAndTerminate_keeps cfg i node _ _ _ h)
    · exact keeps_trans h _ _ _ hc
        (keeps_of_eq h _ _ (increaseDesiredCount_nodes g i _))

theorem handleOutdatedInstance_keeps (cfg : config) (g : autoscaling.Group)
    (ready : List v1.Node) (i : autoscaling.Instance) (w : World) (h : String) :
    keepsMarkers h w.nodes (handleOutdatedInstance World.services cfg g ready i w).st.nodes := by
  unfold handleOutdatedInstance
  simp only []
  have hg : keepsMarkers h w.nodes
      (World.services.GetNodeByHostName (aws.StringValue i.InstanceId) w).2.nodes :=
    keeps_of_eq h _ _ (getNode_nodes _ w)
  split
  · exact hg
  · exact keeps_trans h _ _ _ hg (handleOutdatedNode_keeps cfg g ready i _ _ h)

theorem outdatedLoop_keeps (cfg : config) (g : autoscaling.Group) (ready : List v1.Node)
    (h : String) :
    ∀ (l : List autoscaling.Instance) (w : World),
      keepsMarkers h w.nodes (outdatedLoop World.services cfg g ready l w).st.nodes := by
  intro l
  induction l with
  | nil => intro w; exact keeps_refl h _
  | cons i rest ih =>
    intro w
    have hi := handleOutdatedInstance_keeps cfg g ready i w h
    unfold outdatedLoop
    simp only []
    split
    · exact keeps_trans h _ _ _ hi (ih _)
    · exact hi
    · exact hi

theorem cleanUpdatedNode_keeps (u : autoscaling.Instance) (node : v1.Node) (w : World)
    (h : String) (hne : node.Name ≠ h) :
    keepsMarkers h w.nodes (cleanUpdatedNode World.services u node w).st.nodes := by
  unfold cleanUpdatedNode
  split
  · exact keeps_refl h _
  · split
    · exact keeps_refl h _
    · exact keeps_refl h _
    · rename_i k _
      rcases updateNode_nodes (cleanedNode node k) w with ⟨_, e2⟩ | ⟨_, e2⟩
      · apply keeps_of_lookup
        show storeLookup (World.UpdateNode (cleanedNode node k) w).2.nodes h = _
        rw [e2]
        exact storeLookup_replaceNode_ne _ _ h hne
      · exact keeps_of_eq h _ _ e2

theorem readyLoop_keeps (h : String) :
    ∀ (l : List autoscaling.Instance) (acc : List v1.Node) (n : Nat) (w : World),
      (∀ u ∈ l, aws.StringValue u.InstanceId ≠ h) →
      keepsMarkers h w.nodes (readyLoop World.services l acc n w).st.nodes := by
  intro l
  induction l with
  | nil => intro acc n w _; exact keeps_refl h _
  | cons u rest ih =>
    intro acc n w hids
    have hrest : ∀ v ∈ rest, aws.StringValue v.InstanceId ≠ h :=
      fun v hv => hids v (List.mem_cons_of_mem _ hv)
    have hg : keepsMarkers h w.nodes
        (World.services.GetNodeByHostName (aws.StringValue u.InstanceId) w).2.nodes :=
      keeps_of_eq h _ _ (getNode_nodes _ w)
    unfold readyLoop
    cases hs : u.LifecycleState with
    | none => exact keeps_refl h _
    | some state =>
      simp only []
      by_cases hin : state ≠ "InService"
      · rw [if_pos hin]
        exact ih _ _ _ hrest
      · rw [if_neg hin]
        cases hok : (World.services.GetNodeByHostName (aws.StringValue u.InstanceId) w).1 with
        | error e =>
          simp only []
          exact keeps_trans h _ _ _ hg (ih _ _ _ hrest)
        | ok node =>
          simp only []
          have hname : node.Name ≠ h := by
            rw [getNode_name _ w node hok]
            exact hids u (List.mem_cons_self _ _)
          have hcl := keeps_trans h _ _ _ hg (cleanUpdatedNode_keeps u node
            (World.services.GetNodeByHostName (aws.StringValue u.InstanceId) w).2 h hname)
          cases hr : lastConditionReady node with
          | none => exact hg
          | some ready =>
            simp only []
            cases hc : (cleanUpdatedNode World.services u node
                (World.services.GetNodeByHostName (aws.StringValue u.InstanceId) w).2).val with
            | none => exact hcl
            | some nd =>
              simp only []
              cases ready with
              | true =>
                simp only [if_true]
                exact keeps_trans h _ _ _ hcl (ih _ _ _ hrest)
              | false =>
                simp only [Bool.false_eq_true, if_false]
                exact keeps_trans h _ _ _ hcl (ih _ _ _ hrest)

theorem handleAutoScalingGroup_keeps (cfg : config) (g : autoscaling.Group) (w : World)
    (h : String)
    (hids : ∀ old new, (handleAutoScalingGroup World.services cfg g w).classified
        = Result.ok (old, new) →
      ∀ u ∈ new, aws.StringValue u.InstanceId ≠ h) :
    keepsMarkers h w.nodes (handleAutoScalingGroup World.services cfg g w).st.nodes := by
  have hc : keepsMarkers h w.nodes
      (SeparateOutdatedFromUpdatedInstances World.services g w).st.nodes :=
    keeps_of_eq h _ _ (classification_nodes g w)
  obtain ⟨_, hcv, hcases⟩ := handleAutoScalingGroup_cases World.services cfg g w _ _ rfl rfl
  rcases hcases with ⟨_, _, hst, _⟩ | ⟨old, new, rd, hok, hrd, hcases⟩
  · rw [hst]; exact hc
  · have hnew := hids old new (by rw [hcv, hok])
    have hr : keepsMarkers h w.nodes rd.st.nodes := by
      rw [hrd]
      exact keeps_trans h _ _ _ hc (readyLoop_keeps h new [] 0 _ hnew)
    rcases hcases with ⟨_, _, hst, _⟩ | ⟨ready, lp, _, _, hlp, _, _, hst⟩
    · rw [hst]; exact hr
    · rw [hst, hlp]
      exact keeps_trans h _ _ _ hr (outdatedLoop_keeps cfg g ready h old _)

theorem tick_keeps (cfg : config) (h : String) :
    ∀ (groups : List autoscaling.Group) (w : World),
      (∀ r ∈ (HandleRollingUpgrade World.services cfg groups w).runs,
        ∀ old new, r.classified = Result.ok (old, new) →
        ∀ u ∈ new, aws.StringValue u.InstanceId ≠ h) →
      keepsMarkers h w.nodes (HandleRollingUpgrade World.services cfg groups w).st.nodes := by
  intro groups
  induction groups with
  | nil => intro w _; exact keeps_refl h _
  | cons g rest ih =>
    intro w hids
    unfold HandleRollingUpgrade at hids ⊢
    simp only [] at hids ⊢
    cases hf : (handleAutoScalingGroup World.services cfg g w).flow with
    | next =>
      simp only [hf] at hids ⊢
      exact keeps_trans h _ _ _
        (handleAutoScalingGroup_keeps cfg g w h (hids _ (List.mem_cons_self _ _)))
        (ih _ (fun r hr => hids r (List.mem_cons_of_mem _ hr)))
    | ret =>
      simp only [hf] at hids ⊢
      exact handleAutoScalingGroup_keeps cfg g w h (hids _ (List.mem_singleton_self _))
    | crash =>
      simp only [hf] at hids ⊢
      exact handleAutoScalingGroup_keeps cfg g w h (hids _ (List.mem_singleton_self _))

/-- C28: in the in-memory world, the node stored under a host name before a tick of
`HandleRollingUpgrade` is still stored after the tick and carries every annotation key it
carried, started-at, drained-at and terminated-at among them, whatever the adapter calls
return, provided that the host name is not the instance id of an instance that the tick
classifies as updated (the cleanup of main.go 199-224 deletes started-at on the nodes of
updated instances only).  So the markers of the node of an outdated instance are only
added to. -/
theorem C28_markers_kept (cfg : config) (groups : List autoscaling.Group) (w : World)
    (hostName : String) (a : List (String × String))
    (hbefore : storeLookup w.nodes hostName = some a)
    (hids : ∀ r ∈ (HandleRollingUpgrade World.services cfg groups w).runs,
      ∀ old new, r.classified = Result.ok (old, new) →
      ∀ u ∈ new, aws.StringValue u.InstanceId ≠ hostName) :
    ∃ a2, storeLookup (HandleRollingUpgrade World.services cfg groups w).st.nodes hostName
        = some a2
      ∧ (∀ key, carries a key = true → carries a2 key = true)
      ∧ (carries a k8s.RollingUpdateStartedTimestampAnnotationKey = true →
          carries a2 k8s.RollingUpdateStartedTimestampAnnotationKey = true)
      ∧ (carries a k8s.RollingUpdateDrainedTimestampAnnotationKey = true →
          carries a2 k8s.RollingUpdateDrainedTimestampAnnotationKey = true)
      ∧ (carries a k8s.RollingUpdateTerminatedTimestampAnnotationKey = true →
          carries a2 k8s.RollingUpdateTerminatedTimestampAnnotationKey = true) := by
  obtain ⟨a2, h1, h2⟩ := tick_keeps cfg hostName groups w hids a hbefore
  exact ⟨a2, h1, h2, h2 _, h2 _, h2 _⟩

theorem oneOutdated_no_updated (w : World) (r : GroupRun World)
    (hr : r ∈ (HandleRollingUpgrade World.services testConfig [oneOutdatedGroup] w).runs)
    (old new : List autoscaling.Instance) (hcl : r.classified = Result.ok (old, new)) :
    new = [] := by
  obtain ⟨g, hg, s0, e⟩ := runs_mem World.services testConfig _ w r hr
  simp only [List.mem_singleton] at hg
  subst hg
  have hc := (handleAutoScalingGroup_cases World.services testConfig oneOutdatedGroup s0 r _
    e rfl).2.1
  have hv : (SeparateOutdatedFromUpdatedInstances World.services oneOutdatedGroup s0).val
      = Result.ok ([oldInstance], []) := by
    rw [separate_of_selected]
    rfl
  rw [hc, hv] at hcl
  injection hcl with h1
  injection h1 with _ h2
  exact h2.symm

/-- C28 at the seventh tick of the test: the node of the outdated instance carries
started-at before the tick and the three markers after it. -/
theorem C28_markers_kept_witness :
    storeLookup sufficientWorld.nodes "old-1"
      = some [(k8s.RollingUpdateStartedTimestampAnnotationKey, "5")]
    ∧ (storeLookup (HandleRollingUpgrade World.services testConfig [oneOutdatedGroup]
        sufficientWorld).st.nodes "old-1").map
        (fun a => carries a k8s.RollingUpdateStartedTimestampAnnotationKey) = some true
    ∧ ∃ a2, storeLookup (HandleRollingUpgrade World.services testConfig [oneOutdatedGroup]
          sufficientWorld).st.nodes "old-1" = some a2
        ∧ ∀ key, carries [(k8s.RollingUpdateStartedTimestampAnnotationKey, "5")] key = true →
          carries a2 key = true :=
  ⟨by decide, by decide,
    match C28_markers_kept testConfig [oneOutdatedGroup] sufficientWorld "old-1"
      [(k8s.RollingUpdateStartedTimestampAnnotationKey, "5")] (by decide)
      (fun r hr old new hcl u hu => by
        rw [oneOutdated_no_updated sufficientWorld r hr old new hcl] at hu
        cases hu) with
    | ⟨a2, h1, h2, _⟩ => ⟨a2, h1, h2⟩⟩

/-! ## The configuration -/

theorem length_eq_zero_iff (s : String) : s.length = 0 ↔ s = "" := by
  constructor
  · intro h
    have hd : s.data = [] := List.length_eq_zero.mp h
    exact String.ext hd
  · intro h
    rw [h]
    rfl

theorem toLower_eq_empty (lower : Char → Char) (s : String) :
    strings.ToLower lower s = "" ↔ s = "" := by
  constructor
  · intro h
    have hd : (strings.ToLower lower s).data = [] := by rw [h]
    have : s.data = [] := by
      simpa [strings.ToLower] using hd
    exact String.ext this
  · intro h
    rw [h]
    rfl

theorem toLower_eq_true (lower : Char → Char)
    (hlower : ∀ r : Char, (lower r = 't' ↔ r = 't' ∨ r = 'T')
      ∧ (lower r = 'r' ↔ r = 'r' ∨ r = 'R') ∧ (lower r = 'u' ↔ r = 'u' ∨ r = 'U')
      ∧ (lower r = 'e' ↔ r = 'e' ∨ r = 'E'))
    (s : String) :
    strings.ToLower lower s = "true" ↔ isTrueIgnoringCase s = true := by
  have hdata : strings.ToLower lower s = "true"
      ↔ s.data.map lower = ['t', 'r', 'u', 'e'] := by
    constructor
    · intro h
      have : (strings.ToLower lower s).data = "true".data := by rw [h]
      exact this
    · intro h
      exact String.ext h
  rw [hdata]
  unfold isTrueIgnoringCase
  match hs : s.data with
  | [] => simp
  | [_] => simp
  | [_, _] => simp
  | [_, _, _] => simp
  | [a, b, c, d] =>
    simp only [List.map_cons, List.map_nil, List.cons.injEq, and_true, Bool.and_eq_true,
      Bool.or_eq_true, beq_iff_eq]
    rw [(hlower a).1, (hlower b).2.1, (hlower c).2.2.1, (hlower d).2.2.2]
    tauto
  | _ :: _ :: _ :: _ :: _ :: _ => simp

theorem upper_toLower (c : Char) (h1 : 65 ≤ c.toNat) (h2 : c.toNat ≤ 90) :
    ∀ x ∈ ['t', 'r', 'u', 'e'],
      (Char.ofNat (c.toNat + 32) = x ↔ c = Char.ofNat (x.toNat - 32)) := by
  have hc := Char.ofNat_toNat c
  generalize c.toNat = n at h1 h2 hc
  subst hc
  interval_cases n <;> decide

theorem accented_toLower (c : Char) (h1 : 192 ≤ c.toNat) (h2 : c.toNat ≤ 222) :
    ∀ x ∈ ['t', 'r', 'u', 'e'], Char.ofNat (c.toNat + 32) ≠ x := by
  generalize c.toNat = n at h1 h2
  interval_cases n <;> decide

theorem latin1Lower_eq (c : Char) :
    ∀ x ∈ ['t', 'r', 'u', 'e'],
      (unicode.latin1Lower c = x ↔ (c = x ∨ c = Char.ofNat (x.toNat - 32))) := by
  intro x hx
  have hxs : x.toNat < 128 ∧ ¬ (65 ≤ x.toNat ∧ x.toNat ≤ 90)
      ∧ (Char.ofNat (x.toNat - 32)).toNat < 128
      ∧ (65 ≤ (Char.ofNat (x.toNat - 32)).toNat
        ∧ (Char.ofNat (x.toNat - 32)).toNat ≤ 90) := by
    simp only [List.mem_cons, List.mem_singleton, List.not_mem_nil, or_false] at hx
    rcases hx with e | e | e | e <;> subst e <;> decide
  unfold unicode.latin1Lower
  by_cases hr : 65 ≤ c.toNat ∧ c.toNat ≤ 90
  · rw [if_pos (Or.inl hr), upper_toLower c hr.1 hr.2 x hx]
    constructor
    · exact Or.inr
    · rintro (h | h)
      · exfalso
        rw [h] at hr
        exact hxs.2.1 hr
      · exact h
  · by_cases ha : (192 ≤ c.toNat ∧ c.toNat ≤ 214) ∨ (216 ≤ c.toNat ∧ c.toNat ≤ 222)
    · rw [if_pos (Or.inr ha)]
      have hlo : 192 ≤ c.toNat := by omega
      have hhi : c.toNat ≤ 222 := by omega
      constructor
      · intro h
        exact absurd h (accented_toLower c hlo hhi x hx)
      · rintro (h | h)
        · exfalso
          rw [h] at hlo
          omega
        · exfalso
          rw [h] at hlo
          omega
    · rw [if_neg (by
        rintro (h | h)
        · exact hr h
        · exact ha h)]
      constructor
      · exact Or.inl
      · rintro (h | h)
        · exact h
        · exfalso
          rw [h] at hr
          exact hr hxs.2.2.2

theorem latin1Lower_letters (r : Char) :
    (unicode.latin1Lower r = 't' ↔ r = 't' ∨ r = 'T')
    ∧ (unicode.latin1Lower r = 'r' ↔ r = 'r' ∨ r = 'R')
    ∧ (unicode.latin1Lower r = 'u' ↔ r = 'u' ∨ r = 'U')
    ∧ (unicode.latin1Lower r = 'e' ↔ r = 'e' ∨ r = 'E') :=
  ⟨latin1Lower_eq r 't' (by decide), latin1Lower_eq r 'r' (by decide),
    latin1Lower_eq r 'u' (by decide), latin1Lower_eq r 'e' (by decide)⟩

theorem splitRunes_ne_nil (sep : Char) (cs : List Char) : strings.splitRunes sep cs ≠ [] := by
  cases cs with
  | nil => simp [strings.splitRunes]
  | cons c cs =>
    unfold strings.splitRunes
    split
    · simp
    · split <;> simp

theorem splitRunes_cons_sep (sep : Char) (cs : List Char) :
    strings.splitRunes sep (sep :: cs) = [] :: strings.splitRunes sep cs := by
  rw [strings.splitRunes, if_pos rfl]

theorem splitRunes_cons_other (sep c : Char) (cs : List Char) (h : c ≠ sep) :
    ∃ piece pieces, strings.splitRunes sep cs = piece :: pieces
      ∧ strings.splitRunes sep (c :: cs) = (c :: piece) :: pieces := by
  cases hs : strings.splitRunes sep cs with
  | nil => exact absurd hs (splitRunes_ne_nil sep cs)
  | cons piece pieces =>
    refine ⟨piece, pieces, rfl, ?_⟩
    rw [strings.splitRunes, if_neg h, hs]

theorem intercalate_cons_cons (sep a b : List Char) (l : List (List Char)) :
    List.intercalate sep (a :: b :: l) = a ++ sep ++ List.intercalate sep (b :: l) := by
  simp [List.intercalate, List.intersperse]

theorem intercalate_cons_head (sep : List Char) (c : Char) (a : List Char)
    (l : List (List Char)) :
    List.intercalate sep ((c :: a) :: l) = c :: List.intercalate sep (a :: l) := by
  cases l with
  | nil => simp [List.intercalate, List.intersperse]
  | cons b l => simp [List.intercalate, List.intersperse]

theorem splitRunes_intercalate (sep : Char) :
    ∀ cs : List Char, List.intercalate [sep] (strings.splitRunes sep cs) = cs := by
  intro cs
  induction cs with
  | nil => simp [strings.splitRunes, List.intercalate, List.intersperse]
  | cons c cs ih =>
    by_cases h : c = sep
    · subst h
      rw [splitRunes_cons_sep]
      cases hs : strings.splitRunes c cs with
      | nil => exact absurd hs (splitRunes_ne_nil c cs)
      | cons piece pieces =>
        rw [intercalate_cons_cons, ← hs, ih]
        rfl
    · obtain ⟨piece, pieces, h1, h2⟩ := splitRunes_cons_other sep c cs h
      rw [h2, intercalate_cons_head, ← h1, ih]

theorem splitRunes_no_sep (sep : Char) :
    ∀ cs : List Char, ∀ piece ∈ strings.splitRunes sep cs, sep ∉ piece := by
  intro cs
  induction cs with
  | nil => simp [strings.splitRunes]
  | cons c cs ih =>
    by_cases h : c = sep
    · subst h
      rw [splitRunes_cons_sep]
      intro piece hp
      simp only [List.mem_cons] at hp
      rcases hp with hp | hp
      · rw [hp]; simp
      · exact ih piece hp
    · obtain ⟨piece, pieces, h1, h2⟩ := splitRunes_cons_other sep c cs h
      rw [h2]
      rw [h1] at ih
      intro p hp
      simp only [List.mem_cons] at hp
      rcases hp with hp | hp
      · rw [hp]
        simp only [List.mem_cons, not_or]
        exact ⟨fun e => h e.symm, ih piece (List.mem_cons_self _ _)⟩
      · exact ih p (List.mem_cons_of_mem _ hp)

theorem splitRunes_length (sep : Char) :
    ∀ cs : List Char, (strings.splitRunes sep cs).length = cs.count sep + 1 := by
  intro cs
  induction cs with
  | nil => simp [strings.splitRunes]
  | cons c cs ih =>
    by_cases h : c = sep
    · subst h
      rw [splitRunes_cons_sep]
      simp [ih]
    · obtain ⟨piece, pieces, h1, h2⟩ := splitRunes_cons_other sep c cs h
      rw [h2]
      rw [h1] at ih
      rw [List.count_cons_of_ne (fun e => h e.symm)]
      simpa using ih

theorem head_dropWhile (p : Char → Bool) :
    ∀ (l : List Char) (c : Char), (l.dropWhile p).head? = some c → p c = false := by
  intro l
  induction l with
  | nil => intro c h; simp at h
  | cons x l ih =>
    intro c h
    by_cases hx : p x = true
    · rw [List.dropWhile_cons_of_pos hx] at h
      exact ih c h
    · rw [List.dropWhile_cons_of_neg hx] at h
      simp only [List.head?_cons, Option.some.injEq] at h
      rw [← h]
      simpa using hx

theorem trimSpace_parts (s : String) :
    ∃ pre post : List Char,
      s.data = pre ++ (strings.TrimSpace s).data ++ post
      ∧ (∀ c ∈ pre, unicode.IsSpace c = true) ∧ (∀ c ∈ post, unicode.IsSpace c = true)
      ∧ (∀ c, (strings.TrimSpace s).data.head? = some c → unicode.IsSpace c = false)
      ∧ (∀ c, (strings.TrimSpace s).data.getLast? = some c → unicode.IsSpace c = false) := by
  have h1 := List.takeWhile_append_dropWhile unicode.IsSpace s.data
  have h2 := List.takeWhile_append_dropWhile unicode.IsSpace
    (s.data.dropWhile unicode.IsSpace).reverse
  have h3 : s.data.dropWhile unicode.IsSpace
      = ((s.data.dropWhile unicode.IsSpace).reverse.dropWhile unicode.IsSpace).reverse
        ++ ((s.data.dropWhile unicode.IsSpace).reverse.takeWhile unicode.IsSpace).reverse := by
    rw [← List.reverse_append, h2, List.reverse_reverse]
  refine ⟨s.data.takeWhile unicode.IsSpace,
    ((s.data.dropWhile unicode.IsSpace).reverse.takeWhile unicode.IsSpace).reverse,
    ?_, ?_, ?_, ?_, ?_⟩
  · show s.data = _ ++ ((s.data.dropWhile unicode.IsSpace).reverse.dropWhile
      unicode.IsSpace).reverse ++ _
    rw [List.append_assoc, ← h3, h1]
  · intro c hc
    exact List.mem_takeWhile_imp hc
  · intro c hc
    rw [List.mem_reverse] at hc
    exact List.mem_takeWhile_imp hc
  · intro c hc
    have hc2 : (((s.data.dropWhile unicode.IsSpace).reverse.dropWhile
        unicode.IsSpace).reverse).head? = some c := hc
    apply head_dropWhile unicode.IsSpace s.data c
    rw [h3]
    cases hl : ((s.data.dropWhile unicode.IsSpace).reverse.dropWhile
        unicode.IsSpace).reverse with
    | nil => rw [hl] at hc2; simp at hc2
    | cons x l =>
      rw [hl] at hc2
      simpa using hc2
  · intro c hc
    have hc2 : (((s.data.dropWhile unicode.IsSpace).reverse.dropWhile
        unicode.IsSpace).reverse).getLast? = some c := hc
    rw [List.getLast?_reverse] at hc2
    exact head_dropWhile unicode.IsSpace _ c hc2

theorem initialize_of_names (lower : Char → Char) (env : String → Option String)
    (h : os.Getenv env config.EnvAutoScalingGroupNames ≠ "") :
    config.Initialize lower env = Reply.ok
      ⟨strings.ToLower lower (os.Getenv env config.EnvEnvironment),
        strings.Split (strings.TrimSpace (os.Getenv env config.EnvAutoScalingGroupNames)) ',',
        if (strings.ToLower lower (os.Getenv env config.EnvAwsRegion)).length = 0 then "us-west-2"
        else strings.ToLower lower (os.Getenv env config.EnvAwsRegion),
        ⟨decide (strings.ToLower lower (os.Getenv env config.EnvDebug) = "true"),
          decide ((strings.ToLower lower (os.Getenv env config.EnvIgnoreDaemonSets)).length = 0
            ∨ strings.ToLower lower (os.Getenv env config.EnvIgnoreDaemonSets) = "true"),
          decide ((strings.ToLower lower (os.Getenv env config.EnvDeleteLocalData)).length = 0
            ∨ strings.ToLower lower (os.Getenv env config.EnvDeleteLocalData) = "true"),
          decide (strings.ToLower lower (os.Getenv env config.EnvCanIncreaseAutoScalingGroupMax)
            = "true")⟩⟩ := by
  unfold config.Initialize
  simp only []
  rw [if_neg (fun e => h ((length_eq_zero_iff _).mp e))]

theorem initialize_without_names (lower : Char → Char) (env : String → Option String)
    (h : os.Getenv env config.EnvAutoScalingGroupNames = "") :
    config.Initialize lower env
      = Reply.error "environment variable 'AUTO_SCALING_GROUP_NAMES' is not set" := by
  unfold config.Initialize
  simp only []
  rw [if_pos ((length_eq_zero_iff _).mpr h)]

theorem getenv_eq_empty (env : String → Option String) (key : String) :
    os.Getenv env key = "" ↔ (env key = none ∨ env key = some "") := by
  unfold os.Getenv
  cases env key with
  | none => simp
  | some v => simp

/-- C22: `config.Initialize` returns an error if and only if `AUTO_SCALING_GROUP_NAMES` is
unset or empty (the error names the variable); when the variable has a non-empty value the
function succeeds and `AutoScalingGroupNames` is that value, trimmed of the white space
around it, split at every comma: the pieces joined by commas give back the trimmed value,
no piece holds a comma, and there is one piece more than there are commas (so a value of
white space alone gives the single empty name). -/
theorem C22_initialize_requires_names (lower : Char → Char)
    (env : String → Option String) :
    ((∃ msg, config.Initialize lower env = Reply.error msg)
      ↔ (env "AUTO_SCALING_GROUP_NAMES" = none ∨ env "AUTO_SCALING_GROUP_NAMES" = some ""))
    ∧ ((env "AUTO_SCALING_GROUP_NAMES" = none ∨ env "AUTO_SCALING_GROUP_NAMES" = some "") →
      config.Initialize lower env
        = Reply.error "environment variable 'AUTO_SCALING_GROUP_NAMES' is not set")
    ∧ (∀ value, env "AUTO_SCALING_GROUP_NAMES" = some value → value ≠ "" →
      ∃ c, config.Initialize lower env = Reply.ok c
        ∧ c.AutoScalingGroupNames = strings.Split (strings.TrimSpace value) ','
        ∧ List.intercalate [','] (c.AutoScalingGroupNames.map String.data)
          = (strings.TrimSpace value).data
        ∧ (∀ name ∈ c.AutoScalingGroupNames, ',' ∉ name.data)
        ∧ c.AutoScalingGroupNames.length = (strings.TrimSpace value).data.count ',' + 1)
    ∧ (∀ value : String, ∃ pre post : List Char,
      value.data = pre ++ (strings.TrimSpace value).data ++ post
      ∧ (∀ c ∈ pre, unicode.IsSpace c = true) ∧ (∀ c ∈ post, unicode.IsSpace c = true)
      ∧ (∀ c, (strings.TrimSpace value).data.head? = some c → unicode.IsSpace c = false)
      ∧ (∀ c, (strings.TrimSpace value).data.getLast? = some c →
          unicode.IsSpace c = false)) := by
  have hkey := getenv_eq_empty env "AUTO_SCALING_GROUP_NAMES"
  refine ⟨?_, ?_, ?_, trimSpace_parts⟩
  · constructor
    · rintro ⟨msg, h⟩
      by_contra hne
      rw [← hkey] at hne
      rw [initialize_of_names lower env hne] at h
      cases h
    · intro h
      exact ⟨_, initialize_without_names lower env (hkey.mpr h)⟩
  · intro h
    exact initialize_without_names lower env (hkey.mpr h)
  · intro value hv hne
    have hg : os.Getenv env config.EnvAutoScalingGroupNames = value := by
      show (env "AUTO_SCALING_GROUP_NAMES").getD "" = value
      rw [hv]
      rfl
    refine ⟨_, initialize_of_names lower env (by rw [hg]; exact hne), ?_, ?_, ?_, ?_⟩
    · rw [hg]
    · simp only [hg, strings.Split, List.map_map]
      have : (String.data ∘ String.mk) = (id : List Char → List Char) := rfl
      rw [this, List.map_id, splitRunes_intercalate]
    · simp only [hg, strings.Split, List.mem_map]
      rintro name ⟨piece, hp, rfl⟩
      exact splitRunes_no_sep ',' _ piece hp
    · simp only [hg, strings.Split, List.length_map]
      exact splitRunes_length ',' _

/-- C22 at three environments: without the variable, with an empty value, and with a value
of four names between white space. -/
theorem C22_initialize_requires_names_witness :
    config.Initialize unicode.latin1Lower (envOf [])
      = Reply.error "environment variable 'AUTO_SCALING_GROUP_NAMES' is not set"
    ∧ config.Initialize unicode.latin1Lower (envOf [("AUTO_SCALING_GROUP_NAMES", "")])
      = Reply.error "environment variable 'AUTO_SCALING_GROUP_NAMES' is not set"
    ∧ ∃ c, config.Initialize unicode.latin1Lower
          (envOf [("AUTO_SCALING_GROUP_NAMES", "  asg-a, asg-b,,c \n")])
        = Reply.ok c
      ∧ c.AutoScalingGroupNames = strings.Split (strings.TrimSpace "  asg-a, asg-b,,c \n") ','
      ∧ strings.Split (strings.TrimSpace "  asg-a, asg-b,,c \n") ','
        = ["asg-a", " asg-b", "", "c"] :=
  ⟨(C22_initialize_requires_names unicode.latin1Lower (envOf [])).2.1 (Or.inl rfl),
    (C22_initialize_requires_names unicode.latin1Lower
      (envOf [("AUTO_SCALING_GROUP_NAMES", "")])).2.1 (Or.inr rfl),
    match (C22_initialize_requires_names unicode.latin1Lower
        (envOf [("AUTO_SCALING_GROUP_NAMES", "  asg-a, asg-b,,c \n")])).2.2.1
        "  asg-a, asg-b,,c \n" rfl (by decide) with
    | ⟨c, h1, h2, _⟩ => ⟨c, h1, h2, by decide⟩⟩

/-- C30: after a successful `config.Initialize`, `IgnoreDaemonSets` and `DeleteLocalData`
are true exactly when their variable is unset or empty or is `true` up to case; `Debug` and
`CanIncreaseAutoScalingGroupMax` are true exactly when their variable is `true` up to case;
`AwsRegion` is `us-west-2` when `AWS_REGION` is unset or empty and the value lower-cased by
`strings.ToLower` otherwise.  So with the optional variables unset the settings are true,
true, false, false and `us-west-2`.  Of the library mapping `unicode.ToLower` the theorem
takes that the runes it maps to a letter of `true` are that letter and its capital. -/
theorem C30_optional_settings (lower : Char → Char) (env : String → Option String)
    (c : Configuration)
    (hlower : ∀ r : Char, (lower r = 't' ↔ r = 't' ∨ r = 'T')
      ∧ (lower r = 'r' ↔ r = 'r' ∨ r = 'R') ∧ (lower r = 'u' ↔ r = 'u' ∨ r = 'U')
      ∧ (lower r = 'e' ↔ r = 'e' ∨ r = 'E'))
    (h : config.Initialize lower env = Reply.ok c) :
    (c.engine.IgnoreDaemonSets = true
      ↔ (env "IGNORE_DAEMON_SETS" = none ∨ env "IGNORE_DAEMON_SETS" = some ""
        ∨ isTrueIgnoringCase (os.Getenv env "IGNORE_DAEMON_SETS") = true))
    ∧ (c.engine.DeleteLocalData = true
      ↔ (env "DELETE_LOCAL_DATA" = none ∨ env "DELETE_LOCAL_DATA" = some ""
        ∨ isTrueIgnoringCase (os.Getenv env "DELETE_LOCAL_DATA") = true))
    ∧ (c.engine.Debug = true ↔ isTrueIgnoringCase (os.Getenv env "DEBUG") = true)
    ∧ (c.engine.CanIncreaseAutoScalingGroupMax = true
      ↔ isTrueIgnoringCase (os.Getenv env "CAN_INCREASE_AUTO_SCALING_GROUP_MAX") = true)
    ∧ ((env "AWS_REGION" = none ∨ env "AWS_REGION" = some "") → c.AwsRegion = "us-west-2")
    ∧ (∀ value, env "AWS_REGION" = some value → value ≠ "" →
        c.AwsRegion = strings.ToLower lower value
        ∧ c.AwsRegion.data = value.data.map lower)
    ∧ (env "IGNORE_DAEMON_SETS" = none → c.engine.IgnoreDaemonSets = true)
    ∧ (env "DELETE_LOCAL_DATA" = none → c.engine.DeleteLocalData = true)
    ∧ (env "DEBUG" = none → c.engine.Debug = false)
    ∧ (env "CAN_INCREASE_AUTO_SCALING_GROUP_MAX" = none →
        c.engine.CanIncreaseAutoScalingGroupMax = false) := by
  have hnames : os.Getenv env config.EnvAutoScalingGroupNames ≠ "" := by
    intro e
    rw [initialize_without_names lower env e] at h
    cases h
  rw [initialize_of_names lower env hnames] at h
  simp only [Reply.ok.injEq] at h
  subst h
  have hflag : ∀ key : String,
      (decide ((strings.ToLower lower (os.Getenv env key)).length = 0
          ∨ strings.ToLower lower (os.Getenv env key) = "true") = true)
      ↔ (env key = none ∨ env key = some ""
          ∨ isTrueIgnoringCase (os.Getenv env key) = true) := by
    intro key
    rw [decide_eq_true_iff, length_eq_zero_iff, toLower_eq_empty,
      toLower_eq_true lower hlower, getenv_eq_empty, or_assoc]
  have hplain : ∀ key : String,
      (decide (strings.ToLower lower (os.Getenv env key) = "true") = true)
      ↔ isTrueIgnoringCase (os.Getenv env key) = true := by
    intro key
    rw [decide_eq_true_iff, toLower_eq_true lower hlower]
  have hunset : ∀ key : String, env key = none → os.Getenv env key = "" := by
    intro key hk
    exact (getenv_eq_empty env key).mpr (Or.inl hk)
  have hfalse : ∀ key : String, env key = none →
      decide (strings.ToLower lower (os.Getenv env key) = "true") = false := by
    intro key hk
    cases hd : decide (strings.ToLower lower (os.Getenv env key) = "true") with
    | false => rfl
    | true =>
      have := (hplain key).mp hd
      rw [hunset key hk] at this
      exact absurd this (by decide)
  refine ⟨hflag _, hflag _, hplain _, hplain _, ?_, ?_, ?_, ?_, ?_, ?_⟩
  · intro hr
    have : os.Getenv env config.EnvAwsRegion = "" := (getenv_eq_empty env _).mpr hr
    show (if (strings.ToLower lower (os.Getenv env config.EnvAwsRegion)).length = 0
      then "us-west-2" else _) = _
    rw [this, if_pos]
    rw [length_eq_zero_iff, toLower_eq_empty]
  · intro value hv hne
    have hg : os.Getenv env config.EnvAwsRegion = value := by
      show (env "AWS_REGION").getD "" = value
      rw [hv]
      rfl
    have : (if (strings.ToLower lower (os.Getenv env config.EnvAwsRegion)).length = 0
        then "us-west-2" else strings.ToLower lower (os.Getenv env config.EnvAwsRegion))
        = strings.ToLower lower value := by
      rw [hg, if_neg]
      rw [length_eq_zero_iff, toLower_eq_empty]
      exact hne
    refine ⟨this, ?_⟩
    show (if (strings.ToLower lower (os.Getenv env config.EnvAwsRegion)).length = 0
        then "us-west-2" else strings.ToLower lower (os.Getenv env config.EnvAwsRegion)).data
        = _
    rw [this]
    rfl
  · intro hk
    exact (hflag _).mpr (Or.inl hk)
  · intro hk
    exact (hflag _).mpr (Or.inl hk)
  · intro hk
    exact hfalse config.EnvDebug hk
  · intro hk
    exact hfalse config.EnvCanIncreaseAutoScalingGroupMax hk

/-- C30 at an environment that sets the group names alone, and at one that sets every
optional variable, the region with a capital outside ASCII; the lower-case mapping is the
one of the library on the Latin-1 range. -/
theorem C30_optional_settings_witness :
    config.Initialize unicode.latin1Lower (envOf [("AUTO_SCALING_GROUP_NAMES", "asg-a")])
      = Reply.ok ⟨"", ["asg-a"], "us-west-2", ⟨false, true, true, false⟩⟩
    ∧ config.Initialize unicode.latin1Lower
        (envOf [("AUTO_SCALING_GROUP_NAMES", "asg-a"), ("DEBUG", "TrUe"),
          ("IGNORE_DAEMON_SETS", "no"), ("DELETE_LOCAL_DATA", "TRUE"),
          ("AWS_REGION", "ÉU-West-1")])
      = Reply.ok ⟨"", ["asg-a"], "éu-west-1", ⟨true, false, true, false⟩⟩
    ∧ ((⟨"", ["asg-a"], "us-west-2", ⟨false, true, true, false⟩⟩ :
        Configuration).engine.IgnoreDaemonSets = true
      ↔ (envOf [("AUTO_SCALING_GROUP_NAMES", "asg-a")] "IGNORE_DAEMON_SETS" = none
        ∨ envOf [("AUTO_SCALING_GROUP_NAMES", "asg-a")] "IGNORE_DAEMON_SETS" = some ""
        ∨ isTrueIgnoringCase
            (os.Getenv (envOf [("AUTO_SCALING_GROUP_NAMES", "asg-a")])
              "IGNORE_DAEMON_SETS") = true)) :=
  ⟨by decide, by decide,
    (C30_optional_settings unicode.latin1Lower (envOf [("AUTO_SCALING_GROUP_NAMES", "asg-a")])
      ⟨"", ["asg-a"], "us-west-2", ⟨false, true, true, false⟩⟩ latin1Lower_letters
      (by decide)).1⟩

/-! ## The claims at concrete ticks, third part -/

/-- C23, amended, at a node whose started-at value is `yesterday`: the reading is 0. -/
theorem C23_unparseable_reads_zero_witness :
    mapLookup garbledNode.Annotations k8s.RollingUpdateStartedTimestampAnnotationKey
      = some "yesterday"
    ∧ World.services.Parse "yesterday" = none
    ∧ minutesSinceKey World.services garbledNode
        k8s.RollingUpdateStartedTimestampAnnotationKey garbledWorld = (0, garbledWorld) :=
  ⟨by decide, by decide,
    (C23_unparseable_reads_zero World.services garbledNode garbledWorld).1
      k8s.RollingUpdateStartedTimestampAnnotationKey "yesterday" (by decide) (by decide)⟩

/-- C24, amended, at a node that carries the three markers, with resources that suffice:
the lookup and the capacity check are the calls of the tick for the instance. -/
theorem C24_marked_node_witness :
    World.services.GetNodeByHostName "old-1" markedSufficientWorld
      = (Reply.ok markedNode, markedSufficientWorld)
    ∧ getRollingUpdateTimestampsFromNode World.services markedNode markedSufficientWorld
      = ((95, 94, 93), markedSufficientWorld)
    ∧ World.services.CheckIfNodeHasEnoughResourcesToTransferAllPodsInNodes markedNode []
        markedSufficientWorld = (true, markedWorld)
    ∧ handleOutdatedInstance World.services testConfig oneOutdatedGroup [] oldInstance
        markedSufficientWorld
      = ⟨Flow.next, markedWorld,
          [⟨some oldInstance, Call.GetNodeByHostName "old-1" (Reply.ok markedNode)⟩,
           ⟨some oldInstance, Call.CheckIfNodeHasEnoughResourcesToTransferAllPodsInNodes
             markedNode [] true⟩]⟩ :=
  ⟨by decide, by decide, by decide,
    ((C24_marked_node World.services testConfig oneOutdatedGroup [] oldInstance []
      markedSufficientWorld markedSufficientWorld markedSufficientWorld markedNode 95 94 93
      (by decide) (by decide) (by decide) (by decide) (by decide)).1 markedWorld
      (by decide)).1⟩

/-- The tick at a node that carries started-at and drained-at, read as 95 and 94
minutes old, with resources that suffice: the tick goes to the termination without a
drain. -/
theorem no_second_drain_when_read_example :
    World.services.GetNodeByHostName "old-1" halfwayWorld = (Reply.ok halfwayNode, halfwayWorld)
    ∧ getRollingUpdateTimestampsFromNode World.services halfwayNode halfwayWorld
      = ((95, 94, -1), halfwayWorld)
    ∧ (handleOutdatedInstance World.services testConfig oneOutdatedGroup [] oldInstance
        halfwayWorld).calls.map
        (fun e => (e.call.isLookup, e.call.isDrain, e.call.isTerminate, e.call.isAnnotate))
      = [(true, false, false, false), (false, false, false, false),
          (false, false, true, false), (false, false, false, true)]
    ∧ ∀ e ∈ (handleOutdatedInstance World.services testConfig oneOutdatedGroup []
          oldInstance halfwayWorld).calls, e.call.isDrain = false :=
  ⟨by decide, by decide, by decide,
    (no_second_drain_when_read World.services testConfig oneOutdatedGroup [] oldInstance
      halfwayWorld halfwayWorld halfwayWorld halfwayNode 95 94 (-1) (by decide) (by decide)
      (by decide)).1⟩

/-- C27 at a tick in which the drain of the started node returns an error: the drain is
the last call for the instance and the pass ends with `continue`. -/
theorem C27_drain_error_skips_witness :
    (⟨some oldInstance, Call.Drain "old-1" false false (some "scripted failure")⟩ : Event)
        ∈ (handleOutdatedInstance World.services testConfig oneOutdatedGroup [] oldInstance
            drainFailsWorld).calls
    ∧ (handleOutdatedInstance World.services testConfig oneOutdatedGroup [] oldInstance
        drainFailsWorld).val = Flow.next
    ∧ (HandleRollingUpgrade World.services testConfig [oneOutdatedGroup]
        drainFailsWorld).st.nodes = drainFailsWorld.nodes :=
  ⟨by decide,
    (C27_drain_error_skips World.services testConfig oneOutdatedGroup [] oldInstance []
      drainFailsWorld
      ⟨some oldInstance, Call.Drain "old-1" false false (some "scripted failure")⟩
      "old-1" false false "scripted failure" (by decide) rfl).1,
    by decide⟩

/-- C29 at a tick in which the cluster holds no node for the outdated instance: the lookup
is the one call. -/
theorem C29_lookup_failure_skips_witness :
    (World.services.GetNodeByHostName "old-1" emptyWorld).1 = Reply.error "node not found"
    ∧ handleOutdatedInstance World.services testConfig oneOutdatedGroup [] oldInstance
        emptyWorld
      = ⟨Flow.next, emptyWorld,
          [⟨some oldInstance, Call.GetNodeByHostName "old-1"
            (Reply.error "node not found")⟩]⟩ :=
  ⟨by decide,
    (C29_lookup_failure_skips World.services testConfig oneOutdatedGroup [] oldInstance []
      emptyWorld "node not found" (by decide)).1⟩

/-! ## The version comparison as an equivalence -/

theorem compare_eq_class (t : ec2.LaunchTemplate)
    (hd : t.DefaultVersionNumber ≠ none) (hl : t.LatestVersionNumber ≠ none)
    (a b : Option autoscaling.LaunchTemplateSpecification) :
    compareLaunchTemplateVersions (some t) a b
      = some (decide (versionClass t a = versionClass t b)) := by
  cases a with
  | none =>
    cases b with
    | none => rfl
    | some b =>
      obtain ⟨bi, bn, bv⟩ := b
      cases bv <;> simp [compareLaunchTemplateVersions, versionClass]
  | some a =>
    obtain ⟨ai, an, av⟩ := a
    cases b with
    | none =>
      cases av <;> simp [compareLaunchTemplateVersions, versionClass]
    | some b =>
      obtain ⟨bi, bn, bv⟩ := b
      cases av with
      | none => cases bv <;> simp [compareLaunchTemplateVersions, versionClass]
      | some v1 =>
        cases bv with
        | none => simp [compareLaunchTemplateVersions, versionClass]
        | some v2 =>
          obtain ⟨r1, h1⟩ := resolveVersion_isSome t v1 hd hl
          obtain ⟨r2, h2⟩ := resolveVersion_isSome t v2 hd hl
          simp [compareLaunchTemplateVersions, versionClass, h1, h2]

/-- C31: for a launch template with both version numbers set,
`compareLaunchTemplateVersions` returns, without a panic, whether its two references are in
the same class (null, without `Version`, or the resolved version); so on the references,
null ones and ones with a null `Version` included, it is reflexive, symmetric and
transitive. -/
theorem C31_compare_is_equivalence (t : ec2.LaunchTemplate)
    (hd : t.DefaultVersionNumber ≠ none) (hl : t.LatestVersionNumber ≠ none) :
    (∀ a, compareLaunchTemplateVersions (some t) a a = some true)
    ∧ (∀ a b, compareLaunchTemplateVersions (some t) a b
        = compareLaunchTemplateVersions (some t) b a)
    ∧ (∀ a b c, compareLaunchTemplateVersions (some t) a b = some true →
        compareLaunchTemplateVersions (some t) b c = some true →
        compareLaunchTemplateVersions (some t) a c = some true)
    ∧ (∀ a b, compareLaunchTemplateVersions (some t) a b
        = some (decide (versionClass t a = versionClass t b))) := by
  have key := compare_eq_class t hd hl
  refine ⟨?_, ?_, ?_, key⟩
  · intro a
    rw [key]
    simp
  · intro a b
    rw [key, key]
    congr 1
    exact decide_eq_decide.mpr ⟨fun h => h.symm, fun h => h.symm⟩
  · intro a b c h1 h2
    rw [key] at h1 h2 ⊢
    simp only [Option.some.injEq, decide_eq_true_eq] at h1 h2 ⊢
    exact h1.trans h2

/-- C31 at the template of the tests (default version 1, latest version 10): `$Latest`,
`10` and again `$Latest` compare equal in a chain. -/
theorem C31_compare_is_equivalence_witness :
    testTemplate.DefaultVersionNumber ≠ none ∧ testTemplate.LatestVersionNumber ≠ none
    ∧ compareLaunchTemplateVersions (some testTemplate) (some (testTarget "$Latest"))
        (some (testTarget "10")) = some true
    ∧ compareLaunchTemplateVersions (some testTemplate) (some (testTarget "10"))
        (some ⟨none, none, some "$Latest"⟩) = some true
    ∧ compareLaunchTemplateVersions (some testTemplate) (some (testTarget "$Latest"))
        (some ⟨none, none, some "$Latest"⟩) = some true :=
  ⟨by decide, by decide, by decide, by decide,
    (C31_compare_is_equivalence testTemplate (by decide) (by decide)).2.2.1
      (some (testTarget "$Latest")) (some (testTarget "10"))
      (some ⟨none, none, some "$Latest"⟩) (by decide) (by decide)⟩

/-! ## The selection of the target -/

/-- C32: `SeparateOutdatedFromUpdatedInstances` classifies by the launch template of the
group when one is set, whatever the mixed instances policy holds; by the launch template of
the mixed instances policy when the group has none of its own and the policy has one; in
both cases the launch configuration name is not read (the result is that of the
launch-template classification, also with any other launch configuration name); and it
classifies by the launch configuration name only when neither yields a launch template. -/
theorem C32_target_precedence {σ : Type} (svc : Services σ) (asg : autoscaling.Group)
    (s : σ) :
    (∀ t, asg.LaunchTemplate = some t →
      SeparateOutdatedFromUpdatedInstances svc asg s
        = SeparateOutdatedFromUpdatedInstancesUsingLaunchTemplate svc (some t)
            asg.Instances s)
    ∧ (∀ policy lt t, asg.LaunchTemplate = none → asg.MixedInstancesPolicy = some policy →
      policy.LaunchTemplate = some lt → lt.LaunchTemplateSpecification = some t →
      SeparateOutdatedFromUpdatedInstances svc asg s
        = SeparateOutdatedFromUpdatedInstancesUsingLaunchTemplate svc (some t)
            asg.Instances s)
    ∧ (∀ t, selectedLaunchTemplate asg = some t →
      ∀ name, SeparateOutdatedFromUpdatedInstances svc
          { asg with LaunchConfigurationName := name } s
        = SeparateOutdatedFromUpdatedInstancesUsingLaunchTemplate svc (some t)
            asg.Instances s)
    ∧ (∀ name, selectedLaunchTemplate asg = none →
      asg.LaunchConfigurationName = some name →
      SeparateOutdatedFromUpdatedInstances svc asg s
        = ⟨SeparateOutdatedFromUpdatedInstancesUsingLaunchConfiguration (some name)
            asg.Instances, s, []⟩)
    ∧ (selectedLaunchTemplate asg = none
      ↔ (asg.LaunchTemplate = none
        ∧ ∀ policy lt, asg.MixedInstancesPolicy = some policy →
            policy.LaunchTemplate = some lt → lt.LaunchTemplateSpecification = none)) := by
  refine ⟨?_, ?_, ?_, ?_, ?_⟩
  · intro t h
    rw [separate_of_selected]
    simp only [selectedLaunchTemplate, h]
  · intro policy lt t h1 h2 h3 h4
    rw [separate_of_selected]
    simp only [selectedLaunchTemplate, h1, h2, h3, h4]
  · intro t h name
    rw [separate_of_selected]
    have : selectedLaunchTemplate { asg with LaunchConfigurationName := name }
        = selectedLaunchTemplate asg := rfl
    rw [this, h]
  · intro name h1 h2
    rw [separate_of_selected]
    simp only [h1, h2]
  · unfold selectedLaunchTemplate
    cases h1 : asg.LaunchTemplate with
    | some t => simp
    | none =>
      cases h2 : asg.MixedInstancesPolicy with
      | none => simp
      | some policy =>
        cases h3 : policy.LaunchTemplate with
        | none =>
          simp only [true_and, h3]
          refine ⟨fun _ p lt hp hlt => ?_, fun _ => trivial⟩
          cases hp
          rw [h3] at hlt
          cases hlt
        | some lt =>
          simp only [true_and, h3]
          refine ⟨fun h p lt2 hp hlt => ?_, fun h => h policy lt rfl h3⟩
          cases hp
          rw [h3] at hlt
          cases hlt
          exact h

/-- C32 at a group that has a launch template of its own, a mixed instances policy with
another one and a launch configuration name: the classification is the one by its own
launch template. -/
theorem C32_target_precedence_witness :
    crowdedGroup.LaunchTemplate = some (testTarget "1")
    ∧ crowdedGroup.MixedInstancesPolicy ≠ none
    ∧ crowdedGroup.LaunchConfigurationName = some "v2"
    ∧ SeparateOutdatedFromUpdatedInstances World.services crowdedGroup templateWorld
      = SeparateOutdatedFromUpdatedInstancesUsingLaunchTemplate World.services
          (some (testTarget "1")) crowdedGroup.Instances templateWorld
    ∧ (SeparateOutdatedFromUpdatedInstances World.services crowdedGroup templateWorld).val
      = Result.ok ([], crowdedGroup.Instances) :=
  ⟨by decide, by decide, by decide,
    (C32_target_precedence World.services crowdedGroup templateWorld).1 (testTarget "1")
      (by decide),
    by decide⟩

/-! ## The cleanup when no taint qualifies -/

theorem scanTaints_no_qualifying (parse : String → Option Int) (v : String) (t0 : Int)
    (hp : parse v = some t0) :
    ∀ (taints : List v1.Taint) (i : Nat),
      (∀ taint ∈ taints, taint.Effect = v1.TaintEffectNoSchedule →
        ∀ ta, taint.TimeAdded = some ta → ¬ ta > t0) →
      (scanTaints parse v taints i = TaintScan.notFound
        ∨ scanTaints parse v taints i = TaintScan.panic)
      ∧ ((∀ taint ∈ taints, taint.Effect = v1.TaintEffectNoSchedule →
            taint.TimeAdded ≠ none) →
          scanTaints parse v taints i = TaintScan.notFound) := by
  intro taints
  induction taints with
  | nil =>
    intro i _
    exact ⟨Or.inl rfl, fun _ => rfl⟩
  | cons taint rest ih =>
    intro i h
    have hrest := ih (i + 1) (fun x hx => h x (List.mem_cons_of_mem _ hx))
    unfold scanTaints
    by_cases he : taint.Effect = v1.TaintEffectNoSchedule
    · rw [if_pos he]
      simp only [hp]
      cases hta : taint.TimeAdded with
      | none =>
        simp only []
        refine ⟨Or.inr trivial, fun hall => ?_⟩
        exact absurd hta (hall taint (List.mem_cons_self _ _) he)
      | some ta =>
        simp only []
        have hnot : ¬ ta > t0 := h taint (List.mem_cons_self _ _) he ta hta
        rw [if_neg hnot]
        exact ⟨hrest.1, fun hall =>
          hrest.2 (fun x hx => hall x (List.mem_cons_of_mem _ hx))⟩
    · rw [if_neg he]
      exact ⟨hrest.1, fun hall =>
        hrest.2 (fun x hx => hall x (List.mem_cons_of_mem _ hx))⟩

/-- C33: for an updated node without started-at, and for one whose started-at parses and
that has no `NoSchedule` taint with a `TimeAdded` after the parsed instant, the cleanup
calls nothing (no `UpdateNode`), leaves the world as it was and passes on no other node
object than the one it got, taints and annotations as they were, started-at included.  It
passes the node on whenever the node has no started-at or every `NoSchedule` taint has a
`TimeAdded` (a nil `TimeAdded` is a panic, still without a call or a change); the iteration
of the evaluator for the instance is then the lookup alone, and a ready node enters the
list as it was looked up. -/
theorem C33_cleanup_leaves_node_untouched {σ : Type} (svc : Services σ)
    (u : autoscaling.Instance) (node : v1.Node)
    (h : mapLookup node.Annotations k8s.RollingUpdateStartedTimestampAnnotationKey = none
      ∨ ∃ v t0, mapLookup node.Annotations k8s.RollingUpdateStartedTimestampAnnotationKey
            = some v
          ∧ svc.Parse v = some t0
          ∧ ∀ taint ∈ node.Spec.Taints, taint.Effect = v1.TaintEffectNoSchedule →
              ∀ ta, taint.TimeAdded = some ta → ¬ ta > t0) :
    (∀ s, (cleanUpdatedNode svc u node s).calls = []
      ∧ (cleanUpdatedNode svc u node s).st = s
      ∧ ∀ n, (cleanUpdatedNode svc u node s).val = some n → n = node)
    ∧ ((mapLookup node.Annotations k8s.RollingUpdateStartedTimestampAnnotationKey = none
        ∨ ∀ taint ∈ node.Spec.Taints, taint.Effect = v1.TaintEffectNoSchedule →
            taint.TimeAdded ≠ none) →
      (∀ s, cleanUpdatedNode svc u node s = ⟨some node, s, []⟩)
      ∧ ∀ rest acc n s ready, u.LifecycleState = some "InService" →
        (svc.GetNodeByHostName (aws.StringValue u.InstanceId) s).1 = Reply.ok node →
        lastConditionReady node = some ready →
        readyLoop svc (u :: rest) acc n s
          = ⟨(if ready then
                readyLoop svc rest (acc ++ [node]) n
                  (svc.GetNodeByHostName (aws.StringValue u.InstanceId) s).2
              else
                readyLoop svc rest acc (n + 1)
                  (svc.GetNodeByHostName (aws.StringValue u.InstanceId) s).2).val,
            (if ready then
                readyLoop svc rest (acc ++ [node]) n
                  (svc.GetNodeByHostName (aws.StringValue u.InstanceId) s).2
              else
                readyLoop svc rest acc (n + 1)
                  (svc.GetNodeByHostName (aws.StringValue u.InstanceId) s).2).st,
            ⟨some u, Call.GetNodeByHostName (aws.StringValue u.InstanceId) (Reply.ok node)⟩
              :: (if ready then
                readyLoop svc rest (acc ++ [node]) n
                  (svc.GetNodeByHostName (aws.StringValue u.InstanceId) s).2
              else
                readyLoop svc rest acc (n + 1)
                  (svc.GetNodeByHostName (aws.StringValue u.InstanceId) s).2).calls⟩) := by
  have hscan : ∀ v, mapLookup node.Annotations k8s.RollingUpdateStartedTimestampAnnotationKey
        = some v →
      (scanTaints svc.Parse v node.Spec.Taints 0 = TaintScan.notFound
        ∨ scanTaints svc.Parse v node.Spec.Taints 0 = TaintScan.panic)
      ∧ ((∀ taint ∈ node.Spec.Taints, taint.Effect = v1.TaintEffectNoSchedule →
            taint.TimeAdded ≠ none) →
          scanTaints svc.Parse v node.Spec.Taints 0 = TaintScan.notFound) := by
    intro v hv
    rcases h with h | ⟨v2, t0, h1, h2, h3⟩
    · rw [h] at hv
      cases hv
    · rw [h1] at hv
      cases hv
      exact scanTaints_no_qualifying svc.Parse v t0 h2 node.Spec.Taints 0 h3
  have hclean : (mapLookup node.Annotations k8s.RollingUpdateStartedTimestampAnnotationKey
        = none
      ∨ ∀ taint ∈ node.Spec.Taints, taint.Effect = v1.TaintEffectNoSchedule →
          taint.TimeAdded ≠ none) →
      ∀ s, cleanUpdatedNode svc u node s = ⟨some node, s, []⟩ := by
    intro hret s
    unfold cleanUpdatedNode
    cases hm : mapLookup node.Annotations k8s.RollingUpdateStartedTimestampAnnotationKey with
    | none => rfl
    | some v =>
      simp only []
      rcases hret with hnone | hall
      · rw [hnone] at hm
        cases hm
      · rw [(hscan v hm).2 hall]
  refine ⟨?_, fun hret => ⟨hclean hret, ?_⟩⟩
  · intro s
    unfold cleanUpdatedNode
    cases hm : mapLookup node.Annotations k8s.RollingUpdateStartedTimestampAnnotationKey with
    | none => exact ⟨rfl, rfl, fun n hn => (Option.some.inj hn).symm⟩
    | some v =>
      simp only []
      rcases (hscan v hm).1 with hs | hs
      · rw [hs]
        exact ⟨rfl, rfl, fun n hn => (Option.some.inj hn).symm⟩
      · rw [hs]
        exact ⟨rfl, rfl, fun n hn => Option.noConfusion hn⟩
  · intro rest acc n s ready hstate hget hready
    rw [readyLoop, hstate]
    simp only [ne_eq, not_true_eq_false, if_false, hget, hready, hclean hret,
      List.nil_append]

/-- C33 at a node with started-at written at the instant 5 and a `NoSchedule` taint added
at the instant 3: the cleanup calls nothing and passes the node on as it was, and the
evaluator returns it as ready after its one lookup, the world unchanged. -/
theorem C33_cleanup_leaves_node_untouched_witness :
    mapLookup earlyTaintNode.Annotations k8s.RollingUpdateStartedTimestampAnnotationKey
      = some "5"
    ∧ World.services.Parse "5" = some 5
    ∧ (∀ s, (cleanUpdatedNode World.services newInstance earlyTaintNode s).calls = []
      ∧ (cleanUpdatedNode World.services newInstance earlyTaintNode s).st = s
      ∧ ∀ n, (cleanUpdatedNode World.services newInstance earlyTaintNode s).val = some n →
          n = earlyTaintNode)
    ∧ getReadyNodesAndNumberOfNonReadyNodesOrInstances World.services [newInstance]
        earlyTaintWorld
      = ⟨some ([earlyTaintNode], 0), earlyTaintWorld,
          [⟨some newInstance, Call.GetNodeByHostName "new-1" (Reply.ok earlyTaintNode)⟩]⟩ :=
  ⟨by decide, by decide,
    (C33_cleanup_leaves_node_untouched World.services newInstance earlyTaintNode
      (Or.inr ⟨"5", 5, by decide, by decide, by
        intro taint ht _ ta hta
        simp only [earlyTaintNode, testNode, List.mem_singleton] at ht
        subst ht
        cases hta
        decide⟩)).1,
    by decide⟩

/-! ## The readiness evaluation on a node with a taint set by hand -/

/-- C21 fails on the code for a found node with a status condition whose `NoSchedule`
taint has no `timeAdded`: the updated instance is `InService`, the lookup returns its node,
the last (and only) condition of the node is `Ready` with status `True`, and the cleanup
that follows in the same iteration dereferences the nil `TimeAdded`; the function returns
nothing, where the claim has the node as the one ready node and the count 0, and the tick
ends in the panic.  With a `timeAdded` on the taint the function returns the node. -/
theorem C21_ready_node_lost_in_panic :
    newInstance.LifecycleState = some "InService"
    ∧ (World.services.GetNodeByHostName "new-1" dedicatedWorld).1 = Reply.ok dedicatedNode
    ∧ dedicatedNode.Status.Conditions ≠ []
    ∧ lastConditionReady dedicatedNode = some true
    ∧ specReady dedicatedNode = true
    ∧ cleanupPanics World.services.Parse dedicatedNode = true
    ∧ (getReadyNodesAndNumberOfNonReadyNodesOrInstances World.services [newInstance]
        dedicatedWorld).val = none
    ∧ (HandleRollingUpgrade World.services testConfig [oneUpdatedGroup]
        dedicatedWorld).crashed = true
    ∧ (getReadyNodesAndNumberOfNonReadyNodesOrInstances World.services [newInstance]
        earlyTaintWorld).val = some ([earlyTaintNode], 0) := by
  decide

end main
